import Mathlib

/-!
# iwinfo ucode bindings: a shallow embedding

The definitions below embed `iwinfo_ucode.c`, the ucode binding of libiwinfo,
and the hardware-profile lookup of `iwinfo_mtk_l1util.c`.  Every C function of
the binding that decodes backend data is a Lean function of the same name.

* ucode values are the inductive type `UcValue`; an object is an ordered
  key/value list and `ucv_object_add` replaces the value of a key that is
  already present, as the ucode library does.
* A native function of the binding returns `Option UcResult`: `some (ret v)`
  when the C function returns the value `v` (`ret null` for `return NULL`),
  `some (raise msg)` when it raises a ucode exception, and `none` when the C
  code has no defined result (an out-of-bounds table read, an over-wide shift,
  or a record loop that does not finish within its step budget).
* The structures, constants and name tables of `iwinfo.h` are not among the
  sources.  The structures list the fields the binding reads; the constants,
  tables and record sizes are the fields of `IwinfoHeader`, a parameter of
  every function that uses them.
* `(struct T *) &buf[i]` is modelled by a view `Int → T`: the record seen at
  byte offset `i` of the scratch buffer after the backend call.  The view is
  total and knows no capacity: a record that reaches past the scratch buffer is
  an out-of-bounds read in C, and the value of the view there does not predict
  what that read yields.
-/

namespace Iwinfo

/-! ## ucode values -/

/-- Values of the ucode host that the binding builds. -/
inductive UcValue where
  | null
  | boolean (b : Bool)
  | int64 (i : Int)
  | uint64 (n : Nat)
  | string (s : String)
  | array (xs : List UcValue)
  | object (kvs : List (String × UcValue))

/-- Key/value pairs of a ucode object, in insertion order. -/
abbrev UcObject := List (String × UcValue)

/-- Outcome of a native function: a returned value or a raised exception. -/
inductive UcResult where
  | ret (v : UcValue)
  | raise (msg : String)

def ucv_object_new : UcObject := []

def ucv_array_new : List UcValue := []

/-- Add `key` to an object: the value of an existing key is replaced in place,
a new key is appended. -/
def ucv_object_add : UcObject → String → UcValue → UcObject
  | [], key, val => [(key, val)]
  | (k, v) :: rest, key, val =>
    if k = key then (k, val) :: rest else (k, v) :: ucv_object_add rest key val

def ucv_array_push (arr : List UcValue) (val : UcValue) : List UcValue := arr ++ [val]

/-- Conversion of a C scalar to `bool`: true exactly for a non-zero value. -/
def ucv_boolean_new (x : Int) : UcValue := .boolean (decide (x ≠ 0))

def ucv_int64_new (x : Int) : UcValue := .int64 x

def ucv_uint64_new (x : Nat) : UcValue := .uint64 x

def ucv_string_new (s : String) : UcValue := .string s

/-- Value stored under `key`, if any. -/
def ucv_object_get : UcObject → String → Option UcValue
  | [], _ => none
  | (k, v) :: rest, key => if k = key then some v else ucv_object_get rest key

/-- Keys of an object, in order. -/
def objectKeys (obj : UcObject) : List String := obj.map Prod.fst

/-! ## C integer and string helpers -/

/-- Conversion of an integer to `int` (32 bits, two's complement). -/
def wrap32 (x : Int) : Int := (x + 2 ^ 31) % 2 ^ 32 - 2 ^ 31

/-- The C expression `1 << i` on `int`: defined when the result is representable. -/
def shl1 (i : Nat) : Option Nat := if i < 31 then some (2 ^ i) else none

/-- The C expression `mask & m` for an `int` mask and a non-negative `m`,
on the two's complement representation of the mask. -/
def intAnd (mask : Int) (m : Nat) : Nat := (mask % 2 ^ 32).toNat &&& m

/-- Bit `i` of the 32-bit two's complement representation of `mask`. -/
def maskBit (mask : Int) (i : Nat) : Bool := (mask % 2 ^ 32).toNat.testBit i

/-- The C string held by a byte array: the bytes before the first NUL. -/
def cstring (bytes : List Nat) : String :=
  String.mk ((bytes.takeWhile (fun b => b ≠ 0)).map Char.ofNat)

/-- Uppercase hexadecimal digit of a value below 16. -/
def upperHexDigit (d : Nat) : Char :=
  if d < 10 then Char.ofNat (48 + d) else Char.ofNat (55 + d)

/-- Digits of `n` in base 16, most significant first, prepended to `acc`. -/
def hexDigitsAux : Nat → Nat → List Char → List Char
  | 0, _, acc => acc
  | fuel + 1, n, acc =>
    if n / 16 = 0 then upperHexDigit (n % 16) :: acc
    else hexDigitsAux fuel (n / 16) (upperHexDigit (n % 16) :: acc)

/-- The printf conversion `%X`. -/
def fmt_X (n : Nat) : List Char := hexDigitsAux (n + 1) n []

/-- The printf conversion `%02X`: at least two digits, padded with zeros. -/
def fmt_02X (n : Nat) : List Char :=
  List.replicate (2 - (fmt_X n).length) '0' ++ fmt_X n

/-! ## Structures of `iwinfo.h` (the fields the binding reads) -/

structure iwinfo_rate_entry where
  rate : Int
  mcs : Int
  is_40mhz : Nat
  is_short_gi : Nat
  is_ht : Nat
  is_vht : Nat
  is_he : Nat
  is_eht : Nat
  he_gi : Int
  he_dcm : Int
  nss : Int
  mhz : Nat
  mhz_hi : Nat
  eht_gi : Int

structure iwinfo_crypto_entry where
  enabled : Nat
  wpa_version : Nat
  group_ciphers : Int
  pair_ciphers : Int
  auth_suites : Int
  auth_algs : Int

structure iwinfo_scanlist_ht_chan_entry where
  primary_chan : Nat
  secondary_chan_off : Nat
  chan_width : Nat

structure iwinfo_scanlist_vht_chan_entry where
  center_chan_1 : Nat
  center_chan_2 : Nat
  chan_width : Nat

/-- The array `uint8_t mac[6]`. -/
structure MacAddr where
  b0 : Nat
  b1 : Nat
  b2 : Nat
  b3 : Nat
  b4 : Nat
  b5 : Nat
  deriving DecidableEq

/-- Each of the six elements of the address is a byte. -/
def MacAddr.sixBytes (m : MacAddr) : Prop :=
  m.b0 < 256 ∧ m.b1 < 256 ∧ m.b2 < 256 ∧ m.b3 < 256 ∧ m.b4 < 256 ∧ m.b5 < 256

structure iwinfo_assoclist_entry where
  mac : MacAddr
  signal : Int
  noise : Int
  inactive : Int
  rx_packets : Nat
  tx_packets : Nat
  rx_bytes : Nat
  tx_bytes : Nat
  rx_rate : iwinfo_rate_entry
  tx_rate : iwinfo_rate_entry
  thr : Int

/-- A scan record; `ssid` is the C string held by the `ssid` array. -/
structure iwinfo_scanlist_entry where
  mac : MacAddr
  ssid : String
  mode : Int
  channel : Int
  mhz : Int
  signal : Nat
  quality : Int
  quality_max : Int
  ht_chan_info : iwinfo_scanlist_ht_chan_entry
  vht_chan_info : iwinfo_scanlist_vht_chan_entry
  crypto : iwinfo_crypto_entry

structure iwinfo_freqlist_entry where
  mhz : Int
  channel : Int
  restricted : Int

structure iwinfo_txpwrlist_entry where
  dbm : Int
  mw : Int

/-- A country record; `ccode` is the C string held by the `ccode` array. -/
structure iwinfo_country_entry where
  iso3166 : Nat
  ccode : String

structure iwinfo_iso3166_label where
  iso3166 : Nat
  name : String

structure iwinfo_hardware_id where
  vendor_id : Int
  device_id : Int
  subsystem_vendor_id : Int
  subsystem_device_id : Int

/-! ## Constants and tables of libiwinfo, and the backend -/

/-- Constants, name tables and record sizes that `iwinfo.h` and the library
provide to the binding. -/
structure IwinfoHeader where
  IWINFO_BUFSIZE : Int
  IWINFO_OPMODE_UNKNOWN : Int
  IWINFO_OPMODE_NAMES : List String
  IWINFO_HTMODE_COUNT : Int
  IWINFO_HTMODE_NAMES : List String
  IWINFO_CIPHER_COUNT : Int
  IWINFO_CIPHER_NAMES : List String
  IWINFO_KMGMT_COUNT : Int
  IWINFO_KMGMT_NAMES : List String
  IWINFO_AUTH_COUNT : Int
  IWINFO_AUTH_NAMES : List String
  IWINFO_80211_A : Nat
  IWINFO_80211_B : Nat
  IWINFO_80211_G : Nat
  IWINFO_80211_N : Nat
  IWINFO_80211_AC : Nat
  IWINFO_80211_AD : Nat
  IWINFO_80211_AX : Nat
  IWINFO_80211_BE : Nat
  IWINFO_ISO3166_NAMES : List iwinfo_iso3166_label
  sizeof_assoclist_entry : Nat
  sizeof_scanlist_entry : Nat
  sizeof_freqlist_entry : Nat
  sizeof_txpwrlist_entry : Nat
  sizeof_country_entry : Nat

def IWINFO_BIG_BUFSIZE : Int := 64 * 1024

/-- What a backend call `op(ifname, &val)` leaves: its status and `val`. -/
structure IntReply where
  status : Int
  val : Int

/-- What a backend call `op(ifname, buf)` leaves: its status and the C string in `buf`. -/
structure StrReply where
  status : Int
  buf : String

/-- What a backend call `op(ifname, (char *)&s)` leaves: its status and the structure. -/
structure StructReply (T : Type) where
  status : Int
  val : T

/-- What a backend call `op(ifname, buf, &len)` leaves: its status, the length
in `len`, and the record seen at each byte offset of `buf`. -/
structure ListReply (T : Type) where
  status : Int
  len : Int
  view : Int → T

/-- The operation table `struct iwinfo_ops` of one backend.  A list operation
receives the interface name and the capacity held by `len` before the call. -/
structure iwinfo_ops where
  channel : String → IntReply
  frequency : String → IntReply
  frequency_offset : String → IntReply
  txpower : String → IntReply
  txpower_offset : String → IntReply
  bitrate : String → IntReply
  signal : String → IntReply
  noise : String → IntReply
  quality : String → IntReply
  quality_max : String → IntReply
  ssid : String → StrReply
  bssid : String → StrReply
  country : String → StrReply
  hardware_name : String → StrReply
  phyname : String → StrReply
  mode : String → IntReply
  htmode : String → IntReply
  hwmodelist : String → IntReply
  htmodelist : String → IntReply
  mbssid_support : String → IntReply
  encryption : String → StructReply iwinfo_crypto_entry
  hardware_id : String → StructReply iwinfo_hardware_id
  assoclist : String → Int → ListReply iwinfo_assoclist_entry
  scanlist : String → Int → ListReply iwinfo_scanlist_entry
  freqlist : String → Int → ListReply iwinfo_freqlist_entry
  txpwrlist : String → Int → ListReply iwinfo_txpwrlist_entry
  countrylist : String → Int → ListReply iwinfo_country_entry
  lookup_phy : Option (String → StrReply)

/-- The context of one native call: the first argument (`null` when absent),
the backend held by `this` (if it is a valid `iwinfo.backend` resource), and
whether `calloc` succeeds. -/
structure UcCall where
  arg0 : UcValue
  this : Option iwinfo_ops
  alloc_ok : Bool

/-- The check `CHECK_STRING`: the first argument when it is a string. -/
def CHECK_STRING (c : UcCall) : Option String :=
  match c.arg0 with
  | .string s => some s
  | _ => none

/-- The prologue shared by all backend methods: `CHECK_STRING`, then
`iwinfo_uc_get_ops`; the body runs on the interface name and the backend. -/
def withBackend (c : UcCall) (body : String → iwinfo_ops → Option UcResult) :
    Option UcResult :=
  match CHECK_STRING c with
  | none => some (.raise "string required")
  | some ifname =>
    match c.this with
    | none => some (.raise "Invalid backend context")
    | some ops => body ifname ops

/-! ## Helpers -/

/-- The loop of `iwinfo_uc_add_array_from_bitmask`: `n` iterations are left,
`i` is the loop variable, `arr` the array built so far. -/
def bitmaskLoop (mask : Int) (names : List String) :
    Nat → Nat → List UcValue → Option (List UcValue)
  | 0, _, arr => some arr
  | n + 1, i, arr =>
    match shl1 i with
    | none => none
    | some b =>
      if intAnd mask b ≠ 0 then
        match names[i]? with
        | none => none
        | some s => bitmaskLoop mask names n (i + 1) (ucv_array_push arr (ucv_string_new s))
      else bitmaskLoop mask names n (i + 1) arr

def iwinfo_uc_add_array_from_bitmask (obj : UcObject) (key : String) (mask : Int)
    (names : List String) (count : Int) : Option UcObject :=
  match bitmaskLoop mask names count.toNat 0 ucv_array_new with
  | none => none
  | some arr => some (ucv_object_add obj key (.array arr))

def iwinfo_uc_cryptotable (H : IwinfoHeader) (c : iwinfo_crypto_entry) : Option UcObject :=
  let obj := ucv_object_new
  let obj := ucv_object_add obj "enabled" (ucv_boolean_new c.enabled)
  let obj := ucv_object_add obj "wep" (.boolean (decide (c.enabled ≠ 0) && decide (c.wpa_version = 0)))
  let obj := ucv_object_add obj "wpa" (ucv_int64_new c.wpa_version)
  match iwinfo_uc_add_array_from_bitmask obj "pair_ciphers" c.pair_ciphers
      H.IWINFO_CIPHER_NAMES H.IWINFO_CIPHER_COUNT with
  | none => none
  | some obj =>
  match iwinfo_uc_add_array_from_bitmask obj "group_ciphers" c.group_ciphers
      H.IWINFO_CIPHER_NAMES H.IWINFO_CIPHER_COUNT with
  | none => none
  | some obj =>
  match iwinfo_uc_add_array_from_bitmask obj "auth_suites" c.auth_suites
      H.IWINFO_KMGMT_NAMES H.IWINFO_KMGMT_COUNT with
  | none => none
  | some obj =>
  iwinfo_uc_add_array_from_bitmask obj "auth_algs" c.auth_algs
      H.IWINFO_AUTH_NAMES H.IWINFO_AUTH_COUNT

/-- The object built for a non-zero HT operation record. -/
def htChanObject (ht : iwinfo_scanlist_ht_chan_entry) : UcObject :=
  let o := ucv_object_new
  let o := ucv_object_add o "primary_chan" (ucv_int64_new ht.primary_chan)
  let o := ucv_object_add o "secondary_chan_off" (ucv_int64_new ht.secondary_chan_off)
  ucv_object_add o "chan_width" (ucv_int64_new ht.chan_width)

/-- The object built for a non-zero VHT, HE or EHT operation record. -/
def vhtChanObject (v : iwinfo_scanlist_vht_chan_entry) : UcObject :=
  let o := ucv_object_new
  let o := ucv_object_add o "center_chan_1" (ucv_int64_new v.center_chan_1)
  let o := ucv_object_add o "center_chan_2" (ucv_int64_new v.center_chan_2)
  ucv_object_add o "chan_width" (ucv_int64_new v.chan_width)

/-- One of the three blocks for VHT, HE and EHT in `iwinfo_uc_set_chaninfo`,
adding the entry under `key`. -/
def setVhtLike (obj : UcObject) (key : String)
    (v : Option iwinfo_scanlist_vht_chan_entry) : UcObject :=
  match v with
  | none => obj
  | some v =>
    if v.center_chan_1 ≠ 0 ∨ v.center_chan_2 ≠ 0 ∨ v.chan_width ≠ 0 then
      ucv_object_add obj key (.object (vhtChanObject v))
    else obj

/-- The HT block of `iwinfo_uc_set_chaninfo`. -/
def setHtChan (obj : UcObject) (ht : Option iwinfo_scanlist_ht_chan_entry) : UcObject :=
  match ht with
  | none => obj
  | some ht =>
    if ht.primary_chan ≠ 0 ∨ ht.secondary_chan_off ≠ 0 ∨ ht.chan_width ≠ 0 then
      ucv_object_add obj "ht_chan_info" (.object (htChanObject ht))
    else obj

def iwinfo_uc_set_chaninfo (obj : UcObject)
    (ht : Option iwinfo_scanlist_ht_chan_entry)
    (vht he eht : Option iwinfo_scanlist_vht_chan_entry) : UcObject :=
  let obj := setHtChan obj ht
  let obj := setVhtLike obj "vht_chan_info" vht
  let obj := setVhtLike obj "he_chan_info" he
  setVhtLike obj "eht_chan_info" eht

def iwinfo_uc_set_rateinfo (obj : UcObject) (r : iwinfo_rate_entry) : UcObject :=
  let obj := ucv_object_add obj "rate" (ucv_int64_new r.rate)
  let obj := ucv_object_add obj "ht" (ucv_boolean_new r.is_ht)
  let obj := ucv_object_add obj "vht" (ucv_boolean_new r.is_vht)
  let obj := ucv_object_add obj "he" (ucv_boolean_new r.is_he)
  let obj := ucv_object_add obj "eht" (ucv_boolean_new r.is_eht)
  let obj := ucv_object_add obj "mhz" (ucv_int64_new (r.mhz_hi * 256 + r.mhz))
  if r.is_ht ≠ 0 then
    let obj := ucv_object_add obj "40mhz" (ucv_boolean_new r.is_40mhz)
    let obj := ucv_object_add obj "mcs" (ucv_int64_new r.mcs)
    ucv_object_add obj "short_gi" (ucv_boolean_new r.is_short_gi)
  else if r.is_vht ≠ 0 ∨ r.is_he ≠ 0 ∨ r.is_eht ≠ 0 then
    let obj := ucv_object_add obj "mcs" (ucv_int64_new r.mcs)
    let obj := ucv_object_add obj "nss" (ucv_int64_new r.nss)
    let obj :=
      if r.is_he ≠ 0 then
        let obj := ucv_object_add obj "he_gi" (ucv_int64_new r.he_gi)
        ucv_object_add obj "he_dcm" (ucv_int64_new r.he_dcm)
      else obj
    let obj :=
      if r.is_eht ≠ 0 then ucv_object_add obj "eht_gi" (ucv_int64_new r.eht_gi) else obj
    if r.is_vht ≠ 0 then ucv_object_add obj "short_gi" (ucv_boolean_new r.is_short_gi)
    else obj
  else obj

/-! ## Scalar operations -/

/-- The template `GENERIC_INT_OP(op_name)`. -/
def GENERIC_INT_OP (op : iwinfo_ops → String → IntReply) (c : UcCall) : Option UcResult :=
  withBackend c fun ifname ops =>
    let r := op ops ifname
    if r.status = 0 then some (.ret (ucv_int64_new r.val)) else some (.ret .null)

/-- The template `GENERIC_STR_OP(op_name)`. -/
def GENERIC_STR_OP (op : iwinfo_ops → String → StrReply) (c : UcCall) : Option UcResult :=
  withBackend c fun ifname ops =>
    let r := op ops ifname
    if r.status = 0 then some (.ret (ucv_string_new r.buf)) else some (.ret .null)

def iwinfo_uc_channel : UcCall → Option UcResult := GENERIC_INT_OP iwinfo_ops.channel

def iwinfo_uc_frequency : UcCall → Option UcResult := GENERIC_INT_OP iwinfo_ops.frequency

def iwinfo_uc_frequency_offset : UcCall → Option UcResult :=
  GENERIC_INT_OP iwinfo_ops.frequency_offset

def iwinfo_uc_txpower : UcCall → Option UcResult := GENERIC_INT_OP iwinfo_ops.txpower

def iwinfo_uc_txpower_offset : UcCall → Option UcResult :=
  GENERIC_INT_OP iwinfo_ops.txpower_offset

def iwinfo_uc_bitrate : UcCall → Option UcResult := GENERIC_INT_OP iwinfo_ops.bitrate

def iwinfo_uc_signal : UcCall → Option UcResult := GENERIC_INT_OP iwinfo_ops.signal

def iwinfo_uc_noise : UcCall → Option UcResult := GENERIC_INT_OP iwinfo_ops.noise

def iwinfo_uc_quality : UcCall → Option UcResult := GENERIC_INT_OP iwinfo_ops.quality

def iwinfo_uc_quality_max : UcCall → Option UcResult := GENERIC_INT_OP iwinfo_ops.quality_max

def iwinfo_uc_ssid : UcCall → Option UcResult := GENERIC_STR_OP iwinfo_ops.ssid

def iwinfo_uc_bssid : UcCall → Option UcResult := GENERIC_STR_OP iwinfo_ops.bssid

def iwinfo_uc_country : UcCall → Option UcResult := GENERIC_STR_OP iwinfo_ops.country

def iwinfo_uc_hardware_name : UcCall → Option UcResult :=
  GENERIC_STR_OP iwinfo_ops.hardware_name

def iwinfo_uc_phyname : UcCall → Option UcResult := GENERIC_STR_OP iwinfo_ops.phyname

/-- The C expression `names[i]` for an `int` index: defined inside the table. -/
def tableGet (names : List String) (i : Int) : Option String :=
  if i < 0 then none else names[i.toNat]?

def iwinfo_uc_mode (H : IwinfoHeader) (c : UcCall) : Option UcResult :=
  withBackend c fun ifname ops =>
    let r := ops.mode ifname
    let mode := if r.status ≠ 0 then H.IWINFO_OPMODE_UNKNOWN else r.val
    match tableGet H.IWINFO_OPMODE_NAMES mode with
    | none => none
    | some s => some (.ret (ucv_string_new s))

/-- The loop of `iwinfo_uc_htmode`: the name of the lowest set bit. -/
def htmodeLoop (mode : Int) (names : List String) : Nat → Nat → Option UcResult
  | 0, _ => some (.ret .null)
  | n + 1, i =>
    match shl1 i with
    | none => none
    | some b =>
      if intAnd mode b ≠ 0 then
        match names[i]? with
        | none => none
        | some s => some (.ret (ucv_string_new s))
      else htmodeLoop mode names n (i + 1)

def iwinfo_uc_htmode (H : IwinfoHeader) (c : UcCall) : Option UcResult :=
  withBackend c fun ifname ops =>
    let r := ops.htmode ifname
    if r.status ≠ 0 then some (.ret .null)
    else htmodeLoop r.val H.IWINFO_HTMODE_NAMES H.IWINFO_HTMODE_COUNT.toNat 0

def iwinfo_uc_encryption (H : IwinfoHeader) (c : UcCall) : Option UcResult :=
  withBackend c fun ifname ops =>
    let r := ops.encryption ifname
    if r.status = 0 then
      match iwinfo_uc_cryptotable H r.val with
      | none => none
      | some obj => some (.ret (.object obj))
    else some (.ret .null)

def iwinfo_uc_hwmodelist (H : IwinfoHeader) (c : UcCall) : Option UcResult :=
  withBackend c fun ifname ops =>
    let r := ops.hwmodelist ifname
    if r.status ≠ 0 then some (.ret .null)
    else
      let modes := r.val
      let obj := ucv_object_new
      let obj := ucv_object_add obj "a" (ucv_boolean_new (intAnd modes H.IWINFO_80211_A))
      let obj := ucv_object_add obj "b" (ucv_boolean_new (intAnd modes H.IWINFO_80211_B))
      let obj := ucv_object_add obj "g" (ucv_boolean_new (intAnd modes H.IWINFO_80211_G))
      let obj := ucv_object_add obj "n" (ucv_boolean_new (intAnd modes H.IWINFO_80211_N))
      let obj := ucv_object_add obj "ac" (ucv_boolean_new (intAnd modes H.IWINFO_80211_AC))
      let obj := ucv_object_add obj "ad" (ucv_boolean_new (intAnd modes H.IWINFO_80211_AD))
      let obj := ucv_object_add obj "ax" (ucv_boolean_new (intAnd modes H.IWINFO_80211_AX))
      let obj := ucv_object_add obj "be" (ucv_boolean_new (intAnd modes H.IWINFO_80211_BE))
      some (.ret (.object obj))

/-- The loop of `iwinfo_uc_htmodelist`: one boolean per HT mode name. -/
def htmodelistLoop (modes : Int) (names : List String) : Nat → Nat → UcObject → Option UcObject
  | 0, _, obj => some obj
  | n + 1, i, obj =>
    match names[i]?, shl1 i with
    | some s, some b =>
      htmodelistLoop modes names n (i + 1)
        (ucv_object_add obj s (ucv_boolean_new (intAnd modes b)))
    | _, _ => none

def iwinfo_uc_htmodelist (H : IwinfoHeader) (c : UcCall) : Option UcResult :=
  withBackend c fun ifname ops =>
    let r := ops.htmodelist ifname
    if r.status ≠ 0 then some (.ret .null)
    else
      match htmodelistLoop r.val H.IWINFO_HTMODE_NAMES H.IWINFO_HTMODE_COUNT.toNat 0
          ucv_object_new with
      | none => none
      | some obj => some (.ret (.object obj))

def iwinfo_uc_mbssid_support (c : UcCall) : Option UcResult :=
  withBackend c fun ifname ops =>
    let r := ops.mbssid_support ifname
    if r.status = 0 then some (.ret (ucv_boolean_new r.val)) else some (.ret .null)

def iwinfo_uc_hardware_id (c : UcCall) : Option UcResult :=
  withBackend c fun ifname ops =>
    let r := ops.hardware_id ifname
    if r.status = 0 then
      let ids := r.val
      let obj := ucv_object_new
      let obj := ucv_object_add obj "vendor_id" (ucv_int64_new ids.vendor_id)
      let obj := ucv_object_add obj "device_id" (ucv_int64_new ids.device_id)
      let obj := ucv_object_add obj "subsystem_vendor_id" (ucv_int64_new ids.subsystem_vendor_id)
      let obj := ucv_object_add obj "subsystem_device_id" (ucv_int64_new ids.subsystem_device_id)
      some (.ret (.object obj))
    else some (.ret .null)

def iwinfo_uc_lookup_phy (c : UcCall) : Option UcResult :=
  withBackend c fun sect ops =>
    match ops.lookup_phy with
    | none => some (.ret .null)
    | some f =>
      let r := f sect
      if r.status = 0 then some (.ret (ucv_string_new r.buf)) else some (.ret .null)

/-! ## List operations -/

/-- The loop `for (i = 0; i < len; i += sizeof(struct T)) body` over a record
buffer, from loop variable `i` with state `s`.  The loop variable is an `int`,
so each increment is converted back to 32 bits.  `fuel` bounds the number of
iterations; `none` is returned when the body has no defined result or the
loop is still running when the fuel is spent. -/
def recordLoop {S : Type} (sz : Nat) (len : Int) (body : S → Int → Option S) :
    Nat → Int → S → Option S
  | 0, i, s => if i < len then none else some s
  | fuel + 1, i, s =>
    if i < len then
      match body s i with
      | none => none
      | some s1 => recordLoop sz len body fuel (wrap32 (i + sz)) s1
    else some s

/-- The byte offsets at which the record loop reads a record, in order. -/
def recordOffsets (sz : Nat) (len : Int) : Option (List Int) :=
  recordLoop sz len (fun offs i => some (offs ++ [i])) len.toNat 0 []

/-- The formatted MAC address: `snprintf(macstr, 18, "%02X:%02X:%02X:%02X:%02X:%02X", ...)`. -/
def mac_snprintf (m : MacAddr) : String :=
  String.mk ((fmt_02X m.b0 ++ [':'] ++ fmt_02X m.b1 ++ [':'] ++ fmt_02X m.b2 ++ [':'] ++
    fmt_02X m.b3 ++ [':'] ++ fmt_02X m.b4 ++ [':'] ++ fmt_02X m.b5).take 17)

/-- The object built by the body of the `iwinfo_uc_assoclist` loop for one record. -/
def assocEntryObject (e : iwinfo_assoclist_entry) : UcObject :=
  let obj := ucv_object_new
  let obj := ucv_object_add obj "signal" (ucv_int64_new e.signal)
  let obj := ucv_object_add obj "noise" (ucv_int64_new e.noise)
  let obj := ucv_object_add obj "inactive" (ucv_int64_new e.inactive)
  let obj := ucv_object_add obj "rx_packets" (ucv_uint64_new e.rx_packets)
  let obj := ucv_object_add obj "tx_packets" (ucv_uint64_new e.tx_packets)
  let obj := ucv_object_add obj "rx_bytes" (ucv_uint64_new e.rx_bytes)
  let obj := ucv_object_add obj "tx_bytes" (ucv_uint64_new e.tx_bytes)
  let obj_rx := iwinfo_uc_set_rateinfo ucv_object_new e.rx_rate
  let obj := ucv_object_add obj "rx_rate" (.object obj_rx)
  let obj_tx := iwinfo_uc_set_rateinfo ucv_object_new e.tx_rate
  let obj := ucv_object_add obj "tx_rate" (.object obj_tx)
  if e.thr ≠ 0 then ucv_object_add obj "expected_throughput" (ucv_int64_new e.thr) else obj

/-- The body of the `iwinfo_uc_assoclist` loop. -/
def assoclistBody (view : Int → iwinfo_assoclist_entry) (res : UcObject) (i : Int) :
    Option UcObject :=
  let e := view i
  some (ucv_object_add res (mac_snprintf e.mac) (.object (assocEntryObject e)))

def iwinfo_uc_assoclist (H : IwinfoHeader) (c : UcCall) : Option UcResult :=
  withBackend c fun ifname ops =>
    if c.alloc_ok = false then some (.raise "Out of memory")
    else
      let r := ops.assoclist ifname IWINFO_BIG_BUFSIZE
      if r.status ≠ 0 ∨ r.len ≤ 0 then some (.ret (.object ucv_object_new))
      else
        match recordLoop H.sizeof_assoclist_entry r.len (assoclistBody r.view)
            r.len.toNat 0 ucv_object_new with
        | none => none
        | some res => some (.ret (.object res))

/-- The object built by the body of the `iwinfo_uc_scanlist` loop for one record. -/
def scanEntryObject (H : IwinfoHeader) (e : iwinfo_scanlist_entry) : Option UcObject :=
  let obj := ucv_object_new
  let obj := ucv_object_add obj "bssid" (ucv_string_new (mac_snprintf e.mac))
  let obj := if e.ssid ≠ "" then ucv_object_add obj "ssid" (ucv_string_new e.ssid) else obj
  let obj := ucv_object_add obj "channel" (ucv_int64_new e.channel)
  let obj := ucv_object_add obj "frequency" (ucv_int64_new e.mhz)
  match tableGet H.IWINFO_OPMODE_NAMES e.mode with
  | none => none
  | some name =>
    let obj := ucv_object_add obj "mode" (ucv_string_new name)
    let obj := ucv_object_add obj "quality" (ucv_int64_new e.quality)
    let obj := ucv_object_add obj "quality_max" (ucv_int64_new e.quality_max)
    let obj := ucv_object_add obj "signal" (ucv_int64_new (e.signal - 0x100))
    match iwinfo_uc_cryptotable H e.crypto with
    | none => none
    | some crypto =>
      let obj := ucv_object_add obj "encryption" (.object crypto)
      some (iwinfo_uc_set_chaninfo obj (some e.ht_chan_info) (some e.vht_chan_info) none none)

/-- The body of the `iwinfo_uc_scanlist` loop. -/
def scanlistBody (H : IwinfoHeader) (view : Int → iwinfo_scanlist_entry)
    (res : List UcValue) (i : Int) : Option (List UcValue) :=
  match scanEntryObject H (view i) with
  | none => none
  | some obj => some (ucv_array_push res (.object obj))

def iwinfo_uc_scanlist (H : IwinfoHeader) (c : UcCall) : Option UcResult :=
  withBackend c fun ifname ops =>
    if c.alloc_ok = false then some (.raise "Out of memory")
    else
      let r := ops.scanlist ifname IWINFO_BIG_BUFSIZE
      if r.status ≠ 0 ∨ r.len ≤ 0 then some (.ret (.array ucv_array_new))
      else
        match recordLoop H.sizeof_scanlist_entry r.len (scanlistBody H r.view)
            r.len.toNat 0 ucv_array_new with
        | none => none
        | some res => some (.ret (.array res))

/-- The object built by the body of the `iwinfo_uc_freqlist` loop for one record. -/
def freqEntryObject (e : iwinfo_freqlist_entry) : UcObject :=
  let obj := ucv_object_new
  let obj := ucv_object_add obj "mhz" (ucv_int64_new e.mhz)
  let obj := ucv_object_add obj "channel" (ucv_int64_new e.channel)
  ucv_object_add obj "restricted" (ucv_boolean_new e.restricted)

/-- The body of the `iwinfo_uc_freqlist` loop. -/
def freqlistBody (view : Int → iwinfo_freqlist_entry) (res : List UcValue) (i : Int) :
    Option (List UcValue) :=
  some (ucv_array_push res (.object (freqEntryObject (view i))))

def iwinfo_uc_freqlist (H : IwinfoHeader) (c : UcCall) : Option UcResult :=
  withBackend c fun ifname ops =>
    if c.alloc_ok = false then some (.raise "Out of memory")
    else
      let r := ops.freqlist ifname H.IWINFO_BUFSIZE
      if r.status ≠ 0 ∨ r.len ≤ 0 then some (.ret (.array ucv_array_new))
      else
        match recordLoop H.sizeof_freqlist_entry r.len (freqlistBody r.view)
            r.len.toNat 0 ucv_array_new with
        | none => none
        | some res => some (.ret (.array res))

/-- The object built by the body of the `iwinfo_uc_txpwrlist` loop for one record. -/
def txpwrEntryObject (e : iwinfo_txpwrlist_entry) : UcObject :=
  let obj := ucv_object_new
  let obj := ucv_object_add obj "dbm" (ucv_int64_new e.dbm)
  ucv_object_add obj "mw" (ucv_int64_new e.mw)

/-- The body of the `iwinfo_uc_txpwrlist` loop. -/
def txpwrlistBody (view : Int → iwinfo_txpwrlist_entry) (res : List UcValue) (i : Int) :
    Option (List UcValue) :=
  some (ucv_array_push res (.object (txpwrEntryObject (view i))))

def iwinfo_uc_txpwrlist (H : IwinfoHeader) (c : UcCall) : Option UcResult :=
  withBackend c fun ifname ops =>
    if c.alloc_ok = false then some (.raise "Out of memory")
    else
      let r := ops.txpwrlist ifname H.IWINFO_BUFSIZE
      if r.status ≠ 0 ∨ r.len ≤ 0 then some (.ret (.array ucv_array_new))
      else
        match recordLoop H.sizeof_txpwrlist_entry r.len (txpwrlistBody r.view)
            r.len.toNat 0 ucv_array_new with
        | none => none
        | some res => some (.ret (.array res))

/-- The inner loop of `iwinfo_uc_countrylist`: `ccode_str` after the scan of the
buffer for the code `iso`, `some none` when it is still NULL. -/
def countryScan (sz : Nat) (len : Int) (view : Int → iwinfo_country_entry) (iso : Nat) :
    Nat → Int → Option (Option String)
  | 0, i => if i < len then none else some none
  | fuel + 1, i =>
    if i < len then
      if (view i).iso3166 = iso then some (some (view i).ccode)
      else countryScan sz len view iso fuel (wrap32 (i + sz))
    else some none

/-- The row pushed for a static label matched with `ccode_str`. -/
def countryRow (l : iwinfo_iso3166_label) (ccode_str : String) : UcObject :=
  let alpha2 := cstring [(l.iso3166 / 256) % 256, l.iso3166 % 256]
  let obj := ucv_object_new
  let obj := ucv_object_add obj "alpha2" (ucv_string_new alpha2)
  let obj := ucv_object_add obj "ccode" (ucv_string_new ccode_str)
  ucv_object_add obj "name" (ucv_string_new l.name)

/-- The outer loop of `iwinfo_uc_countrylist` over the static table, which ends
at the first label with `iso3166 = 0`; reading past the table is undefined. -/
def countryLoop (sz : Nat) (len : Int) (view : Int → iwinfo_country_entry) :
    List iwinfo_iso3166_label → List UcValue → Option (List UcValue)
  | [], _ => none
  | l :: rest, res =>
    if l.iso3166 = 0 then some res
    else
      match countryScan sz len view l.iso3166 len.toNat 0 with
      | none => none
      | some none => countryLoop sz len view rest res
      | some (some ccode_str) =>
        countryLoop sz len view rest (ucv_array_push res (.object (countryRow l ccode_str)))

def iwinfo_uc_countrylist (H : IwinfoHeader) (c : UcCall) : Option UcResult :=
  withBackend c fun ifname ops =>
    if c.alloc_ok = false then some (.raise "Out of memory")
    else
      let r := ops.countrylist ifname H.IWINFO_BUFSIZE
      if r.status ≠ 0 ∨ r.len ≤ 0 then some (.ret (.array ucv_array_new))
      else
        match countryLoop H.sizeof_country_entry r.len r.view H.IWINFO_ISO3166_NAMES
            ucv_array_new with
        | none => none
        | some res => some (.ret (.array res))

/-- Number of record offsets `0, sz, 2 * sz, ...` below `len`: the ceiling of
`len / sz`. -/
def recordCount (sz : Nat) (len : Int) : Nat := (len.toNat + sz - 1) / sz

/-! ## The MediaTek hardware-profile lookup (`iwinfo_mtk_l1util.c`)

The l1parser library is not among the sources.  A context is modelled by what
the library returns for it: the key array and count of `l1_list`, and the chip
identifiers of the two lookups.  A function returns `none` when the C code
reads past the key array or passes a NULL key to `strstr`. -/

/-- Whether the characters `s` start with the characters `t`. -/
def startsWith : List Char → List Char → Bool
  | _, [] => true
  | [], _ :: _ => false
  | c :: cs, d :: ds => c == d && startsWith cs ds

/-- Whether `needle` occurs in `hay`. -/
def occursIn (needle : List Char) : List Char → Bool
  | [] => startsWith [] needle
  | c :: cs => startsWith (c :: cs) needle || occursIn needle cs

/-- The test `strstr(hay, needle) != NULL`. -/
def strstr (hay needle : String) : Bool := occursIn needle.toList hay.toList

/-- What the l1parser library returns for a context: `l1_list` gives the array
`list` (or NULL) and stores `count`; the two lookups give a chip identifier or
NULL. -/
structure L1Context where
  list : Option (List (Option String))
  count : Nat
  chip_id_by_ifname : String → Option String
  chip_id_by_devname : String → Option String

def mtk_dev_match_id (chip : String) (id : iwinfo_hardware_id) : Int × iwinfo_hardware_id :=
  if chip = "MT7981" then
    (0, { vendor_id := 0x14c3, device_id := 0x7981,
          subsystem_vendor_id := 0x14c3, subsystem_device_id := 0x7981 })
  else if chip = "MT7986" then
    (0, { vendor_id := 0x14c3, device_id := 0x7986,
          subsystem_vendor_id := 0x14c3, subsystem_device_id := 0x7986 })
  else if chip = "MT7916" then
    (0, { vendor_id := 0x14c3, device_id := 0x7916,
          subsystem_vendor_id := 0x14c3, subsystem_device_id := 0x7916 })
  else (-1, id)

/-- The function `mtk_get_id_by_l1util`; `l1_init` gives the context `ctx`, or NULL. -/
def mtk_get_id_by_l1util (ctx : Option L1Context) (dev : String) (id : iwinfo_hardware_id) :
    Int × iwinfo_hardware_id :=
  match ctx with
  | none => (-1, id)
  | some cx =>
    let chip_id :=
      if strstr dev "ra" || strstr dev "apcli" || strstr dev "wds" || strstr dev "mesh" then
        cx.chip_id_by_ifname dev
      else cx.chip_id_by_devname dev
    match chip_id with
    | some chip => mtk_dev_match_id chip id
    | none => (-1, id)

/-- The ambiguity loop of `mtk_get_id_from_l1profile` over the keys `list[i]`,
`i < count`, with `n` iterations left: `some true` when a key contains `_2_`,
`some false` when the loop ends without one. -/
def ambiguityLoop (list : List (Option String)) : Nat → Nat → Option Bool
  | 0, _ => some false
  | n + 1, i =>
    match list[i]? with
    | some (some key) => if strstr key "_2_" then some true else ambiguityLoop list n (i + 1)
    | _ => none

/-- The function `mtk_get_id_from_l1profile`; `l1_init` gives the context `ctx`,
or NULL, and `strdup_ok` tells whether `strdup` succeeds.  The result is the
returned status and the caller's hardware id after the call. -/
def mtk_get_id_from_l1profile (ctx : Option L1Context) (strdup_ok : Bool)
    (id : iwinfo_hardware_id) : Option (Int × iwinfo_hardware_id) :=
  match ctx with
  | none => some (-1, id)
  | some cx =>
    match cx.list with
    | none => some (-1, id)
    | some list =>
      if cx.count = 0 then some (-1, id)
      else
        match ambiguityLoop list cx.count 0 with
        | none => none
        | some true => some (-1, id)
        | some false =>
          match list[0]? with
          | none => none
          | some none => some (-1, id)
          | some (some key) =>
            if strdup_ok = false then some (-1, id)
            else if '_' ∈ key.toList then
              some (mtk_dev_match_id (String.mk (key.toList.takeWhile (fun ch => ch ≠ '_'))) id)
            else some (-1, id)

/-! ## Sample inputs

Concrete values at which the theorems below are instantiated.  The header
values stand in for `iwinfo.h`; the record sizes are sample sizes. -/

def sampleHeader : IwinfoHeader where
  IWINFO_BUFSIZE := 4096
  IWINFO_OPMODE_UNKNOWN := 0
  IWINFO_OPMODE_NAMES := ["Unknown", "Master", "Ad-Hoc", "Client", "Monitor",
    "Master (VLAN)", "WDS", "Mesh Point", "P2P Client", "P2P Go"]
  IWINFO_HTMODE_COUNT := 19
  IWINFO_HTMODE_NAMES := ["HT20", "HT40", "VHT20", "VHT40", "VHT80", "VHT80+80", "VHT160",
    "NOHT", "HE20", "HE40", "HE80", "HE80+80", "HE160", "EHT20", "EHT40", "EHT80",
    "EHT80+80", "EHT160", "EHT320"]
  IWINFO_CIPHER_COUNT := 11
  IWINFO_CIPHER_NAMES := ["NONE", "WEP-40", "TKIP", "WRAP", "CCMP", "WEP-104", "AES-OCB",
    "CKIP", "GCMP", "CCMP-256", "GCMP-256"]
  IWINFO_KMGMT_COUNT := 5
  IWINFO_KMGMT_NAMES := ["NONE", "802.1X", "PSK", "SAE", "OWE"]
  IWINFO_AUTH_COUNT := 2
  IWINFO_AUTH_NAMES := ["OPEN", "SHARED"]
  IWINFO_80211_A := 1
  IWINFO_80211_B := 2
  IWINFO_80211_G := 4
  IWINFO_80211_N := 8
  IWINFO_80211_AC := 16
  IWINFO_80211_AD := 32
  IWINFO_80211_AX := 64
  IWINFO_80211_BE := 128
  IWINFO_ISO3166_NAMES := [⟨0x4445, "Germany"⟩, ⟨0x5553, "United States"⟩, ⟨0, ""⟩]
  sizeof_assoclist_entry := 128
  sizeof_scanlist_entry := 80
  sizeof_freqlist_entry := 12
  sizeof_txpwrlist_entry := 4
  sizeof_country_entry := 6

/-- The rate record of a zeroed buffer. -/
def zeroRate : iwinfo_rate_entry := ⟨0, 0, 0, 0, 0, 0, 0, 0, 0, 0, 0, 0, 0, 0⟩

/-- The crypto record of a zeroed buffer. -/
def zeroCrypto : iwinfo_crypto_entry := ⟨0, 0, 0, 0, 0, 0⟩

/-- The association record of a zeroed buffer. -/
def zeroAssoc : iwinfo_assoclist_entry :=
  ⟨⟨0, 0, 0, 0, 0, 0⟩, 0, 0, 0, 0, 0, 0, 0, zeroRate, zeroRate, 0⟩

/-- The scan record of a zeroed buffer. -/
def zeroScan : iwinfo_scanlist_entry :=
  ⟨⟨0, 0, 0, 0, 0, 0⟩, "", 0, 0, 0, 0, 0, 0, ⟨0, 0, 0⟩, ⟨0, 0, 0⟩, zeroCrypto⟩

/-- A backend whose every query fails with status -1 and leaves its outputs
untouched: zeroed buffers and the length it was given. -/
def failingOps : iwinfo_ops where
  channel := fun _ => ⟨-1, 0⟩
  frequency := fun _ => ⟨-1, 0⟩
  frequency_offset := fun _ => ⟨-1, 0⟩
  txpower := fun _ => ⟨-1, 0⟩
  txpower_offset := fun _ => ⟨-1, 0⟩
  bitrate := fun _ => ⟨-1, 0⟩
  signal := fun _ => ⟨-1, 0⟩
  noise := fun _ => ⟨-1, 0⟩
  quality := fun _ => ⟨-1, 0⟩
  quality_max := fun _ => ⟨-1, 0⟩
  ssid := fun _ => ⟨-1, ""⟩
  bssid := fun _ => ⟨-1, ""⟩
  country := fun _ => ⟨-1, ""⟩
  hardware_name := fun _ => ⟨-1, ""⟩
  phyname := fun _ => ⟨-1, ""⟩
  mode := fun _ => ⟨-1, 0⟩
  htmode := fun _ => ⟨-1, 0⟩
  hwmodelist := fun _ => ⟨-1, 0⟩
  htmodelist := fun _ => ⟨-1, 0⟩
  mbssid_support := fun _ => ⟨-1, 0⟩
  encryption := fun _ => ⟨-1, zeroCrypto⟩
  hardware_id := fun _ => ⟨-1, ⟨0, 0, 0, 0⟩⟩
  assoclist := fun _ cap => ⟨-1, cap, fun _ => zeroAssoc⟩
  scanlist := fun _ cap => ⟨-1, cap, fun _ => zeroScan⟩
  freqlist := fun _ cap => ⟨-1, cap, fun _ => ⟨0, 0, 0⟩⟩
  txpwrlist := fun _ cap => ⟨-1, cap, fun _ => ⟨0, 0⟩⟩
  countrylist := fun _ cap => ⟨-1, cap, fun _ => ⟨0, ""⟩⟩
  lookup_phy := none

/-- A call on interface `wlan0` of the backend `ops`, with memory available. -/
def sampleCall (ops : iwinfo_ops) : UcCall := ⟨.string "wlan0", some ops, true⟩

/-- A backend whose frequency list call reports 13 bytes: one whole record of
the sample size 12 and one more byte. -/
def oddLengthFreqOps : iwinfo_ops :=
  { failingOps with
    freqlist := fun _ _ => ⟨0, 13, fun i => if i = 0 then ⟨2412, 1, 0⟩ else ⟨2417, 2, 0⟩⟩ }

/-- A backend whose country list call reports two records of the sample size 6:
`US` with domain `FCC`, and a code that the static table does not list. -/
def sampleCountryOps : iwinfo_ops :=
  { failingOps with
    countrylist := fun _ _ =>
      ⟨0, 12, fun i => if i = 0 then ⟨0x5553, "FCC"⟩ else ⟨0x5a5a, "ZZ"⟩⟩ }

/-- An HT rate record that also carries the HE and EHT flags. -/
def sampleRateHT : iwinfo_rate_entry :=
  { zeroRate with
    rate := 300000, mcs := 15, is_40mhz := 1, is_short_gi := 1, is_ht := 1,
    is_he := 1, is_eht := 1, nss := 2, mhz := 40 }

/-- An EHT rate record of 320 MHz: `mhz_hi = 1`, `mhz = 64`. -/
def sampleRateEHT : iwinfo_rate_entry :=
  { zeroRate with
    rate := 2882400, mcs := 13, is_eht := 1, nss := 2, mhz := 64, mhz_hi := 1,
    eht_gi := 1 }

/-- A scan record with raw signal byte 156, an HT operation element and no
VHT operation element. -/
def sampleScan : iwinfo_scanlist_entry :=
  { zeroScan with
    mac := ⟨0, 1, 2, 10, 255, 171⟩, ssid := "OpenWrt", mode := 1, channel := 6, mhz := 2437,
    signal := 156, quality := 40, quality_max := 70, ht_chan_info := ⟨6, 0, 1⟩ }

/-- An association record for the station 00:11:22:33:44:55 with signal -45. -/
def sampleAssocA : iwinfo_assoclist_entry :=
  { zeroAssoc with mac := ⟨0x00, 0x11, 0x22, 0x33, 0x44, 0x55⟩, signal := -45, noise := -95 }

/-- An association record for the station 66:77:88:99:AA:BB. -/
def sampleAssocB : iwinfo_assoclist_entry :=
  { zeroAssoc with mac := ⟨0x66, 0x77, 0x88, 0x99, 0xAA, 0xBB⟩, signal := -70, noise := -95 }

/-- A second association record for the station 00:11:22:33:44:55, with signal -60. -/
def sampleAssocC : iwinfo_assoclist_entry :=
  { zeroAssoc with mac := ⟨0x00, 0x11, 0x22, 0x33, 0x44, 0x55⟩, signal := -60, noise := -95 }

/-- A backend whose association list call reports three records of the sample
size 128: `sampleAssocA`, `sampleAssocB`, `sampleAssocC`. -/
def dupMacOps : iwinfo_ops :=
  { failingOps with
    assoclist := fun _ _ =>
      ⟨0, 384, fun i => if i = 0 then sampleAssocA else if i = 128 then sampleAssocB
        else sampleAssocC⟩ }

/-- A backend whose frequency list call reports two whole records of the
sample size 12. -/
def wholeFreqOps : iwinfo_ops :=
  { failingOps with
    freqlist := fun _ _ => ⟨0, 24, fun i => if i = 0 then ⟨2412, 1, 0⟩ else ⟨2417, 2, 0⟩⟩ }

/-- A backend whose frequency list call reports success without touching the
buffer or the length: the buffer keeps the zeros of `calloc` and `len` keeps
the capacity it was given. -/
def untouchedFreqOps : iwinfo_ops :=
  { failingOps with
    freqlist := fun _ cap => ⟨0, cap, fun _ => ⟨0, 0, 0⟩⟩ }

/-- A profile with two radios: the second key carries the primary index 2. -/
def sampleDualProfile : L1Context :=
  ⟨some [some "MT7981_1_1", some "MT7986_2_1"], 2, fun _ => none, fun _ => none⟩

/-- A profile with one radio. -/
def sampleSingleProfile : L1Context :=
  ⟨some [some "MT7981_1_1", some "MT7981_1_2"], 2, fun _ => none, fun _ => none⟩

/-! ## Lemmas on objects and bit tests -/

theorem ucv_object_get_add (obj : UcObject) (key : String) (val : UcValue) :
    ucv_object_get (ucv_object_add obj key val) key = some val := by
  induction obj with
  | nil => simp [ucv_object_add, ucv_object_get]
  | cons p rest ih =>
    obtain ⟨k, v⟩ := p
    by_cases h : k = key
    · simp [ucv_object_add, ucv_object_get, h]
    · simp [ucv_object_add, ucv_object_get, h, ih]

theorem intAnd_two_pow_ne_zero (mask : Int) (i : Nat) :
    intAnd mask (2 ^ i) ≠ 0 ↔ maskBit mask i = true := by
  unfold intAnd maskBit
  rw [Nat.and_two_pow]
  cases h : ((mask % 2 ^ 32).toNat).testBit i <;> simp

theorem maskBit_zero (i : Nat) : maskBit 0 i = false := by
  simp [maskBit]

theorem bitmaskLoop_eq (mask : Int) (names : List String) :
    ∀ (n i : Nat) (arr : List UcValue), i + n ≤ 31 → i + n ≤ names.length →
      bitmaskLoop mask names n i arr =
        some (arr ++ (List.range' i n).filterMap
          (fun j => if maskBit mask j = true then (names[j]?).map UcValue.string else none)) := by
  intro n
  induction n with
  | zero => intro i arr _ _; simp [bitmaskLoop]
  | succ n ih =>
    intro i arr h31 hlen
    have hi : i < 31 := by omega
    have hl : i < names.length := by omega
    have hget : names[i]? = some names[i] := List.getElem?_eq_getElem hl
    rw [bitmaskLoop]
    simp only [shl1, hi, if_true]
    rw [List.range'_succ, List.filterMap_cons]
    by_cases hb : maskBit mask i = true
    · have hne : intAnd mask (2 ^ i) ≠ 0 := (intAnd_two_pow_ne_zero mask i).2 hb
      rw [if_pos hne, hget]
      simp only [hb, if_true, hget, Option.map_some']
      rw [ih (i + 1) _ (by omega) (by omega)]
      simp [ucv_array_push, ucv_string_new]
    · have hne : ¬ intAnd mask (2 ^ i) ≠ 0 := fun h => hb ((intAnd_two_pow_ne_zero mask i).1 h)
      rw [if_neg hne]
      simp only [hb]
      rw [ih (i + 1) _ (by omega) (by omega)]
      simp

theorem filterMap_range_getElem? {α β : Type} (f : α → β) (l : List α) :
    ∀ n, n ≤ l.length →
      (List.range n).filterMap (fun j => (l[j]?).map f) = (l.take n).map f := by
  intro n
  induction n with
  | zero => intro _; simp
  | succ n ih =>
    intro h
    have hl : n < l.length := by omega
    rw [List.range_succ, List.filterMap_append, ih (by omega), List.take_succ, List.map_append]
    simp only [List.filterMap_cons, List.filterMap_nil, List.getElem?_eq_getElem hl,
      Option.map_some', Option.toList, List.map_cons, List.map_nil]

/-- C4: for 0 ≤ count ≤ size of the name table and count ≤ 31,
`iwinfo_uc_add_array_from_bitmask` stores under `key` exactly the array of the
names `names[i]`, for the `i` in `[0, count)` whose bit is set in `mask`, in
increasing order of `i`; mask 0 gives the empty array, and a mask with all the
bits `0 .. count-1` set gives the first `count` names (the whole table when
`count` is its size). -/
theorem iwinfo_uc_add_array_from_bitmask_spec (obj : UcObject) (key : String) (mask : Int)
    (names : List String) (count : Int)
    (h0 : 0 ≤ count) (hsz : count ≤ names.length) (h31 : count ≤ 31) :
    (∃ out, iwinfo_uc_add_array_from_bitmask obj key mask names count = some out ∧
      out = ucv_object_add obj key (.array ((List.range count.toNat).filterMap
        (fun i => if maskBit mask i = true then (names[i]?).map UcValue.string else none))) ∧
      ucv_object_get out key = some (.array ((List.range count.toNat).filterMap
        (fun i => if maskBit mask i = true then (names[i]?).map UcValue.string else none)))) ∧
    (mask = 0 → iwinfo_uc_add_array_from_bitmask obj key mask names count =
      some (ucv_object_add obj key (.array []))) ∧
    ((∀ i, i < count.toNat → maskBit mask i = true) →
      iwinfo_uc_add_array_from_bitmask obj key mask names count =
        some (ucv_object_add obj key (.array ((names.take count.toNat).map UcValue.string)))) := by
  have hn31 : 0 + count.toNat ≤ 31 := by omega
  have hnl : 0 + count.toNat ≤ names.length := by omega
  have hloop := bitmaskLoop_eq mask names count.toNat 0 [] hn31 hnl
  have hrun : iwinfo_uc_add_array_from_bitmask obj key mask names count =
      some (ucv_object_add obj key (.array ((List.range count.toNat).filterMap
        (fun i => if maskBit mask i = true then (names[i]?).map UcValue.string else none)))) := by
    simp only [iwinfo_uc_add_array_from_bitmask, ucv_array_new, hloop, List.nil_append,
      List.range_eq_range']
  refine ⟨⟨_, hrun, rfl, ucv_object_get_add _ _ _⟩, ?_, ?_⟩
  · intro hm
    rw [hrun, hm]
    have hnil : ∀ n : Nat, (List.range n).filterMap (fun _ => (none : Option UcValue)) = [] := by
      intro n
      induction n with
      | zero => rfl
      | succ n ih => rw [List.range_succ, List.filterMap_append, ih]; rfl
    simp [maskBit_zero, hnil]
  · intro hall
    rw [hrun]
    have hfm : (List.range count.toNat).filterMap
        (fun i => if maskBit mask i = true then (names[i]?).map UcValue.string else none) =
        (List.range count.toNat).filterMap (fun i => (names[i]?).map UcValue.string) := by
      apply List.filterMap_congr
      intro i hi
      simp [hall i (List.mem_range.1 hi)]
    rw [hfm, filterMap_range_getElem? UcValue.string names count.toNat (by omega)]

/-- C4 at a concrete input: mask 5 over a three-name table. -/
theorem iwinfo_uc_add_array_from_bitmask_spec_witness :
    (0 : Int) ≤ 3 ∧ (3 : Int) ≤ (["NONE", "WEP40", "TKIP"] : List String).length ∧
    (3 : Int) ≤ 31 ∧
    iwinfo_uc_add_array_from_bitmask [] "pair_ciphers" 5 ["NONE", "WEP40", "TKIP"] 3 =
      some [("pair_ciphers", .array [.string "NONE", .string "TKIP"])] :=
  ⟨by decide, by decide, by decide,
    by
      obtain ⟨out, hout, heq, _⟩ := (iwinfo_uc_add_array_from_bitmask_spec []
        "pair_ciphers" 5 ["NONE", "WEP40", "TKIP"] 3 (by decide) (by decide) (by decide)).1
      rw [hout, heq]
      rfl⟩

theorem ucv_object_get_add_ne (obj : UcObject) (key key2 : String) (val : UcValue)
    (h : key ≠ key2) :
    ucv_object_get (ucv_object_add obj key val) key2 = ucv_object_get obj key2 := by
  induction obj with
  | nil => simp [ucv_object_add, ucv_object_get, h]
  | cons p rest ih =>
    obtain ⟨k, v⟩ := p
    by_cases hk : k = key
    · subst hk
      simp [ucv_object_add, ucv_object_get, h]
    · by_cases hk2 : k = key2
      · subst hk2
        simp [ucv_object_add, ucv_object_get, hk]
      · simp [ucv_object_add, ucv_object_get, hk, hk2, ih]

theorem mem_objectKeys_add (obj : UcObject) (key : String) (val : UcValue) (x : String) :
    x ∈ objectKeys (ucv_object_add obj key val) ↔ x ∈ objectKeys obj ∨ x = key := by
  induction obj with
  | nil => simp [ucv_object_add, objectKeys]
  | cons p rest ih =>
    obtain ⟨k, v⟩ := p
    by_cases hk : k = key
    · subst hk
      simp [ucv_object_add, objectKeys]
      tauto
    · have ih2 : x ∈ List.map Prod.fst (ucv_object_add rest key val) ↔
          x ∈ List.map Prod.fst rest ∨ x = key := ih
      simp only [ucv_object_add, hk, if_false, objectKeys, List.map_cons, List.mem_cons, ih2]
      tauto

/-- C5: for a rate record with `is_ht` set, whatever its other flags,
`iwinfo_uc_set_rateinfo` leaves in a fresh object exactly the keys rate, ht,
vht, he, eht, mhz, 40mhz, mcs and short_gi, in this order, and none of nss,
he_gi, he_dcm and eht_gi; in any object, the keys it adds are among those
nine. -/
theorem iwinfo_uc_set_rateinfo_ht (r : iwinfo_rate_entry) (h : r.is_ht ≠ 0) :
    objectKeys (iwinfo_uc_set_rateinfo ucv_object_new r) =
      ["rate", "ht", "vht", "he", "eht", "mhz", "40mhz", "mcs", "short_gi"] ∧
    "nss" ∉ objectKeys (iwinfo_uc_set_rateinfo ucv_object_new r) ∧
    "he_gi" ∉ objectKeys (iwinfo_uc_set_rateinfo ucv_object_new r) ∧
    "he_dcm" ∉ objectKeys (iwinfo_uc_set_rateinfo ucv_object_new r) ∧
    "eht_gi" ∉ objectKeys (iwinfo_uc_set_rateinfo ucv_object_new r) ∧
    ∀ obj : UcObject, ∀ x : String, x ∈ objectKeys (iwinfo_uc_set_rateinfo obj r) ↔
      x ∈ objectKeys obj ∨
        x ∈ ["rate", "ht", "vht", "he", "eht", "mhz", "40mhz", "mcs", "short_gi"] := by
  have hk : objectKeys (iwinfo_uc_set_rateinfo ucv_object_new r) =
      ["rate", "ht", "vht", "he", "eht", "mhz", "40mhz", "mcs", "short_gi"] := by
    simp [iwinfo_uc_set_rateinfo, h, ucv_object_new, ucv_object_add, objectKeys]
  refine ⟨hk, ?_, ?_, ?_, ?_, ?_⟩
  · rw [hk]; decide
  · rw [hk]; decide
  · rw [hk]; decide
  · rw [hk]; decide
  · intro obj x
    simp only [iwinfo_uc_set_rateinfo, h, ne_eq, not_false_eq_true, if_true, mem_objectKeys_add,
      List.mem_cons, List.mem_singleton, List.not_mem_nil, or_false]
    tauto

/-- The keys `iwinfo_uc_set_rateinfo` leaves in a fresh object for a record with
`is_ht` clear. -/
theorem keys_set_rateinfo_not_ht (r : iwinfo_rate_entry) (h : r.is_ht = 0) :
    objectKeys (iwinfo_uc_set_rateinfo ucv_object_new r) =
      ["rate", "ht", "vht", "he", "eht", "mhz"] ++
      (if r.is_vht ≠ 0 ∨ r.is_he ≠ 0 ∨ r.is_eht ≠ 0 then ["mcs", "nss"] else []) ++
      (if r.is_he ≠ 0 then ["he_gi", "he_dcm"] else []) ++
      (if r.is_eht ≠ 0 then ["eht_gi"] else []) ++
      (if r.is_vht ≠ 0 then ["short_gi"] else []) := by
  by_cases hv : r.is_vht = 0 <;> by_cases he : r.is_he = 0 <;> by_cases hx : r.is_eht = 0 <;>
    simp [iwinfo_uc_set_rateinfo, h, hv, he, hx, ucv_object_new, ucv_object_add, objectKeys]

/-- C6: for a rate record with `is_ht` clear, `iwinfo_uc_set_rateinfo` emits
mcs and nss exactly when one of `is_vht`, `is_he`, `is_eht` is set, he_gi and
he_dcm exactly when `is_he` is set, eht_gi exactly when `is_eht` is set,
short_gi exactly when `is_vht` is set, and never 40mhz. -/
theorem iwinfo_uc_set_rateinfo_not_ht (r : iwinfo_rate_entry) (h : r.is_ht = 0) :
    ("mcs" ∈ objectKeys (iwinfo_uc_set_rateinfo ucv_object_new r) ↔
      (r.is_vht ≠ 0 ∨ r.is_he ≠ 0 ∨ r.is_eht ≠ 0)) ∧
    ("nss" ∈ objectKeys (iwinfo_uc_set_rateinfo ucv_object_new r) ↔
      (r.is_vht ≠ 0 ∨ r.is_he ≠ 0 ∨ r.is_eht ≠ 0)) ∧
    ("he_gi" ∈ objectKeys (iwinfo_uc_set_rateinfo ucv_object_new r) ↔ r.is_he ≠ 0) ∧
    ("he_dcm" ∈ objectKeys (iwinfo_uc_set_rateinfo ucv_object_new r) ↔ r.is_he ≠ 0) ∧
    ("eht_gi" ∈ objectKeys (iwinfo_uc_set_rateinfo ucv_object_new r) ↔ r.is_eht ≠ 0) ∧
    ("short_gi" ∈ objectKeys (iwinfo_uc_set_rateinfo ucv_object_new r) ↔ r.is_vht ≠ 0) ∧
    "40mhz" ∉ objectKeys (iwinfo_uc_set_rateinfo ucv_object_new r) := by
  rw [keys_set_rateinfo_not_ht r h]
  by_cases hv : r.is_vht = 0 <;> by_cases he : r.is_he = 0 <;> by_cases hx : r.is_eht = 0 <;>
    simp [hv, he, hx]

/-- C7: whatever the standard flags, `iwinfo_uc_set_rateinfo` emits rate, the
four flags ht, vht, he and eht, and mhz = mhz_hi * 256 + mhz; for byte-sized
`mhz_hi` and `mhz` that value lies in 0..65535 and both bytes are recovered
from it by division and remainder by 256. -/
theorem iwinfo_uc_set_rateinfo_common (obj : UcObject) (r : iwinfo_rate_entry) :
    ucv_object_get (iwinfo_uc_set_rateinfo obj r) "rate" = some (.int64 r.rate) ∧
    ucv_object_get (iwinfo_uc_set_rateinfo obj r) "ht" =
      some (.boolean (decide (r.is_ht ≠ 0))) ∧
    ucv_object_get (iwinfo_uc_set_rateinfo obj r) "vht" =
      some (.boolean (decide (r.is_vht ≠ 0))) ∧
    ucv_object_get (iwinfo_uc_set_rateinfo obj r) "he" =
      some (.boolean (decide (r.is_he ≠ 0))) ∧
    ucv_object_get (iwinfo_uc_set_rateinfo obj r) "eht" =
      some (.boolean (decide (r.is_eht ≠ 0))) ∧
    ucv_object_get (iwinfo_uc_set_rateinfo obj r) "mhz" =
      some (.int64 ((r.mhz_hi * 256 + r.mhz : Nat) : Int)) ∧
    (r.mhz_hi < 256 → r.mhz < 256 →
      r.mhz_hi * 256 + r.mhz ≤ 65535 ∧
      (r.mhz_hi * 256 + r.mhz) / 256 = r.mhz_hi ∧
      (r.mhz_hi * 256 + r.mhz) % 256 = r.mhz) := by
  refine ⟨?_, ?_, ?_, ?_, ?_, ?_, ?_⟩
  all_goals first
    | (intro h1 h2; omega)
    | (unfold iwinfo_uc_set_rateinfo
       split_ifs <;>
        simp (disch := decide) only [ucv_object_get_add_ne, ucv_object_get_add,
          ucv_int64_new, ucv_boolean_new] <;> simp)

/-! ## The record loop -/

theorem wrap32_eq_self (x : Int) (h0 : 0 ≤ x) (h1 : x < 2 ^ 31) : wrap32 x = x := by
  unfold wrap32
  omega

/-- With `m` records left to visit from offset `i`, and no overflow of the loop
variable, the record loop runs the body at `i, i + sz, ..., i + (m - 1) * sz`. -/
theorem recordLoop_steps {S : Type} (sz : Nat) (len : Int) (body : S → Int → Option S)
    (hov : len + sz ≤ 2 ^ 31) :
    ∀ (m fuel : Nat) (i : Int) (s : S), 0 ≤ i → m ≤ fuel →
      len ≤ i + m * sz → (0 < m → i + (m - 1 : Nat) * sz < len) →
      recordLoop sz len body fuel i s =
        ((List.range m).map (fun j : Nat => i + (j * sz : Nat))).foldlM body s := by
  intro m
  induction m with
  | zero =>
    intro fuel i s _ _ hge _
    have hnot : ¬ i < len := by simp at hge; omega
    cases fuel <;> simp [recordLoop, hnot]
  | succ m ih =>
    intro fuel i s h0 hfuel hge hlt
    have hlast : i + (m : Nat) * sz < len := by simpa using hlt (Nat.succ_pos m)
    have hmsz : (0 : Int) ≤ (m : Int) * sz := by positivity
    have hi : i < len := by omega
    obtain ⟨f, rfl⟩ : ∃ f, fuel = f + 1 := ⟨fuel - 1, by omega⟩
    rw [recordLoop, if_pos hi, List.range_succ_eq_map, List.map_cons, List.foldlM_cons]
    have hw : wrap32 (i + sz) = i + sz := wrap32_eq_self _ (by omega) (by omega)
    have hmap : (List.map (fun j : Nat => i + ((j * sz : Nat) : Int)) (List.map Nat.succ (List.range m))) =
        (List.range m).map (fun j : Nat => (i + sz) + ((j * sz : Nat) : Int)) := by
      rw [List.map_map]
      apply List.map_congr_left
      intro j _
      simp only [Function.comp, Nat.succ_eq_add_one]
      push_cast
      ring
    simp only [Nat.zero_mul, Nat.cast_zero, add_zero]
    cases hb : body s i with
    | none => rfl
    | some s1 =>
      simp only [Option.bind_eq_bind, Option.some_bind]
      rw [hw, hmap]
      apply ih f (i + sz) s1 (by omega) (by omega)
      · push_cast at hge ⊢
        have : ((m : Int) + 1) * sz = m * sz + sz := by ring
        omega
      · intro hm
        have hcast : (((m - 1 : Nat) : Int)) = (m : Int) - 1 := by omega
        rw [hcast]
        have : ((m : Int) - 1) * sz = m * sz - sz := by ring
        omega

/-- Number of record offsets below `len`: the ceiling of `len / sz`. -/
theorem ceil_bounds (L sz : Nat) (hsz : 0 < sz) (hL : 0 < L) :
    L ≤ ((L + sz - 1) / sz) * sz ∧ ((L + sz - 1) / sz - 1) * sz < L ∧
      0 < (L + sz - 1) / sz ∧ (L + sz - 1) / sz ≤ L := by
  have h1 : (L + sz - 1) / sz * sz ≤ L + sz - 1 := Nat.div_mul_le_self _ _
  have h2 : L + sz - 1 < sz * ((L + sz - 1) / sz + 1) := Nat.lt_mul_div_succ _ hsz
  have h3 : sz * ((L + sz - 1) / sz + 1) = (L + sz - 1) / sz * sz + sz := by ring
  have h4 : 0 < (L + sz - 1) / sz := Nat.div_pos (by omega) hsz
  have h5 : ((L + sz - 1) / sz - 1) * sz = (L + sz - 1) / sz * sz - sz := by
    rw [Nat.sub_mul, Nat.one_mul]
  have h6 : (L + sz - 1) / sz ≤ L := by
    calc (L + sz - 1) / sz ≤ (L * sz) / sz := by
          apply Nat.div_le_div_right
          have : L + sz ≤ L * sz + 1 := by
            obtain ⟨a, rfl⟩ : ∃ a, L = a + 1 := ⟨L - 1, by omega⟩
            obtain ⟨b, rfl⟩ : ∃ b, sz = b + 1 := ⟨sz - 1, by omega⟩
            ring_nf
            nlinarith [Nat.zero_le (a * b)]
          omega
      _ = L := Nat.mul_div_cancel _ hsz
  have h7 : sz ≤ (L + sz - 1) / sz * sz := Nat.le_mul_of_pos_left _ h4
  refine ⟨by omega, by omega, h4, h6⟩

/-- The record loop over a reported length `len > 0` runs its body at the
offsets `0, sz, 2 * sz, ...` below `len`: `⌈len / sz⌉` of them. -/
theorem recordLoop_eq {S : Type} (sz : Nat) (len : Int) (body : S → Int → Option S) (s : S)
    (hsz : 0 < sz) (hlen : 0 < len) (hov : len + sz ≤ 2 ^ 31) :
    recordLoop sz len body len.toNat 0 s =
      ((List.range ((len.toNat + sz - 1) / sz)).map
        (fun j : Nat => ((j * sz : Nat) : Int))).foldlM body s := by
  obtain ⟨hA, hB, hC, hD⟩ := ceil_bounds len.toNat sz hsz (by omega)
  have h := recordLoop_steps sz len body hov ((len.toNat + sz - 1) / sz) len.toNat 0 s
    (le_refl _) hD
    (by
      have : (len.toNat : Int) ≤ (((len.toNat + sz - 1) / sz * sz : Nat) : Int) := by
        exact_mod_cast hA
      push_cast at this ⊢
      omega)
    (by
      intro _
      have : ((((len.toNat + sz - 1) / sz - 1) * sz : Nat) : Int) < (len.toNat : Int) := by
        exact_mod_cast hB
      push_cast at this ⊢
      omega)
  simpa using h

theorem recordCount_of_not_dvd (sz : Nat) (len : Int) (hsz : 0 < sz) (hlen : 0 < len)
    (hnd : len % sz ≠ 0) :
    recordCount sz len = (len / sz).toNat + 1 ∧
      ((len / sz).toNat * sz : Nat) < len ∧ len < ((len / sz).toNat * sz : Nat) + sz := by
  obtain ⟨L, rfl⟩ : ∃ L : Nat, len = (L : Int) := ⟨len.toNat, by omega⟩
  have hmod : L % sz ≠ 0 := by
    intro h
    apply hnd
    exact_mod_cast h
  have hdiv : ((L : Int) / (sz : Int)).toNat = L / sz := by
    have e : ((L : Int) / (sz : Int)) = ((L / sz : Nat) : Int) := by norm_cast
    rw [e]
    exact Int.toNat_ofNat (L / sz)
  have hdm : sz * (L / sz) + L % sz = L := Nat.div_add_mod L sz
  have hlt : L % sz < sz := Nat.mod_lt _ hsz
  have hcomm : L / sz * sz = sz * (L / sz) := Nat.mul_comm _ _
  have hcount : (L + sz - 1) / sz = L / sz + 1 := by
    have e : L + sz - 1 = (L % sz - 1) + sz * (L / sz + 1) := by
      have : sz * (L / sz + 1) = sz * (L / sz) + sz := by ring
      omega
    rw [e, Nat.add_mul_div_left _ _ hsz, Nat.div_eq_of_lt (by omega)]
    omega
  refine ⟨?_, ?_, ?_⟩
  · simp only [recordCount, Int.toNat_ofNat, hdiv, hcount]
  · rw [hdiv]; exact_mod_cast (by omega : L / sz * sz < L)
  · rw [hdiv]; exact_mod_cast (by omega : L < L / sz * sz + sz)

theorem recordCount_of_dvd (sz n : Nat) (hsz : 0 < sz) :
    recordCount sz ((n * sz : Nat) : Int) = n := by
  simp only [recordCount, Int.toNat_ofNat]
  have e : n * sz + sz - 1 = (sz - 1) + sz * n := by
    have : n * sz = sz * n := Nat.mul_comm _ _
    omega
  rw [e, Nat.add_mul_div_left _ _ hsz, Nat.div_eq_of_lt (by omega)]
  omega

theorem recordOffsets_eq (sz : Nat) (len : Int) (hsz : 0 < sz) (hlen : 0 < len)
    (hov : len + sz ≤ 2 ^ 31) :
    recordOffsets sz len =
      some ((List.range (recordCount sz len)).map (fun j : Nat => ((j * sz : Nat) : Int))) := by
  unfold recordOffsets recordCount
  rw [recordLoop_eq sz len _ [] hsz hlen hov]
  generalize (List.range ((len.toNat + sz - 1) / sz)).map
    (fun j : Nat => ((j * sz : Nat) : Int)) = offs
  have key : ∀ (l acc : List Int),
      List.foldlM (fun (o : List Int) (i : Int) => some (o ++ [i])) acc l = some (acc ++ l) := by
    intro l
    induction l with
    | nil => intro acc; simp
    | cons a t ih => intro acc; simp [List.foldlM_cons, ih]
  simpa using key offs []

theorem foldlM_push (f : Int → UcValue) (offs : List Int) :
    ∀ res : List UcValue,
      List.foldlM (fun (r : List UcValue) (i : Int) => some (ucv_array_push r (f i))) res offs =
        some (res ++ offs.map f) := by
  induction offs with
  | nil => intro res; simp
  | cons a t ih =>
    intro res
    simp only [List.foldlM_cons, Option.bind_eq_bind, Option.some_bind]
    rw [ih]
    simp [ucv_array_push]

theorem foldlM_scanlistBody (H : IwinfoHeader) (view : Int → iwinfo_scanlist_entry)
    (o : Int → UcObject) (offs : List Int)
    (hdef : ∀ i ∈ offs, scanEntryObject H (view i) = some (o i)) :
    ∀ res : List UcValue,
      List.foldlM (scanlistBody H view) res offs =
        some (res ++ offs.map (fun i => UcValue.object (o i))) := by
  induction offs with
  | nil => intro res; simp
  | cons a t ih =>
    intro res
    have ha : scanEntryObject H (view a) = some (o a) := hdef a (List.mem_cons_self _ _)
    have ht : ∀ i ∈ t, scanEntryObject H (view i) = some (o i) :=
      fun i hi => hdef i (List.mem_cons_of_mem _ hi)
    simp only [List.foldlM_cons, scanlistBody, ha, Option.bind_eq_bind, Option.some_bind]
    have h2 := ih ht (ucv_array_push res (UcValue.object (o a)))
    simp only [scanlistBody] at h2
    rw [h2]
    simp [ucv_array_push]

theorem foldlM_assoclistBody (view : Int → iwinfo_assoclist_entry) (offs : List Int) :
    ∀ res : UcObject,
      List.foldlM (assoclistBody view) res offs =
        some (offs.foldl (fun r i => ucv_object_add r (mac_snprintf (view i).mac)
          (.object (assocEntryObject (view i)))) res) := by
  induction offs with
  | nil => intro res; simp
  | cons a t ih => intro res; simp [List.foldlM_cons, assoclistBody, ih]

/-! ## List operations on a successful backend call -/

theorem iwinfo_uc_freqlist_ok (H : IwinfoHeader) (c : UcCall) (ifname : String)
    (ops : iwinfo_ops) (harg : c.arg0 = .string ifname) (hthis : c.this = some ops)
    (halloc : c.alloc_ok = true) (r : ListReply iwinfo_freqlist_entry)
    (hr : ops.freqlist ifname H.IWINFO_BUFSIZE = r) (hst : r.status = 0) (hlen : 0 < r.len)
    (hsz : 0 < H.sizeof_freqlist_entry) (hov : r.len + H.sizeof_freqlist_entry ≤ 2 ^ 31) :
    iwinfo_uc_freqlist H c = some (.ret (.array
      ((List.range (recordCount H.sizeof_freqlist_entry r.len)).map (fun k : Nat =>
        UcValue.object (freqEntryObject (r.view ((k * H.sizeof_freqlist_entry : Nat) : Int))))))) := by
  have hcond : ¬ (r.status ≠ 0 ∨ r.len ≤ 0) := by omega
  simp only [iwinfo_uc_freqlist, withBackend, CHECK_STRING, harg, hthis, halloc, hr, hcond,
    if_false, Bool.true_eq_false]
  rw [recordLoop_eq _ _ _ _ hsz hlen hov]
  unfold freqlistBody
  rw [foldlM_push (fun i => UcValue.object (freqEntryObject (r.view i)))]
  simp [ucv_array_new, recordCount, List.map_map, Function.comp]

theorem iwinfo_uc_txpwrlist_ok (H : IwinfoHeader) (c : UcCall) (ifname : String)
    (ops : iwinfo_ops) (harg : c.arg0 = .string ifname) (hthis : c.this = some ops)
    (halloc : c.alloc_ok = true) (r : ListReply iwinfo_txpwrlist_entry)
    (hr : ops.txpwrlist ifname H.IWINFO_BUFSIZE = r) (hst : r.status = 0) (hlen : 0 < r.len)
    (hsz : 0 < H.sizeof_txpwrlist_entry) (hov : r.len + H.sizeof_txpwrlist_entry ≤ 2 ^ 31) :
    iwinfo_uc_txpwrlist H c = some (.ret (.array
      ((List.range (recordCount H.sizeof_txpwrlist_entry r.len)).map (fun k : Nat =>
        UcValue.object (txpwrEntryObject (r.view ((k * H.sizeof_txpwrlist_entry : Nat) : Int))))))) := by
  have hcond : ¬ (r.status ≠ 0 ∨ r.len ≤ 0) := by omega
  simp only [iwinfo_uc_txpwrlist, withBackend, CHECK_STRING, harg, hthis, halloc, hr, hcond,
    if_false, Bool.true_eq_false]
  rw [recordLoop_eq _ _ _ _ hsz hlen hov]
  unfold txpwrlistBody
  rw [foldlM_push (fun i => UcValue.object (txpwrEntryObject (r.view i)))]
  simp [ucv_array_new, recordCount, List.map_map, Function.comp]

theorem iwinfo_uc_scanlist_ok (H : IwinfoHeader) (c : UcCall) (ifname : String)
    (ops : iwinfo_ops) (harg : c.arg0 = .string ifname) (hthis : c.this = some ops)
    (halloc : c.alloc_ok = true) (r : ListReply iwinfo_scanlist_entry)
    (hr : ops.scanlist ifname IWINFO_BIG_BUFSIZE = r) (hst : r.status = 0) (hlen : 0 < r.len)
    (hsz : 0 < H.sizeof_scanlist_entry) (hov : r.len + H.sizeof_scanlist_entry ≤ 2 ^ 31)
    (o : Nat → UcObject)
    (hdef : ∀ k, k < recordCount H.sizeof_scanlist_entry r.len →
      scanEntryObject H (r.view ((k * H.sizeof_scanlist_entry : Nat) : Int)) = some (o k)) :
    iwinfo_uc_scanlist H c = some (.ret (.array
      ((List.range (recordCount H.sizeof_scanlist_entry r.len)).map (fun k : Nat =>
        UcValue.object (o k))))) := by
  have hcond : ¬ (r.status ≠ 0 ∨ r.len ≤ 0) := by omega
  simp only [iwinfo_uc_scanlist, withBackend, CHECK_STRING, harg, hthis, halloc, hr, hcond,
    if_false, Bool.true_eq_false]
  rw [recordLoop_eq _ _ _ _ hsz hlen hov]
  have hsz0 : H.sizeof_scanlist_entry ≠ 0 := by omega
  have hidx : ∀ k : Nat,
      (((k * H.sizeof_scanlist_entry : Nat) : Int) / (H.sizeof_scanlist_entry : Int)).toNat = k := by
    intro k
    have e : (((k * H.sizeof_scanlist_entry : Nat) : Int) / (H.sizeof_scanlist_entry : Int)) =
        (((k * H.sizeof_scanlist_entry / H.sizeof_scanlist_entry : Nat)) : Int) := by norm_cast
    rw [e, Nat.mul_div_cancel _ hsz]
    exact Int.toNat_ofNat k
  rw [foldlM_scanlistBody H r.view
    (fun i => o ((i / (H.sizeof_scanlist_entry : Int)).toNat)) _ (by
      intro i hi
      obtain ⟨k, hk, rfl⟩ := List.mem_map.1 hi
      simp only [hidx]
      exact hdef k (by simpa [recordCount] using List.mem_range.1 hk))]
  have hcomp : ((fun i : Int => UcValue.object (o ((i / (H.sizeof_scanlist_entry : Int)).toNat))) ∘
      (fun j : Nat => ((j * H.sizeof_scanlist_entry : Nat) : Int))) =
      fun k : Nat => UcValue.object (o k) := by
    funext k
    simp only [Function.comp, hidx]
  simp only [ucv_array_new, List.nil_append, List.map_map, recordCount, hcomp]

theorem iwinfo_uc_assoclist_ok (H : IwinfoHeader) (c : UcCall) (ifname : String)
    (ops : iwinfo_ops) (harg : c.arg0 = .string ifname) (hthis : c.this = some ops)
    (halloc : c.alloc_ok = true) (r : ListReply iwinfo_assoclist_entry)
    (hr : ops.assoclist ifname IWINFO_BIG_BUFSIZE = r) (hst : r.status = 0) (hlen : 0 < r.len)
    (hsz : 0 < H.sizeof_assoclist_entry) (hov : r.len + H.sizeof_assoclist_entry ≤ 2 ^ 31) :
    iwinfo_uc_assoclist H c = some (.ret (.object
      ((List.range (recordCount H.sizeof_assoclist_entry r.len)).foldl (fun res k =>
        ucv_object_add res
          (mac_snprintf (r.view ((k * H.sizeof_assoclist_entry : Nat) : Int)).mac)
          (.object (assocEntryObject (r.view ((k * H.sizeof_assoclist_entry : Nat) : Int)))))
        ucv_object_new))) := by
  have hcond : ¬ (r.status ≠ 0 ∨ r.len ≤ 0) := by omega
  simp only [iwinfo_uc_assoclist, withBackend, CHECK_STRING, harg, hthis, halloc, hr, hcond,
    if_false, Bool.true_eq_false]
  rw [recordLoop_eq _ _ _ _ hsz hlen hov, foldlM_assoclistBody, List.foldl_map]
  rfl

/-! ## C1: records decoded by the list operations -/

/-- C1, refuted at a concrete input: the frequency list of a backend that
reports 13 bytes, with 12-byte records, has two elements although
`13 / 12 = 1`; the loop reads records at offsets 0 and 12, and the record at
offset 12 ends at byte 24, past the reported length. -/
theorem iwinfo_uc_freqlist_trailing_record :
    (oddLengthFreqOps.freqlist "wlan0" sampleHeader.IWINFO_BUFSIZE).status = 0 ∧
    (oddLengthFreqOps.freqlist "wlan0" sampleHeader.IWINFO_BUFSIZE).len = 13 ∧
    sampleHeader.sizeof_freqlist_entry = 12 ∧
    (13 : Int) % 12 ≠ 0 ∧ (13 : Int) / 12 = 1 ∧
    iwinfo_uc_freqlist sampleHeader (sampleCall oddLengthFreqOps) =
      some (.ret (.array [
        .object [("mhz", .int64 2412), ("channel", .int64 1), ("restricted", .boolean false)],
        .object [("mhz", .int64 2417), ("channel", .int64 2), ("restricted", .boolean false)]])) ∧
    recordOffsets 12 13 = some [0, 12] ∧ (13 : Int) < 12 + 12 :=
  ⟨rfl, rfl, rfl, by decide, by decide, rfl, by decide, by decide⟩

/-- C1 (amended): on a successful backend call with reported length `len > 0`
(and `len + record_size` within the range of `int`), each of assoclist,
scanlist, freqlist and txpwrlist decodes one record at every offset
`0, record_size, 2 * record_size, ...` below `len`, in order: `recordCount`
records, the ceiling of `len / record_size`.  When `len` is not a multiple of
the record size that is `len / record_size + 1` records, and the last one
starts below `len` and ends past it. -/
theorem list_ops_decode_every_offset_below_len (H : IwinfoHeader) (c : UcCall)
    (ifname : String) (ops : iwinfo_ops)
    (harg : c.arg0 = .string ifname) (hthis : c.this = some ops)
    (halloc : c.alloc_ok = true) :
    (∀ r, ops.freqlist ifname H.IWINFO_BUFSIZE = r → r.status = 0 → 0 < r.len →
      0 < H.sizeof_freqlist_entry → r.len + H.sizeof_freqlist_entry ≤ 2 ^ 31 →
      iwinfo_uc_freqlist H c = some (.ret (.array
        ((List.range (recordCount H.sizeof_freqlist_entry r.len)).map (fun k : Nat =>
          UcValue.object
            (freqEntryObject (r.view ((k * H.sizeof_freqlist_entry : Nat) : Int)))))))) ∧
    (∀ r, ops.txpwrlist ifname H.IWINFO_BUFSIZE = r → r.status = 0 → 0 < r.len →
      0 < H.sizeof_txpwrlist_entry → r.len + H.sizeof_txpwrlist_entry ≤ 2 ^ 31 →
      iwinfo_uc_txpwrlist H c = some (.ret (.array
        ((List.range (recordCount H.sizeof_txpwrlist_entry r.len)).map (fun k : Nat =>
          UcValue.object
            (txpwrEntryObject (r.view ((k * H.sizeof_txpwrlist_entry : Nat) : Int)))))))) ∧
    (∀ r, ops.scanlist ifname IWINFO_BIG_BUFSIZE = r → r.status = 0 → 0 < r.len →
      0 < H.sizeof_scanlist_entry → r.len + H.sizeof_scanlist_entry ≤ 2 ^ 31 →
      ∀ o : Nat → UcObject,
      (∀ k, k < recordCount H.sizeof_scanlist_entry r.len →
        scanEntryObject H (r.view ((k * H.sizeof_scanlist_entry : Nat) : Int)) = some (o k)) →
      iwinfo_uc_scanlist H c = some (.ret (.array
        ((List.range (recordCount H.sizeof_scanlist_entry r.len)).map (fun k : Nat =>
          UcValue.object (o k)))))) ∧
    (∀ r, ops.assoclist ifname IWINFO_BIG_BUFSIZE = r → r.status = 0 → 0 < r.len →
      0 < H.sizeof_assoclist_entry → r.len + H.sizeof_assoclist_entry ≤ 2 ^ 31 →
      iwinfo_uc_assoclist H c = some (.ret (.object
        ((List.range (recordCount H.sizeof_assoclist_entry r.len)).foldl (fun res k =>
          ucv_object_add res
            (mac_snprintf (r.view ((k * H.sizeof_assoclist_entry : Nat) : Int)).mac)
            (.object (assocEntryObject (r.view ((k * H.sizeof_assoclist_entry : Nat) : Int)))))
          ucv_object_new)))) ∧
    (∀ (sz : Nat) (len : Int), 0 < sz → 0 < len → len + sz ≤ 2 ^ 31 →
      recordOffsets sz len =
        some ((List.range (recordCount sz len)).map (fun k : Nat => ((k * sz : Nat) : Int))) ∧
      (len % sz ≠ 0 →
        recordCount sz len = (len / sz).toNat + 1 ∧
        (((len / sz).toNat * sz : Nat) : Int) < len ∧
        len < (((len / sz).toNat * sz : Nat) : Int) + sz)) := by
  refine ⟨?_, ?_, ?_, ?_, ?_⟩
  · intro r hr hst hlen hsz hov
    exact iwinfo_uc_freqlist_ok H c ifname ops harg hthis halloc r hr hst hlen hsz hov
  · intro r hr hst hlen hsz hov
    exact iwinfo_uc_txpwrlist_ok H c ifname ops harg hthis halloc r hr hst hlen hsz hov
  · intro r hr hst hlen hsz hov o hdef
    exact iwinfo_uc_scanlist_ok H c ifname ops harg hthis halloc r hr hst hlen hsz hov o hdef
  · intro r hr hst hlen hsz hov
    exact iwinfo_uc_assoclist_ok H c ifname ops harg hthis halloc r hr hst hlen hsz hov
  · intro sz len hsz hlen hov
    exact ⟨recordOffsets_eq sz len hsz hlen hov,
      fun hnd => recordCount_of_not_dvd sz len hsz hlen hnd⟩

/-- C1 (amended) at a concrete input: 13 reported bytes of 12-byte frequency
records are decoded into `recordCount 12 13 = 2` elements. -/
theorem list_ops_decode_every_offset_below_len_witness :
    (sampleCall oddLengthFreqOps).arg0 = .string "wlan0" ∧
    (sampleCall oddLengthFreqOps).this = some oddLengthFreqOps ∧
    (sampleCall oddLengthFreqOps).alloc_ok = true ∧
    recordCount 12 13 = 2 ∧
    iwinfo_uc_freqlist sampleHeader (sampleCall oddLengthFreqOps) = some (.ret (.array
      ((List.range (recordCount 12 13)).map (fun k : Nat =>
        UcValue.object (freqEntryObject
          ((oddLengthFreqOps.freqlist "wlan0" 4096).view ((k * 12 : Nat) : Int))))))) :=
  ⟨rfl, rfl, rfl, by decide,
    (list_ops_decode_every_offset_below_len sampleHeader (sampleCall oddLengthFreqOps) "wlan0"
      oddLengthFreqOps rfl rfl rfl).1 _ rfl rfl (by decide) (by decide) (by decide)⟩

/-! ## C2 and C3: a failing backend call -/

/-- C2, refuted at a concrete input: with a backend whose hardware-mode list
call fails, `iwinfo_uc_hwmodelist` returns null, not an empty collection. -/
theorem iwinfo_uc_hwmodelist_failure_null :
    (failingOps.hwmodelist "wlan0").status ≠ 0 ∧
    iwinfo_uc_hwmodelist sampleHeader (sampleCall failingOps) = some (.ret .null) ∧
    iwinfo_uc_hwmodelist sampleHeader (sampleCall failingOps) ≠ some (.ret (.object [])) ∧
    iwinfo_uc_hwmodelist sampleHeader (sampleCall failingOps) ≠ some (.ret (.array [])) := by
  have h : iwinfo_uc_hwmodelist sampleHeader (sampleCall failingOps) = some (.ret .null) := rfl
  refine ⟨by decide, h, ?_, ?_⟩ <;> rw [h] <;> simp

/-- C2 (amended): when the backend call reports failure or a non-positive
length, assoclist returns an empty object and scanlist, freqlist, txpwrlist and
countrylist return an empty array, never null and never an error; hwmodelist
and htmodelist, whose backend calls report no length, return null when the
backend call reports failure. -/
theorem list_getters_on_failure (H : IwinfoHeader) (c : UcCall) (ifname : String)
    (ops : iwinfo_ops) (harg : c.arg0 = .string ifname) (hthis : c.this = some ops) :
    (c.alloc_ok = true →
      ((ops.assoclist ifname IWINFO_BIG_BUFSIZE).status ≠ 0 ∨
        (ops.assoclist ifname IWINFO_BIG_BUFSIZE).len ≤ 0) →
      iwinfo_uc_assoclist H c = some (.ret (.object []))) ∧
    (c.alloc_ok = true →
      ((ops.scanlist ifname IWINFO_BIG_BUFSIZE).status ≠ 0 ∨
        (ops.scanlist ifname IWINFO_BIG_BUFSIZE).len ≤ 0) →
      iwinfo_uc_scanlist H c = some (.ret (.array []))) ∧
    (c.alloc_ok = true →
      ((ops.freqlist ifname H.IWINFO_BUFSIZE).status ≠ 0 ∨
        (ops.freqlist ifname H.IWINFO_BUFSIZE).len ≤ 0) →
      iwinfo_uc_freqlist H c = some (.ret (.array []))) ∧
    (c.alloc_ok = true →
      ((ops.txpwrlist ifname H.IWINFO_BUFSIZE).status ≠ 0 ∨
        (ops.txpwrlist ifname H.IWINFO_BUFSIZE).len ≤ 0) →
      iwinfo_uc_txpwrlist H c = some (.ret (.array []))) ∧
    (c.alloc_ok = true →
      ((ops.countrylist ifname H.IWINFO_BUFSIZE).status ≠ 0 ∨
        (ops.countrylist ifname H.IWINFO_BUFSIZE).len ≤ 0) →
      iwinfo_uc_countrylist H c = some (.ret (.array []))) ∧
    ((ops.hwmodelist ifname).status ≠ 0 →
      iwinfo_uc_hwmodelist H c = some (.ret .null)) ∧
    ((ops.htmodelist ifname).status ≠ 0 →
      iwinfo_uc_htmodelist H c = some (.ret .null)) := by
  refine ⟨?_, ?_, ?_, ?_, ?_, ?_, ?_⟩
  · intro ha hf
    simp only [iwinfo_uc_assoclist, withBackend, CHECK_STRING, harg, hthis, ha, hf, if_true,
      Bool.true_eq_false, if_false, ucv_object_new]
  · intro ha hf
    simp only [iwinfo_uc_scanlist, withBackend, CHECK_STRING, harg, hthis, ha, hf, if_true,
      Bool.true_eq_false, if_false, ucv_array_new]
  · intro ha hf
    simp only [iwinfo_uc_freqlist, withBackend, CHECK_STRING, harg, hthis, ha, hf, if_true,
      Bool.true_eq_false, if_false, ucv_array_new]
  · intro ha hf
    simp only [iwinfo_uc_txpwrlist, withBackend, CHECK_STRING, harg, hthis, ha, hf, if_true,
      Bool.true_eq_false, if_false, ucv_array_new]
  · intro ha hf
    simp only [iwinfo_uc_countrylist, withBackend, CHECK_STRING, harg, hthis, ha, hf, if_true,
      Bool.true_eq_false, if_false, ucv_array_new]
  · intro hf
    simp only [iwinfo_uc_hwmodelist, withBackend, CHECK_STRING, harg, hthis, hf, ne_eq,
      not_false_eq_true, if_true]
  · intro hf
    simp only [iwinfo_uc_htmodelist, withBackend, CHECK_STRING, harg, hthis, hf, ne_eq,
      not_false_eq_true, if_true]

/-- C2 (amended) at a concrete input: the association list of a backend whose
call fails is the empty object. -/
theorem list_getters_on_failure_witness :
    (sampleCall failingOps).arg0 = .string "wlan0" ∧
    (sampleCall failingOps).this = some failingOps ∧
    (sampleCall failingOps).alloc_ok = true ∧
    (failingOps.assoclist "wlan0" IWINFO_BIG_BUFSIZE).status ≠ 0 ∧
    iwinfo_uc_assoclist sampleHeader (sampleCall failingOps) = some (.ret (.object [])) :=
  ⟨rfl, rfl, rfl, by decide,
    (list_getters_on_failure sampleHeader (sampleCall failingOps) "wlan0" failingOps
      rfl rfl).1 rfl (Or.inl (by decide))⟩

/-- C3, refuted at a concrete input: with a backend whose mode call fails,
`iwinfo_uc_mode` returns the name of the unknown mode, not null. -/
theorem iwinfo_uc_mode_failure_not_null :
    (failingOps.mode "wlan0").status ≠ 0 ∧
    iwinfo_uc_mode sampleHeader (sampleCall failingOps) = some (.ret (.string "Unknown")) ∧
    iwinfo_uc_mode sampleHeader (sampleCall failingOps) ≠ some (.ret .null) := by
  have h : iwinfo_uc_mode sampleHeader (sampleCall failingOps) =
      some (.ret (.string "Unknown")) := rfl
  refine ⟨by decide, h, ?_⟩
  rw [h]; simp

/-- C3 (amended): when the backend call reports failure, every scalar getter
other than mode returns null and raises no error; mode returns the name that
`IWINFO_OPMODE_NAMES` holds for `IWINFO_OPMODE_UNKNOWN`, a string and not
null, and raises no error either. -/
theorem scalar_getters_on_failure (H : IwinfoHeader) (c : UcCall) (ifname : String)
    (ops : iwinfo_ops) (harg : c.arg0 = .string ifname) (hthis : c.this = some ops) :
    ((ops.channel ifname).status ≠ 0 → iwinfo_uc_channel c = some (.ret .null)) ∧
    ((ops.frequency ifname).status ≠ 0 → iwinfo_uc_frequency c = some (.ret .null)) ∧
    ((ops.frequency_offset ifname).status ≠ 0 →
      iwinfo_uc_frequency_offset c = some (.ret .null)) ∧
    ((ops.txpower ifname).status ≠ 0 → iwinfo_uc_txpower c = some (.ret .null)) ∧
    ((ops.txpower_offset ifname).status ≠ 0 →
      iwinfo_uc_txpower_offset c = some (.ret .null)) ∧
    ((ops.bitrate ifname).status ≠ 0 → iwinfo_uc_bitrate c = some (.ret .null)) ∧
    ((ops.signal ifname).status ≠ 0 → iwinfo_uc_signal c = some (.ret .null)) ∧
    ((ops.noise ifname).status ≠ 0 → iwinfo_uc_noise c = some (.ret .null)) ∧
    ((ops.quality ifname).status ≠ 0 → iwinfo_uc_quality c = some (.ret .null)) ∧
    ((ops.quality_max ifname).status ≠ 0 → iwinfo_uc_quality_max c = some (.ret .null)) ∧
    ((ops.ssid ifname).status ≠ 0 → iwinfo_uc_ssid c = some (.ret .null)) ∧
    ((ops.bssid ifname).status ≠ 0 → iwinfo_uc_bssid c = some (.ret .null)) ∧
    ((ops.country ifname).status ≠ 0 → iwinfo_uc_country c = some (.ret .null)) ∧
    ((ops.hardware_name ifname).status ≠ 0 →
      iwinfo_uc_hardware_name c = some (.ret .null)) ∧
    ((ops.phyname ifname).status ≠ 0 → iwinfo_uc_phyname c = some (.ret .null)) ∧
    ((ops.htmode ifname).status ≠ 0 → iwinfo_uc_htmode H c = some (.ret .null)) ∧
    ((ops.mbssid_support ifname).status ≠ 0 →
      iwinfo_uc_mbssid_support c = some (.ret .null)) ∧
    ((ops.hardware_id ifname).status ≠ 0 → iwinfo_uc_hardware_id c = some (.ret .null)) ∧
    ((ops.encryption ifname).status ≠ 0 → iwinfo_uc_encryption H c = some (.ret .null)) ∧
    ((ops.mode ifname).status ≠ 0 →
      ∀ name, tableGet H.IWINFO_OPMODE_NAMES H.IWINFO_OPMODE_UNKNOWN = some name →
        iwinfo_uc_mode H c = some (.ret (.string name)) ∧
        iwinfo_uc_mode H c ≠ some (.ret .null)) := by
  refine ⟨?_, ?_, ?_, ?_, ?_, ?_, ?_, ?_, ?_, ?_, ?_, ?_, ?_, ?_, ?_, ?_, ?_, ?_, ?_, ?_⟩
  case refine_20 =>
    intro hf name hname
    have h : iwinfo_uc_mode H c = some (.ret (.string name)) := by
      simp only [iwinfo_uc_mode, withBackend, CHECK_STRING, harg, hthis, hf, ne_eq,
        not_false_eq_true, if_true, hname, ucv_string_new]
    exact ⟨h, by rw [h]; simp⟩
  all_goals
    intro hf
    simp only [iwinfo_uc_channel, iwinfo_uc_frequency, iwinfo_uc_frequency_offset,
      iwinfo_uc_txpower, iwinfo_uc_txpower_offset, iwinfo_uc_bitrate, iwinfo_uc_signal,
      iwinfo_uc_noise, iwinfo_uc_quality, iwinfo_uc_quality_max, iwinfo_uc_ssid,
      iwinfo_uc_bssid, iwinfo_uc_country, iwinfo_uc_hardware_name, iwinfo_uc_phyname,
      iwinfo_uc_htmode, iwinfo_uc_mbssid_support, iwinfo_uc_hardware_id,
      iwinfo_uc_encryption, GENERIC_INT_OP, GENERIC_STR_OP,
      withBackend, CHECK_STRING, harg, hthis, hf, ne_eq, not_false_eq_true, if_true, if_false]

/-- C3 (amended) at a concrete input: the channel of a backend whose call fails
is null. -/
theorem scalar_getters_on_failure_witness :
    (sampleCall failingOps).arg0 = .string "wlan0" ∧
    (sampleCall failingOps).this = some failingOps ∧
    (failingOps.channel "wlan0").status ≠ 0 ∧
    iwinfo_uc_channel (sampleCall failingOps) = some (.ret .null) :=
  ⟨rfl, rfl, by decide,
    (scalar_getters_on_failure sampleHeader (sampleCall failingOps) "wlan0" failingOps
      rfl rfl).1 (by decide)⟩

/-! ## C9: channel information -/

theorem htChanObject_eq (ht : iwinfo_scanlist_ht_chan_entry) :
    htChanObject ht = [("primary_chan", .int64 ht.primary_chan),
      ("secondary_chan_off", .int64 ht.secondary_chan_off),
      ("chan_width", .int64 ht.chan_width)] := by
  simp [htChanObject, ucv_object_new, ucv_object_add, ucv_int64_new]

theorem vhtChanObject_eq (v : iwinfo_scanlist_vht_chan_entry) :
    vhtChanObject v = [("center_chan_1", .int64 v.center_chan_1),
      ("center_chan_2", .int64 v.center_chan_2),
      ("chan_width", .int64 v.chan_width)] := by
  simp [vhtChanObject, ucv_object_new, ucv_object_add, ucv_int64_new]

theorem get_setVhtLike_ne (obj : UcObject) (key key2 : String)
    (v : Option iwinfo_scanlist_vht_chan_entry) (h : key ≠ key2) :
    ucv_object_get (setVhtLike obj key v) key2 = ucv_object_get obj key2 := by
  unfold setVhtLike
  cases v with
  | none => rfl
  | some r =>
    simp only
    split_ifs
    · exact ucv_object_get_add_ne _ _ _ _ h
    · rfl

theorem get_setVhtLike (obj : UcObject) (key : String)
    (v : Option iwinfo_scanlist_vht_chan_entry) :
    ucv_object_get (setVhtLike obj key v) key =
      match v with
      | some r =>
        if r.center_chan_1 ≠ 0 ∨ r.center_chan_2 ≠ 0 ∨ r.chan_width ≠ 0 then
          some (.object [("center_chan_1", .int64 r.center_chan_1),
            ("center_chan_2", .int64 r.center_chan_2), ("chan_width", .int64 r.chan_width)])
        else ucv_object_get obj key
      | none => ucv_object_get obj key := by
  unfold setVhtLike
  cases v with
  | none => rfl
  | some r =>
    simp only
    split_ifs
    · rw [ucv_object_get_add, vhtChanObject_eq]
    · rfl

theorem get_setHtChan_ne (obj : UcObject) (key2 : String)
    (ht : Option iwinfo_scanlist_ht_chan_entry) (h : "ht_chan_info" ≠ key2) :
    ucv_object_get (setHtChan obj ht) key2 = ucv_object_get obj key2 := by
  unfold setHtChan
  cases ht with
  | none => rfl
  | some r =>
    simp only
    split_ifs
    · exact ucv_object_get_add_ne _ _ _ _ h
    · rfl

theorem get_setHtChan (obj : UcObject) (ht : Option iwinfo_scanlist_ht_chan_entry) :
    ucv_object_get (setHtChan obj ht) "ht_chan_info" =
      match ht with
      | some r =>
        if r.primary_chan ≠ 0 ∨ r.secondary_chan_off ≠ 0 ∨ r.chan_width ≠ 0 then
          some (.object [("primary_chan", .int64 r.primary_chan),
            ("secondary_chan_off", .int64 r.secondary_chan_off),
            ("chan_width", .int64 r.chan_width)])
        else ucv_object_get obj "ht_chan_info"
      | none => ucv_object_get obj "ht_chan_info" := by
  unfold setHtChan
  cases ht with
  | none => rfl
  | some r =>
    simp only
    split_ifs
    · rw [ucv_object_get_add, htChanObject_eq]
    · rfl

theorem mem_keys_setVhtLike (obj : UcObject) (key : String)
    (v : Option iwinfo_scanlist_vht_chan_entry) (x : String) :
    x ∈ objectKeys (setVhtLike obj key v) ↔
      x ∈ objectKeys obj ∨ (x = key ∧ ∃ r, v = some r ∧
        (r.center_chan_1 ≠ 0 ∨ r.center_chan_2 ≠ 0 ∨ r.chan_width ≠ 0)) := by
  unfold setVhtLike
  cases v with
  | none => simp
  | some r =>
    simp only
    split_ifs with h
    · rw [mem_objectKeys_add]
      simp [h]
    · simp [h]

theorem mem_keys_setHtChan (obj : UcObject) (ht : Option iwinfo_scanlist_ht_chan_entry)
    (x : String) :
    x ∈ objectKeys (setHtChan obj ht) ↔
      x ∈ objectKeys obj ∨ (x = "ht_chan_info" ∧ ∃ r, ht = some r ∧
        (r.primary_chan ≠ 0 ∨ r.secondary_chan_off ≠ 0 ∨ r.chan_width ≠ 0)) := by
  unfold setHtChan
  cases ht with
  | none => simp
  | some r =>
    simp only
    split_ifs with h
    · rw [mem_objectKeys_add]
      simp [h]
    · simp [h]

/-- C9: after `iwinfo_uc_set_chaninfo`, each of the keys ht_chan_info,
vht_chan_info, he_chan_info and eht_chan_info is among the keys of the output
if and only if it was there before or its own record is non-null with a
non-zero field (on a fresh object: if and only if the latter), whatever the
other three records are; and the entry then holds that record's three fields
verbatim. -/
theorem iwinfo_uc_set_chaninfo_spec (obj : UcObject)
    (ht : Option iwinfo_scanlist_ht_chan_entry)
    (vht he eht : Option iwinfo_scanlist_vht_chan_entry) :
    ("ht_chan_info" ∈ objectKeys (iwinfo_uc_set_chaninfo obj ht vht he eht) ↔
      "ht_chan_info" ∈ objectKeys obj ∨ ∃ r, ht = some r ∧
        (r.primary_chan ≠ 0 ∨ r.secondary_chan_off ≠ 0 ∨ r.chan_width ≠ 0)) ∧
    ("vht_chan_info" ∈ objectKeys (iwinfo_uc_set_chaninfo obj ht vht he eht) ↔
      "vht_chan_info" ∈ objectKeys obj ∨ ∃ r, vht = some r ∧
        (r.center_chan_1 ≠ 0 ∨ r.center_chan_2 ≠ 0 ∨ r.chan_width ≠ 0)) ∧
    ("he_chan_info" ∈ objectKeys (iwinfo_uc_set_chaninfo obj ht vht he eht) ↔
      "he_chan_info" ∈ objectKeys obj ∨ ∃ r, he = some r ∧
        (r.center_chan_1 ≠ 0 ∨ r.center_chan_2 ≠ 0 ∨ r.chan_width ≠ 0)) ∧
    ("eht_chan_info" ∈ objectKeys (iwinfo_uc_set_chaninfo obj ht vht he eht) ↔
      "eht_chan_info" ∈ objectKeys obj ∨ ∃ r, eht = some r ∧
        (r.center_chan_1 ≠ 0 ∨ r.center_chan_2 ≠ 0 ∨ r.chan_width ≠ 0)) ∧
    (∀ r, ht = some r →
      (r.primary_chan ≠ 0 ∨ r.secondary_chan_off ≠ 0 ∨ r.chan_width ≠ 0) →
      ucv_object_get (iwinfo_uc_set_chaninfo obj ht vht he eht) "ht_chan_info" =
        some (.object [("primary_chan", .int64 r.primary_chan),
          ("secondary_chan_off", .int64 r.secondary_chan_off),
          ("chan_width", .int64 r.chan_width)])) ∧
    (∀ r, vht = some r →
      (r.center_chan_1 ≠ 0 ∨ r.center_chan_2 ≠ 0 ∨ r.chan_width ≠ 0) →
      ucv_object_get (iwinfo_uc_set_chaninfo obj ht vht he eht) "vht_chan_info" =
        some (.object [("center_chan_1", .int64 r.center_chan_1),
          ("center_chan_2", .int64 r.center_chan_2), ("chan_width", .int64 r.chan_width)])) ∧
    (∀ r, he = some r →
      (r.center_chan_1 ≠ 0 ∨ r.center_chan_2 ≠ 0 ∨ r.chan_width ≠ 0) →
      ucv_object_get (iwinfo_uc_set_chaninfo obj ht vht he eht) "he_chan_info" =
        some (.object [("center_chan_1", .int64 r.center_chan_1),
          ("center_chan_2", .int64 r.center_chan_2), ("chan_width", .int64 r.chan_width)])) ∧
    (∀ r, eht = some r →
      (r.center_chan_1 ≠ 0 ∨ r.center_chan_2 ≠ 0 ∨ r.chan_width ≠ 0) →
      ucv_object_get (iwinfo_uc_set_chaninfo obj ht vht he eht) "eht_chan_info" =
        some (.object [("center_chan_1", .int64 r.center_chan_1),
          ("center_chan_2", .int64 r.center_chan_2), ("chan_width", .int64 r.chan_width)])) := by
  refine ⟨?_, ?_, ?_, ?_, ?_, ?_, ?_, ?_⟩
  · simp [iwinfo_uc_set_chaninfo, mem_keys_setVhtLike, mem_keys_setHtChan]
  · simp [iwinfo_uc_set_chaninfo, mem_keys_setVhtLike, mem_keys_setHtChan]
  · simp [iwinfo_uc_set_chaninfo, mem_keys_setVhtLike, mem_keys_setHtChan]
  · simp [iwinfo_uc_set_chaninfo, mem_keys_setVhtLike, mem_keys_setHtChan]
  · intro r hr hnz
    unfold iwinfo_uc_set_chaninfo
    simp only
    rw [get_setVhtLike_ne _ _ _ _ (by decide), get_setVhtLike_ne _ _ _ _ (by decide),
      get_setVhtLike_ne _ _ _ _ (by decide), get_setHtChan, hr]
    simp only [hnz, if_true]
  · intro r hr hnz
    unfold iwinfo_uc_set_chaninfo
    simp only
    rw [get_setVhtLike_ne _ _ _ _ (by decide), get_setVhtLike_ne _ _ _ _ (by decide),
      get_setVhtLike, hr]
    simp only [hnz, if_true]
  · intro r hr hnz
    unfold iwinfo_uc_set_chaninfo
    simp only
    rw [get_setVhtLike_ne _ _ _ _ (by decide), get_setVhtLike, hr]
    simp only [hnz, if_true]
  · intro r hr hnz
    unfold iwinfo_uc_set_chaninfo
    simp only
    rw [get_setVhtLike, hr]
    simp only [hnz, if_true]

/-- C9 at a concrete input: an HT record whose only non-zero field is
`chan_width`, with an all-zero VHT record and null HE and EHT records, yields
exactly the key ht_chan_info, with the three fields as they are. -/
theorem iwinfo_uc_set_chaninfo_spec_witness :
    objectKeys (iwinfo_uc_set_chaninfo ucv_object_new (some ⟨0, 0, 1⟩) (some ⟨0, 0, 0⟩)
      none none) = ["ht_chan_info"] ∧
    ucv_object_get (iwinfo_uc_set_chaninfo ucv_object_new (some ⟨0, 0, 1⟩) (some ⟨0, 0, 0⟩)
      none none) "ht_chan_info" =
      some (.object [("primary_chan", .int64 (0 : Nat)), ("secondary_chan_off", .int64 (0 : Nat)),
        ("chan_width", .int64 (1 : Nat))]) :=
  ⟨by decide,
    (iwinfo_uc_set_chaninfo_spec ucv_object_new (some ⟨0, 0, 1⟩) (some ⟨0, 0, 0⟩) none
      none).2.2.2.2.1 ⟨0, 0, 1⟩ rfl (by decide)⟩

/-! ## C10: MAC formatting -/

theorem fmt_02X_byte (b : Nat) (h : b < 256) :
    fmt_02X b = [upperHexDigit (b / 16), upperHexDigit (b % 16)] := by
  unfold fmt_02X fmt_X
  by_cases h16 : b / 16 = 0
  · simp [hexDigitsAux, h16]
    decide
  · obtain ⟨n, rfl⟩ : ∃ n, b = n + 1 := ⟨b - 1, by omega⟩
    have h2 : (n + 1) / 16 / 16 = 0 := by omega
    have h3 : (n + 1) / 16 % 16 = (n + 1) / 16 := by omega
    simp [hexDigitsAux, h16, h2, h3]

theorem upperHexDigit_table (d : Nat) (h : d < 16) :
    "0123456789ABCDEF".toList[d]? = some (upperHexDigit d) := by
  interval_cases d <;> rfl

/-- C10: for a MAC address of six bytes, the formatted string has exactly 17
characters: for each byte in order its two uppercase hexadecimal digits, high
digit first (so a value below 16 is padded with a zero), with a colon between
consecutive bytes. -/
theorem mac_snprintf_spec (m : MacAddr) (h0 : m.b0 < 256) (h1 : m.b1 < 256) (h2 : m.b2 < 256)
    (h3 : m.b3 < 256) (h4 : m.b4 < 256) (h5 : m.b5 < 256) :
    mac_snprintf m = String.mk
      [upperHexDigit (m.b0 / 16), upperHexDigit (m.b0 % 16), ':',
       upperHexDigit (m.b1 / 16), upperHexDigit (m.b1 % 16), ':',
       upperHexDigit (m.b2 / 16), upperHexDigit (m.b2 % 16), ':',
       upperHexDigit (m.b3 / 16), upperHexDigit (m.b3 % 16), ':',
       upperHexDigit (m.b4 / 16), upperHexDigit (m.b4 % 16), ':',
       upperHexDigit (m.b5 / 16), upperHexDigit (m.b5 % 16)] ∧
    (mac_snprintf m).length = 17 ∧
    (∀ d, d < 16 → "0123456789ABCDEF".toList[d]? = some (upperHexDigit d)) := by
  have e : mac_snprintf m = String.mk
      [upperHexDigit (m.b0 / 16), upperHexDigit (m.b0 % 16), ':',
       upperHexDigit (m.b1 / 16), upperHexDigit (m.b1 % 16), ':',
       upperHexDigit (m.b2 / 16), upperHexDigit (m.b2 % 16), ':',
       upperHexDigit (m.b3 / 16), upperHexDigit (m.b3 % 16), ':',
       upperHexDigit (m.b4 / 16), upperHexDigit (m.b4 % 16), ':',
       upperHexDigit (m.b5 / 16), upperHexDigit (m.b5 % 16)] := by
    unfold mac_snprintf
    rw [fmt_02X_byte _ h0, fmt_02X_byte _ h1, fmt_02X_byte _ h2, fmt_02X_byte _ h3,
      fmt_02X_byte _ h4, fmt_02X_byte _ h5]
    rfl
  refine ⟨e, ?_, upperHexDigit_table⟩
  rw [e]
  rfl

/-- C10 at a concrete input: the address 00:01:02:0A:FF:AB. -/
theorem mac_snprintf_spec_witness :
    (0 : Nat) < 256 ∧ (1 : Nat) < 256 ∧ (2 : Nat) < 256 ∧ (10 : Nat) < 256 ∧
    (255 : Nat) < 256 ∧ (171 : Nat) < 256 ∧
    mac_snprintf ⟨0, 1, 2, 10, 255, 171⟩ = "00:01:02:0A:FF:AB" ∧
    (mac_snprintf ⟨0, 1, 2, 10, 255, 171⟩).length = 17 :=
  ⟨by decide, by decide, by decide, by decide, by decide, by decide,
    ((mac_snprintf_spec ⟨0, 1, 2, 10, 255, 171⟩ (by decide) (by decide) (by decide)
      (by decide) (by decide) (by decide)).1).trans (by decide),
    (mac_snprintf_spec ⟨0, 1, 2, 10, 255, 171⟩ (by decide) (by decide) (by decide)
      (by decide) (by decide) (by decide)).2.1⟩

/-! ## C8: the country list -/

/-- With `m` records left to visit from offset `i`, and no overflow of the loop
variable, the inner loop of the country list finds the first of the records at
`i, i + sz, ...` whose code is `iso`. -/
theorem countryScan_steps (sz : Nat) (len : Int) (view : Int → iwinfo_country_entry)
    (iso : Nat) (hov : len + sz ≤ 2 ^ 31) :
    ∀ (m fuel : Nat) (i : Int), 0 ≤ i → m ≤ fuel →
      len ≤ i + m * sz → (0 < m → i + (m - 1 : Nat) * sz < len) →
      countryScan sz len view iso fuel i =
        some ((((List.range m).map (fun j : Nat => view (i + (j * sz : Nat)))).find?
          (fun c => decide (c.iso3166 = iso))).map (fun c => c.ccode)) := by
  intro m
  induction m with
  | zero =>
    intro fuel i _ _ hge _
    have hnot : ¬ i < len := by simp at hge; omega
    cases fuel <;> simp [countryScan, hnot]
  | succ m ih =>
    intro fuel i h0 hfuel hge hlt
    have hlast : i + (m : Nat) * sz < len := by simpa using hlt (Nat.succ_pos m)
    have hmsz : (0 : Int) ≤ (m : Int) * sz := by positivity
    have hi : i < len := by omega
    obtain ⟨f, rfl⟩ : ∃ f, fuel = f + 1 := ⟨fuel - 1, by omega⟩
    rw [countryScan, if_pos hi, List.range_succ_eq_map, List.map_cons]
    simp only [Nat.zero_mul, Nat.cast_zero, add_zero]
    by_cases hmatch : (view i).iso3166 = iso
    · simp [hmatch]
    · have hw : wrap32 (i + sz) = i + sz := wrap32_eq_self _ (by omega) (by omega)
      have hmap : (List.map (fun j : Nat => view (i + ((j * sz : Nat) : Int)))
          (List.map Nat.succ (List.range m))) =
          (List.range m).map (fun j : Nat => view ((i + sz) + ((j * sz : Nat) : Int))) := by
        rw [List.map_map]
        apply List.map_congr_left
        intro j _
        simp only [Function.comp, Nat.succ_eq_add_one]
        congr 1
        push_cast
        ring
      rw [if_neg hmatch, hw, hmap, List.find?_cons_of_neg _ (by simpa using hmatch)]
      apply ih f (i + sz) (by omega) (by omega)
      · push_cast at hge ⊢
        have : ((m : Int) + 1) * sz = m * sz + sz := by ring
        omega
      · intro hm
        have hcast : (((m - 1 : Nat) : Int)) = (m : Int) - 1 := by omega
        rw [hcast]
        have : ((m : Int) - 1) * sz = m * sz - sz := by ring
        omega

/-- The inner loop of the country list over a buffer that holds the records
`recs`: the regulatory domain of the first record with code `iso`. -/
theorem countryScan_eq (sz : Nat) (len : Int) (view : Int → iwinfo_country_entry) (iso : Nat)
    (recs : List iwinfo_country_entry) (hsz : 0 < sz) (hlen : len = (recs.length * sz : Nat))
    (hov : len + sz ≤ 2 ^ 31)
    (hview : ∀ k (hk : k < recs.length), view ((k * sz : Nat) : Int) = recs[k]) :
    countryScan sz len view iso len.toNat 0 =
      some ((recs.find? (fun c => decide (c.iso3166 = iso))).map (fun c => c.ccode)) := by
  have hle : recs.length ≤ recs.length * sz := Nat.le_mul_of_pos_right _ hsz
  have hfuel : recs.length ≤ len.toNat := by rw [hlen]; simpa using hle
  have h := countryScan_steps sz len view iso hov recs.length len.toNat 0 (le_refl _) hfuel
    (by rw [hlen]; push_cast; omega)
    (by
      intro hpos
      rw [hlen]
      have h1 : (recs.length - 1) * sz + sz = recs.length * sz := by
        rw [← Nat.succ_mul]; congr 1; omega
      have h2 : (((recs.length - 1) * sz : Nat) : Int) < ((recs.length * sz : Nat) : Int) := by
        exact_mod_cast (by omega : (recs.length - 1) * sz < recs.length * sz)
      push_cast at h2 ⊢
      omega)
  rw [h]
  have hrecs : (List.range recs.length).map (fun j : Nat => view (0 + ((j * sz : Nat) : Int))) =
      recs := by
    apply List.ext_getElem
    · simp
    · intro k h1 h2
      simp only [List.getElem_map, List.getElem_range, zero_add]
      exact hview k h2
  rw [hrecs]

/-- The outer loop of the country list over a static table that holds the
labels `labels`, all with a non-zero code, before its terminator `t`. -/
theorem countryLoop_eq (sz : Nat) (len : Int) (view : Int → iwinfo_country_entry)
    (recs : List iwinfo_country_entry) (hsz : 0 < sz) (hlen : len = (recs.length * sz : Nat))
    (hov : len + sz ≤ 2 ^ 31)
    (hview : ∀ k (hk : k < recs.length), view ((k * sz : Nat) : Int) = recs[k])
    (t : iwinfo_iso3166_label) (rest : List iwinfo_iso3166_label) (ht : t.iso3166 = 0) :
    ∀ (labels : List iwinfo_iso3166_label) (res : List UcValue),
      (∀ l ∈ labels, l.iso3166 ≠ 0) →
      countryLoop sz len view (labels ++ t :: rest) res =
        some (res ++ labels.filterMap (fun l =>
          (recs.find? (fun c => decide (c.iso3166 = l.iso3166))).map
            (fun c => UcValue.object (countryRow l c.ccode)))) := by
  intro labels
  induction labels with
  | nil => intro res _; simp [countryLoop, ht]
  | cons l ls ih =>
    intro res hnz
    have hl : l.iso3166 ≠ 0 := hnz l (List.mem_cons_self _ _)
    have hls : ∀ x ∈ ls, x.iso3166 ≠ 0 := fun x hx => hnz x (List.mem_cons_of_mem _ hx)
    rw [List.cons_append, countryLoop, if_neg hl,
      countryScan_eq sz len view l.iso3166 recs hsz hlen hov hview, List.filterMap_cons]
    cases hf : recs.find? (fun c => decide (c.iso3166 = l.iso3166)) with
    | none => simp only [Option.map_none']; exact ih res hls
    | some c =>
      simp only [Option.map_some']
      rw [ih _ hls]
      simp [ucv_array_push]

theorem cstring_two (a b : Nat) (ha : a ≠ 0) (hb : b ≠ 0) :
    cstring [a, b] = String.mk [Char.ofNat a, Char.ofNat b] := by
  simp [cstring, List.takeWhile, ha, hb]

theorem countryRow_eq (l : iwinfo_iso3166_label) (ccode : String) (h16 : l.iso3166 < 65536)
    (hhi : l.iso3166 / 256 ≠ 0) (hlo : l.iso3166 % 256 ≠ 0) :
    countryRow l ccode =
      [("alpha2", .string (String.mk [Char.ofNat (l.iso3166 / 256), Char.ofNat (l.iso3166 % 256)])),
       ("ccode", .string ccode), ("name", .string l.name)] := by
  have hmod : l.iso3166 / 256 % 256 = l.iso3166 / 256 := by omega
  simp only [countryRow, hmod, cstring_two _ _ hhi hlo]
  simp [ucv_object_new, ucv_object_add, ucv_string_new]

/-- C8: on a successful backend call whose buffer holds the country records
`recs` (any number of them), and with a static table that holds the labels
`labels` (each packing two character codes in 16 bits) before its terminator,
`iwinfo_uc_countrylist` returns, in the order of the static table, one row for
each label whose code is the code of some record, and nothing else: alpha2 is
the two characters with codes `iso3166 / 256` and `iso3166 % 256`, ccode is
that of the first record with the code, name is the label's name. -/
theorem iwinfo_uc_countrylist_spec (H : IwinfoHeader) (c : UcCall) (ifname : String)
    (ops : iwinfo_ops) (r : ListReply iwinfo_country_entry)
    (recs : List iwinfo_country_entry)
    (labels rest : List iwinfo_iso3166_label) (t : iwinfo_iso3166_label)
    (harg : c.arg0 = .string ifname) (hthis : c.this = some ops)
    (halloc : c.alloc_ok = true)
    (hr : ops.countrylist ifname H.IWINFO_BUFSIZE = r) (hst : r.status = 0)
    (hsz : 0 < H.sizeof_country_entry)
    (hlen : r.len = (recs.length * H.sizeof_country_entry : Nat))
    (hov : r.len + H.sizeof_country_entry ≤ 2 ^ 31)
    (hview : ∀ k (hk : k < recs.length),
      r.view ((k * H.sizeof_country_entry : Nat) : Int) = recs[k])
    (htable : H.IWINFO_ISO3166_NAMES = labels ++ t :: rest) (ht : t.iso3166 = 0)
    (hlabels : ∀ l ∈ labels,
      l.iso3166 < 65536 ∧ l.iso3166 / 256 ≠ 0 ∧ l.iso3166 % 256 ≠ 0) :
    iwinfo_uc_countrylist H c = some (.ret (.array (labels.filterMap (fun l =>
      (recs.find? (fun e => decide (e.iso3166 = l.iso3166))).map (fun e =>
        UcValue.object
          [("alpha2", .string
              (String.mk [Char.ofNat (l.iso3166 / 256), Char.ofNat (l.iso3166 % 256)])),
           ("ccode", .string e.ccode),
           ("name", .string l.name)]))))) := by
  by_cases hne : recs = []
  · have hlen0 : r.len ≤ 0 := by rw [hlen, hne]; simp
    have hnone : ∀ ls : List iwinfo_iso3166_label, ls.filterMap (fun l =>
        (([] : List iwinfo_country_entry).find? (fun e => decide (e.iso3166 = l.iso3166))).map
          (fun e => UcValue.object
            [("alpha2", .string
                (String.mk [Char.ofNat (l.iso3166 / 256), Char.ofNat (l.iso3166 % 256)])),
             ("ccode", .string e.ccode),
             ("name", .string l.name)])) = [] := by
      intro ls
      induction ls with
      | nil => rfl
      | cons a t ih => simp
    rw [hne, hnone]
    simp only [iwinfo_uc_countrylist, withBackend, CHECK_STRING, harg, hthis, halloc, hr,
      hlen0, or_true, if_true, Bool.true_eq_false, if_false, ucv_array_new]
  have hpos : 0 < recs.length := List.length_pos.2 hne
  have hlenpos : 0 < r.len := by
    rw [hlen]
    exact_mod_cast Nat.mul_pos hpos hsz
  have hcond : ¬ (r.status ≠ 0 ∨ r.len ≤ 0) := by omega
  have hnz : ∀ l ∈ labels, l.iso3166 ≠ 0 := by
    intro l hl h0
    have := (hlabels l hl).2.2
    rw [h0] at this
    exact this rfl
  simp only [iwinfo_uc_countrylist, withBackend, CHECK_STRING, harg, hthis, halloc, hr, hcond,
    if_false, Bool.true_eq_false, htable]
  rw [countryLoop_eq H.sizeof_country_entry r.len r.view recs hsz hlen hov hview t rest ht
    labels ucv_array_new hnz]
  simp only [ucv_array_new, List.nil_append]
  have hfm : labels.filterMap (fun l =>
      (recs.find? (fun e => decide (e.iso3166 = l.iso3166))).map
        (fun e => UcValue.object (countryRow l e.ccode))) =
      labels.filterMap (fun l =>
      (recs.find? (fun e => decide (e.iso3166 = l.iso3166))).map (fun e =>
        UcValue.object
          [("alpha2", .string
              (String.mk [Char.ofNat (l.iso3166 / 256), Char.ofNat (l.iso3166 % 256)])),
           ("ccode", .string e.ccode),
           ("name", .string l.name)])) := by
    apply List.filterMap_congr
    intro l hl
    obtain ⟨h16, hhi, hlo⟩ := hlabels l hl
    congr 1
    funext e
    rw [countryRow_eq l e.ccode h16 hhi hlo]
  rw [hfm]

/-- C8 at a concrete input: the static table lists Germany and the United
States, the buffer holds a record for `US` with domain `FCC` and a record with
a code the table does not list; the result is the single row for `US`. -/
theorem iwinfo_uc_countrylist_spec_witness :
    iwinfo_uc_countrylist sampleHeader (sampleCall sampleCountryOps) =
      some (.ret (.array [.object [("alpha2", .string "US"), ("ccode", .string "FCC"),
        ("name", .string "United States")]])) :=
  (iwinfo_uc_countrylist_spec sampleHeader (sampleCall sampleCountryOps) "wlan0"
    sampleCountryOps (sampleCountryOps.countrylist "wlan0" 4096)
    [⟨0x5553, "FCC"⟩, ⟨0x5a5a, "ZZ"⟩]
    [⟨0x4445, "Germany"⟩, ⟨0x5553, "United States"⟩] [] ⟨0, ""⟩
    rfl rfl rfl rfl rfl (by decide) rfl (by decide)
    (by intro k hk
        have hk2 : k < 2 := hk
        interval_cases k <;> rfl)
    rfl rfl
    (by intro l hl
        simp only [List.mem_cons, List.mem_singleton, List.not_mem_nil, or_false] at hl
        rcases hl with rfl | rfl <;> decide)).trans (by rfl)

/-! ## Rate information at concrete records -/

/-- C5 at a concrete input: an HT record that also carries the HE and EHT
flags yields the nine HT keys and no nss. -/
theorem iwinfo_uc_set_rateinfo_ht_witness :
    sampleRateHT.is_ht ≠ 0 ∧ sampleRateHT.is_he ≠ 0 ∧ sampleRateHT.is_eht ≠ 0 ∧
    objectKeys (iwinfo_uc_set_rateinfo ucv_object_new sampleRateHT) =
      ["rate", "ht", "vht", "he", "eht", "mhz", "40mhz", "mcs", "short_gi"] ∧
    "nss" ∉ objectKeys (iwinfo_uc_set_rateinfo ucv_object_new sampleRateHT) :=
  ⟨by decide, by decide, by decide,
    (iwinfo_uc_set_rateinfo_ht sampleRateHT (by decide)).1,
    (iwinfo_uc_set_rateinfo_ht sampleRateHT (by decide)).2.1⟩

/-- C6 at a concrete input: an EHT record without the HT flag yields mcs, nss
and eht_gi, and neither he_gi, short_gi nor 40mhz. -/
theorem iwinfo_uc_set_rateinfo_not_ht_witness :
    sampleRateEHT.is_ht = 0 ∧
    "mcs" ∈ objectKeys (iwinfo_uc_set_rateinfo ucv_object_new sampleRateEHT) ∧
    "eht_gi" ∈ objectKeys (iwinfo_uc_set_rateinfo ucv_object_new sampleRateEHT) ∧
    "he_gi" ∉ objectKeys (iwinfo_uc_set_rateinfo ucv_object_new sampleRateEHT) ∧
    "40mhz" ∉ objectKeys (iwinfo_uc_set_rateinfo ucv_object_new sampleRateEHT) :=
  ⟨rfl,
    (iwinfo_uc_set_rateinfo_not_ht sampleRateEHT rfl).1.2 (by decide),
    (iwinfo_uc_set_rateinfo_not_ht sampleRateEHT rfl).2.2.2.2.1.2 (by decide),
    fun h => (iwinfo_uc_set_rateinfo_not_ht sampleRateEHT rfl).2.2.1.1 h rfl,
    (iwinfo_uc_set_rateinfo_not_ht sampleRateEHT rfl).2.2.2.2.2.2⟩

/-- C7 at a concrete input: `mhz_hi = 1` and `mhz = 64` give mhz 320, from
which 1 and 64 are recovered. -/
theorem iwinfo_uc_set_rateinfo_common_witness :
    sampleRateEHT.mhz_hi < 256 ∧ sampleRateEHT.mhz < 256 ∧
    ucv_object_get (iwinfo_uc_set_rateinfo ucv_object_new sampleRateEHT) "mhz" =
      some (.int64 320) ∧
    sampleRateEHT.mhz_hi * 256 + sampleRateEHT.mhz ≤ 65535 ∧
    (sampleRateEHT.mhz_hi * 256 + sampleRateEHT.mhz) / 256 = sampleRateEHT.mhz_hi ∧
    (sampleRateEHT.mhz_hi * 256 + sampleRateEHT.mhz) % 256 = sampleRateEHT.mhz :=
  ⟨by decide, by decide,
    (iwinfo_uc_set_rateinfo_common ucv_object_new sampleRateEHT).2.2.2.2.2.1,
    (iwinfo_uc_set_rateinfo_common ucv_object_new sampleRateEHT).2.2.2.2.2.2
      (by decide) (by decide)⟩

/-! ## C15: ambiguous hardware profiles -/

theorem ambiguityLoop_found (keys : List String) :
    ∀ (n i : Nat), i + n = keys.length →
      (∃ k ∈ keys.drop i, strstr k "_2_" = true) →
      ambiguityLoop (keys.map some) n i = some true := by
  intro n
  induction n with
  | zero =>
    intro i hlen hex
    obtain ⟨k, hk, _⟩ := hex
    have : keys.drop i = [] := List.drop_eq_nil_of_le (by omega)
    rw [this] at hk
    exact absurd hk (List.not_mem_nil k)
  | succ n ih =>
    intro i hlen hex
    have hi : i < keys.length := by omega
    have hget : (keys.map some)[i]? = some (some keys[i]) := by
      simp [List.getElem?_eq_getElem hi]
    rw [ambiguityLoop, hget]
    by_cases hs : strstr keys[i] "_2_" = true
    · simp [hs]
    · simp only [hs, if_false]
      apply ih (i + 1) (by omega)
      obtain ⟨k, hk, hk2⟩ := hex
      rw [List.drop_eq_getElem_cons hi] at hk
      rcases List.mem_cons.1 hk with rfl | hk'
      · exact absurd hk2 hs
      · exact ⟨k, hk', hk2⟩

/-- C15: when the profile's key list holds a key that contains `_2_`, whatever
the order of the keys and the chip names in them,
`mtk_get_id_from_l1profile` returns -1 and leaves the caller's hardware id as
it was. -/
theorem mtk_get_id_from_l1profile_ambiguous (cx : L1Context) (keys : List String)
    (strdup_ok : Bool) (id : iwinfo_hardware_id)
    (hlist : cx.list = some (keys.map some)) (hcount : cx.count = keys.length)
    (h2 : ∃ k ∈ keys, strstr k "_2_" = true) :
    mtk_get_id_from_l1profile (some cx) strdup_ok id = some (-1, id) := by
  have hne : cx.count ≠ 0 := by
    obtain ⟨k, hk, _⟩ := h2
    rw [hcount]
    exact fun h0 => List.not_mem_nil k (by rw [List.length_eq_zero.1 h0] at hk; exact hk)
  have hloop : ambiguityLoop (keys.map some) cx.count 0 = some true := by
    rw [hcount]
    exact ambiguityLoop_found keys keys.length 0 (by omega) (by simpa using h2)
  simp only [mtk_get_id_from_l1profile, hlist, hne, if_false, hloop]

/-- C15 at a concrete input: a profile with the keys `MT7981_1_1` and
`MT7986_2_1` is refused and the hardware id is left as it was, although the
first key names a known chip. -/
theorem mtk_get_id_from_l1profile_ambiguous_witness :
    sampleDualProfile.list = some (["MT7981_1_1", "MT7986_2_1"].map some) ∧
    sampleDualProfile.count = ["MT7981_1_1", "MT7986_2_1"].length ∧
    strstr "MT7986_2_1" "_2_" = true ∧
    mtk_get_id_from_l1profile (some sampleDualProfile) true ⟨1, 2, 3, 4⟩ =
      some (-1, ⟨1, 2, 3, 4⟩) :=
  ⟨rfl, rfl, by decide,
    mtk_get_id_from_l1profile_ambiguous sampleDualProfile ["MT7981_1_1", "MT7986_2_1"] true
      ⟨1, 2, 3, 4⟩ rfl rfl ⟨"MT7986_2_1", by simp, by decide⟩⟩

/-! ## C14: the crypto table -/

theorem add_array_from_bitmask_some (obj : UcObject) (key : String) (mask : Int)
    (names : List String) (count : Int) (out : UcObject)
    (h : iwinfo_uc_add_array_from_bitmask obj key mask names count = some out) :
    ∃ arr, out = ucv_object_add obj key (.array arr) := by
  unfold iwinfo_uc_add_array_from_bitmask at h
  cases hl : bitmaskLoop mask names count.toNat 0 ucv_array_new with
  | none => rw [hl] at h; exact absurd h (by simp)
  | some arr =>
    rw [hl] at h
    exact ⟨arr, by simpa using h.symm⟩

theorem add_array_from_bitmask_defined (obj : UcObject) (key : String) (mask : Int)
    (names : List String) (count : Int) (h31 : count ≤ 31) (hsz : count ≤ names.length) :
    ∃ out, iwinfo_uc_add_array_from_bitmask obj key mask names count = some out := by
  have hloop := bitmaskLoop_eq mask names count.toNat 0 ucv_array_new (by omega) (by omega)
  unfold iwinfo_uc_add_array_from_bitmask
  rw [hloop]
  exact ⟨_, rfl⟩

/-- The four bitmask arrays of the crypto table leave every other key as the
three scalar entries set it. -/
theorem cryptotable_get (H : IwinfoHeader) (c : iwinfo_crypto_entry) (obj : UcObject)
    (h : iwinfo_uc_cryptotable H c = some obj) (key : String)
    (h1 : "pair_ciphers" ≠ key) (h2 : "group_ciphers" ≠ key) (h3 : "auth_suites" ≠ key)
    (h4 : "auth_algs" ≠ key) :
    ucv_object_get obj key =
      ucv_object_get
        (ucv_object_add (ucv_object_add (ucv_object_add ucv_object_new
          "enabled" (ucv_boolean_new c.enabled))
          "wep" (.boolean (decide (c.enabled ≠ 0) && decide (c.wpa_version = 0))))
          "wpa" (ucv_int64_new c.wpa_version)) key := by
  unfold iwinfo_uc_cryptotable at h
  simp only at h
  cases hA : iwinfo_uc_add_array_from_bitmask
      (ucv_object_add (ucv_object_add (ucv_object_add ucv_object_new
          "enabled" (ucv_boolean_new c.enabled))
          "wep" (.boolean (decide (c.enabled ≠ 0) && decide (c.wpa_version = 0))))
          "wpa" (ucv_int64_new c.wpa_version))
      "pair_ciphers" c.pair_ciphers H.IWINFO_CIPHER_NAMES H.IWINFO_CIPHER_COUNT with
  | none => rw [hA] at h; exact absurd h (by simp)
  | some o1 =>
    rw [hA] at h
    simp only at h
    cases hB : iwinfo_uc_add_array_from_bitmask o1 "group_ciphers" c.group_ciphers
        H.IWINFO_CIPHER_NAMES H.IWINFO_CIPHER_COUNT with
    | none => rw [hB] at h; exact absurd h (by simp)
    | some o2 =>
      rw [hB] at h
      simp only at h
      cases hC : iwinfo_uc_add_array_from_bitmask o2 "auth_suites" c.auth_suites
          H.IWINFO_KMGMT_NAMES H.IWINFO_KMGMT_COUNT with
      | none => rw [hC] at h; exact absurd h (by simp)
      | some o3 =>
        rw [hC] at h
        simp only at h
        obtain ⟨a1, rfl⟩ := add_array_from_bitmask_some _ _ _ _ _ _ hA
        obtain ⟨a2, rfl⟩ := add_array_from_bitmask_some _ _ _ _ _ _ hB
        obtain ⟨a3, rfl⟩ := add_array_from_bitmask_some _ _ _ _ _ _ hC
        obtain ⟨a4, rfl⟩ := add_array_from_bitmask_some _ _ _ _ _ _ h
        rw [ucv_object_get_add_ne _ _ _ _ h4, ucv_object_get_add_ne _ _ _ _ h3,
          ucv_object_get_add_ne _ _ _ _ h2, ucv_object_get_add_ne _ _ _ _ h1]

theorem cryptotable_defined (H : IwinfoHeader) (c : iwinfo_crypto_entry)
    (hc : H.IWINFO_CIPHER_COUNT ≤ 31 ∧ H.IWINFO_CIPHER_COUNT ≤ H.IWINFO_CIPHER_NAMES.length)
    (hk : H.IWINFO_KMGMT_COUNT ≤ 31 ∧ H.IWINFO_KMGMT_COUNT ≤ H.IWINFO_KMGMT_NAMES.length)
    (ha : H.IWINFO_AUTH_COUNT ≤ 31 ∧ H.IWINFO_AUTH_COUNT ≤ H.IWINFO_AUTH_NAMES.length) :
    ∃ obj, iwinfo_uc_cryptotable H c = some obj := by
  unfold iwinfo_uc_cryptotable
  simp only
  obtain ⟨o1, h1⟩ := add_array_from_bitmask_defined
    (ucv_object_add (ucv_object_add (ucv_object_add ucv_object_new
          "enabled" (ucv_boolean_new c.enabled))
          "wep" (.boolean (decide (c.enabled ≠ 0) && decide (c.wpa_version = 0))))
          "wpa" (ucv_int64_new c.wpa_version))
    "pair_ciphers" c.pair_ciphers H.IWINFO_CIPHER_NAMES H.IWINFO_CIPHER_COUNT hc.1 hc.2
  rw [h1]
  simp only
  obtain ⟨o2, h2⟩ := add_array_from_bitmask_defined o1
    "group_ciphers" c.group_ciphers H.IWINFO_CIPHER_NAMES H.IWINFO_CIPHER_COUNT hc.1 hc.2
  rw [h2]
  simp only
  obtain ⟨o3, h3⟩ := add_array_from_bitmask_defined o2
    "auth_suites" c.auth_suites H.IWINFO_KMGMT_NAMES H.IWINFO_KMGMT_COUNT hk.1 hk.2
  rw [h3]
  simp only
  exact add_array_from_bitmask_defined o3
    "auth_algs" c.auth_algs H.IWINFO_AUTH_NAMES H.IWINFO_AUTH_COUNT ha.1 ha.2

/-- C14: when each name table covers its count (at most 31),
`iwinfo_uc_cryptotable` builds an object, and in every object it builds
`enabled` is the truth value of the entry's `enabled`, `wpa` is the entry's
`wpa_version`, and `wep` is true if and only if `enabled` is non-zero and
`wpa_version` is 0. -/
theorem iwinfo_uc_cryptotable_wep (H : IwinfoHeader) (c : iwinfo_crypto_entry) :
    (∀ obj, iwinfo_uc_cryptotable H c = some obj →
      ucv_object_get obj "enabled" = some (.boolean (decide (c.enabled ≠ 0))) ∧
      ucv_object_get obj "wpa" = some (.int64 c.wpa_version) ∧
      ucv_object_get obj "wep" =
        some (.boolean (decide (c.enabled ≠ 0 ∧ c.wpa_version = 0))) ∧
      (ucv_object_get obj "wep" = some (.boolean true) ↔
        (c.enabled ≠ 0 ∧ c.wpa_version = 0))) ∧
    ((H.IWINFO_CIPHER_COUNT ≤ 31 ∧ H.IWINFO_CIPHER_COUNT ≤ H.IWINFO_CIPHER_NAMES.length) →
      (H.IWINFO_KMGMT_COUNT ≤ 31 ∧ H.IWINFO_KMGMT_COUNT ≤ H.IWINFO_KMGMT_NAMES.length) →
      (H.IWINFO_AUTH_COUNT ≤ 31 ∧ H.IWINFO_AUTH_COUNT ≤ H.IWINFO_AUTH_NAMES.length) →
      ∃ obj, iwinfo_uc_cryptotable H c = some obj) := by
  refine ⟨?_, cryptotable_defined H c⟩
  intro obj h
  have hen := cryptotable_get H c obj h "enabled" (by decide) (by decide) (by decide)
    (by decide)
  have hwpa := cryptotable_get H c obj h "wpa" (by decide) (by decide) (by decide) (by decide)
  have hwep := cryptotable_get H c obj h "wep" (by decide) (by decide) (by decide) (by decide)
  rw [ucv_object_get_add_ne _ _ _ _ (by decide), ucv_object_get_add_ne _ _ _ _ (by decide),
    ucv_object_get_add] at hen
  rw [ucv_object_get_add] at hwpa
  rw [ucv_object_get_add_ne _ _ _ _ (by decide), ucv_object_get_add] at hwep
  have hwep2 : ucv_object_get obj "wep" =
      some (.boolean (decide (c.enabled ≠ 0 ∧ c.wpa_version = 0))) := by
    rw [hwep]
    congr 2
    simp [Bool.decide_and]
  refine ⟨?_, ?_, hwep2, ?_⟩
  · rw [hen]; simp [ucv_boolean_new]
  · rw [hwpa]; rfl
  · rw [hwep2]
    simp

/-- C14 at a concrete input: an enabled entry with WPA version 0 gives
`wep = true`; the sample tables cover their counts. -/
theorem iwinfo_uc_cryptotable_wep_witness :
    (sampleHeader.IWINFO_CIPHER_COUNT ≤ 31 ∧
      sampleHeader.IWINFO_CIPHER_COUNT ≤ sampleHeader.IWINFO_CIPHER_NAMES.length) ∧
    (∃ obj, iwinfo_uc_cryptotable sampleHeader ⟨1, 0, 2, 2, 0, 1⟩ = some obj ∧
      ucv_object_get obj "wep" = some (.boolean true)) := by
  obtain ⟨obj, hobj⟩ := (iwinfo_uc_cryptotable_wep sampleHeader ⟨1, 0, 2, 2, 0, 1⟩).2
    (by decide) (by decide) (by decide)
  exact ⟨by decide, obj, hobj,
    ((iwinfo_uc_cryptotable_wep sampleHeader ⟨1, 0, 2, 2, 0, 1⟩).1 obj hobj).2.2.2.2
      (by decide)⟩

/-! ## Scan entries: C11 and C18 -/

/-- The object of a scan record, when it is defined, in terms of the name of
its mode and its crypto table. -/
theorem scanEntryObject_some (H : IwinfoHeader) (e : iwinfo_scanlist_entry) (obj : UcObject)
    (h : scanEntryObject H e = some obj) :
    ∃ name crypto, tableGet H.IWINFO_OPMODE_NAMES e.mode = some name ∧
      iwinfo_uc_cryptotable H e.crypto = some crypto ∧
      obj = iwinfo_uc_set_chaninfo
        (ucv_object_add (ucv_object_add (ucv_object_add (ucv_object_add (ucv_object_add
          (ucv_object_add (ucv_object_add
            (if e.ssid ≠ "" then
              ucv_object_add (ucv_object_add ucv_object_new "bssid"
                (ucv_string_new (mac_snprintf e.mac))) "ssid" (ucv_string_new e.ssid)
            else ucv_object_add ucv_object_new "bssid" (ucv_string_new (mac_snprintf e.mac)))
            "channel" (ucv_int64_new e.channel))
            "frequency" (ucv_int64_new e.mhz))
            "mode" (ucv_string_new name))
            "quality" (ucv_int64_new e.quality))
            "quality_max" (ucv_int64_new e.quality_max))
            "signal" (ucv_int64_new (e.signal - 0x100)))
            "encryption" (.object crypto))
        (some e.ht_chan_info) (some e.vht_chan_info) none none := by
  unfold scanEntryObject at h
  simp only at h
  cases hn : tableGet H.IWINFO_OPMODE_NAMES e.mode with
  | none => rw [hn] at h; exact absurd h (by simp)
  | some name =>
    rw [hn] at h
    simp only at h
    cases hc : iwinfo_uc_cryptotable H e.crypto with
    | none => rw [hc] at h; exact absurd h (by simp)
    | some crypto =>
      rw [hc] at h
      simp only [Option.some.injEq] at h
      exact ⟨name, crypto, rfl, rfl, h.symm⟩

theorem scanEntryObject_defined (H : IwinfoHeader) (e : iwinfo_scanlist_entry)
    (name : String) (crypto : UcObject)
    (hn : tableGet H.IWINFO_OPMODE_NAMES e.mode = some name)
    (hc : iwinfo_uc_cryptotable H e.crypto = some crypto) :
    ∃ obj, scanEntryObject H e = some obj := by
  unfold scanEntryObject
  simp only [hn, hc]
  exact ⟨_, rfl⟩

theorem get_set_chaninfo_ne (obj : UcObject) (ht : Option iwinfo_scanlist_ht_chan_entry)
    (vht he eht : Option iwinfo_scanlist_vht_chan_entry) (key : String)
    (h1 : "ht_chan_info" ≠ key) (h2 : "vht_chan_info" ≠ key) (h3 : "he_chan_info" ≠ key)
    (h4 : "eht_chan_info" ≠ key) :
    ucv_object_get (iwinfo_uc_set_chaninfo obj ht vht he eht) key = ucv_object_get obj key := by
  unfold iwinfo_uc_set_chaninfo
  simp only
  rw [get_setVhtLike_ne _ _ _ _ h4, get_setVhtLike_ne _ _ _ _ h3, get_setVhtLike_ne _ _ _ _ h2,
    get_setHtChan_ne _ _ _ h1]

/-- C11: the object of a scan record holds signal = v - 256 for the raw signal
`v` of the record, a value in -256..-1 when `v` is a byte (raw 156 gives -100),
and the object is defined whenever the mode name and the crypto table are; the
object of an association record holds the record's signed signal unchanged. -/
theorem signal_decoding (H : IwinfoHeader) (e : iwinfo_scanlist_entry)
    (a : iwinfo_assoclist_entry) :
    (∀ obj, scanEntryObject H e = some obj →
      ucv_object_get obj "signal" = some (.int64 ((e.signal : Int) - 256))) ∧
    (e.signal < 256 → -256 ≤ (e.signal : Int) - 256 ∧ (e.signal : Int) - 256 ≤ -1) ∧
    (e.signal = 156 → (e.signal : Int) - 256 = -100) ∧
    (∀ name crypto, tableGet H.IWINFO_OPMODE_NAMES e.mode = some name →
      iwinfo_uc_cryptotable H e.crypto = some crypto →
      ∃ obj, scanEntryObject H e = some obj) ∧
    ucv_object_get (assocEntryObject a) "signal" = some (.int64 a.signal) := by
  refine ⟨?_, ?_, ?_, ?_, ?_⟩
  · intro obj h
    obtain ⟨name, crypto, _, _, rfl⟩ := scanEntryObject_some H e obj h
    rw [get_set_chaninfo_ne _ _ _ _ _ _ (by decide) (by decide) (by decide) (by decide),
      ucv_object_get_add_ne _ _ _ _ (by decide), ucv_object_get_add]
    rfl
  · intro h; omega
  · intro h; omega
  · intro name crypto hn hc
    exact scanEntryObject_defined H e name crypto hn hc
  · unfold assocEntryObject
    simp only
    split_ifs <;>
      simp (disch := decide) only [ucv_object_get_add_ne, ucv_object_get_add, ucv_int64_new,
        ucv_object_new]

/-- C11 at a concrete input: raw scan signal 156 is emitted as -100 and the
association signal -45 as -45. -/
theorem signal_decoding_witness :
    sampleScan.signal = 156 ∧ sampleAssocA.signal = -45 ∧
    (∃ obj, scanEntryObject sampleHeader sampleScan = some obj ∧
      ucv_object_get obj "signal" = some (.int64 (-100))) ∧
    ucv_object_get (assocEntryObject sampleAssocA) "signal" = some (.int64 (-45)) := by
  obtain ⟨_, hname⟩ : ∃ name, tableGet sampleHeader.IWINFO_OPMODE_NAMES sampleScan.mode =
      some name := ⟨"Master", rfl⟩
  obtain ⟨crypto, hcrypto⟩ := cryptotable_defined sampleHeader sampleScan.crypto
    (by decide) (by decide) (by decide)
  obtain ⟨obj, hobj⟩ := (signal_decoding sampleHeader sampleScan sampleAssocA).2.2.2.1
    _ crypto hname hcrypto
  exact ⟨rfl, rfl,
    ⟨obj, hobj, (signal_decoding sampleHeader sampleScan sampleAssocA).1 obj hobj⟩,
    (signal_decoding sampleHeader sampleScan sampleAssocA).2.2.2.2⟩

/-- A property of the state that the loop body preserves holds for the state
the record loop returns, whatever the reported length. -/
theorem recordLoop_invariant {S : Type} (sz : Nat) (len : Int) (body : S → Int → Option S)
    (P : S → Prop) (hbody : ∀ s i s1, P s → body s i = some s1 → P s1) :
    ∀ (fuel : Nat) (i : Int) (s s1 : S), P s → recordLoop sz len body fuel i s = some s1 →
      P s1 := by
  intro fuel
  induction fuel with
  | zero =>
    intro i s s1 hP h
    unfold recordLoop at h
    split_ifs at h
    simp only [Option.some.injEq] at h
    exact h ▸ hP
  | succ f ih =>
    intro i s s1 hP h
    unfold recordLoop at h
    split_ifs at h
    · cases hb : body s i with
      | none => rw [hb] at h; exact absurd h (by simp)
      | some s2 =>
        rw [hb] at h
        exact ih _ s2 s1 (hbody s i s2 hP hb) h
    · simp only [Option.some.injEq] at h
      exact h ▸ hP

/-- The keys of the object of a scan record. -/
theorem scanEntryObject_keys (H : IwinfoHeader) (e : iwinfo_scanlist_entry) (obj : UcObject)
    (h : scanEntryObject H e = some obj) (x : String) (hx : x ∈ objectKeys obj) :
    x ∈ ["bssid", "ssid", "channel", "frequency", "mode", "quality", "quality_max",
      "signal", "encryption", "ht_chan_info", "vht_chan_info"] := by
  obtain ⟨name, crypto, _, _, rfl⟩ := scanEntryObject_some H e obj h
  unfold iwinfo_uc_set_chaninfo at hx
  simp only [mem_keys_setVhtLike, mem_keys_setHtChan, mem_objectKeys_add] at hx
  have hnil : x ∉ objectKeys ucv_object_new := by simp [objectKeys, ucv_object_new]
  split_ifs at hx <;>
    simp only [mem_objectKeys_add, hnil, false_or, reduceCtorEq, false_and, exists_false,
      and_false, or_false] at hx <;>
    simp only [List.mem_cons, List.mem_singleton, List.not_mem_nil, or_false] <;>
    tauto

/-- C18: the object that scanlist emits for a scan record, whatever the
record holds, has neither an he_chan_info nor an eht_chan_info key: its keys
are among bssid, ssid, channel, frequency, mode, quality, quality_max, signal,
encryption, ht_chan_info and vht_chan_info; and every element of an array that
`iwinfo_uc_scanlist` returns is such an object. -/
theorem scanlist_no_he_eht_chaninfo (H : IwinfoHeader) :
    (∀ (e : iwinfo_scanlist_entry) (obj : UcObject), scanEntryObject H e = some obj →
      "he_chan_info" ∉ objectKeys obj ∧ "eht_chan_info" ∉ objectKeys obj ∧
      ∀ x ∈ objectKeys obj,
        x ∈ ["bssid", "ssid", "channel", "frequency", "mode", "quality", "quality_max",
          "signal", "encryption", "ht_chan_info", "vht_chan_info"]) ∧
    (∀ (c : UcCall) (arr : List UcValue), iwinfo_uc_scanlist H c = some (.ret (.array arr)) →
      ∀ v ∈ arr, ∃ obj, v = .object obj ∧
        "he_chan_info" ∉ objectKeys obj ∧ "eht_chan_info" ∉ objectKeys obj) := by
  have hentry : ∀ (e : iwinfo_scanlist_entry) (obj : UcObject),
      scanEntryObject H e = some obj →
      "he_chan_info" ∉ objectKeys obj ∧ "eht_chan_info" ∉ objectKeys obj := by
    intro e obj h
    constructor
    · intro hx
      have := scanEntryObject_keys H e obj h _ hx
      revert this
      decide
    · intro hx
      have := scanEntryObject_keys H e obj h _ hx
      revert this
      decide
  refine ⟨fun e obj h => ⟨(hentry e obj h).1, (hentry e obj h).2,
    fun x hx => scanEntryObject_keys H e obj h x hx⟩, ?_⟩
  intro c arr h
  have hinv : ∀ (view : Int → iwinfo_scanlist_entry) (len : Int) (fuel : Nat) (res : List UcValue),
      recordLoop H.sizeof_scanlist_entry len (scanlistBody H view) fuel 0 ucv_array_new =
        some res →
      ∀ v ∈ res, ∃ obj, v = .object obj ∧
        "he_chan_info" ∉ objectKeys obj ∧ "eht_chan_info" ∉ objectKeys obj := by
    intro view len fuel res hres
    refine recordLoop_invariant H.sizeof_scanlist_entry len (scanlistBody H view)
      (fun r => ∀ v ∈ r, ∃ obj, v = .object obj ∧
        "he_chan_info" ∉ objectKeys obj ∧ "eht_chan_info" ∉ objectKeys obj)
      ?_ fuel 0 ucv_array_new res (by intro v hv; exact absurd hv (List.not_mem_nil v)) hres
    intro s i s1 hs hb v hv
    unfold scanlistBody at hb
    cases ho : scanEntryObject H (view i) with
    | none => rw [ho] at hb; exact absurd hb (by simp)
    | some obj =>
      rw [ho] at hb
      simp only [Option.some.injEq, ucv_array_push] at hb
      rw [← hb] at hv
      rcases List.mem_append.1 hv with hv1 | hv2
      · exact hs v hv1
      · rw [List.mem_singleton.1 hv2]
        exact ⟨obj, rfl, hentry _ obj ho⟩
  unfold iwinfo_uc_scanlist withBackend at h
  cases harg : CHECK_STRING c with
  | none => rw [harg] at h; simp at h
  | some ifname =>
    rw [harg] at h
    simp only at h
    cases hthis : c.this with
    | none => rw [hthis] at h; simp at h
    | some ops =>
      rw [hthis] at h
      simp only at h
      split_ifs at h with h1 h2
      · simp at h
      · simp only [Option.some.injEq, UcResult.ret.injEq, UcValue.array.injEq] at h
        rw [← h]
        intro v hv
        exact absurd hv (List.not_mem_nil v)
      · cases hl : recordLoop H.sizeof_scanlist_entry
            (ops.scanlist ifname IWINFO_BIG_BUFSIZE).len
            (scanlistBody H (ops.scanlist ifname IWINFO_BIG_BUFSIZE).view)
            (ops.scanlist ifname IWINFO_BIG_BUFSIZE).len.toNat 0 ucv_array_new with
        | none => rw [hl] at h; simp at h
        | some res =>
          rw [hl] at h
          simp only [Option.some.injEq, UcResult.ret.injEq, UcValue.array.injEq] at h
          rw [← h]
          exact hinv _ _ _ res hl

/-- C18 at a concrete input: the object of a scan record with an HT operation
element has the key ht_chan_info and no he_chan_info or eht_chan_info. -/
theorem scanlist_no_he_eht_chaninfo_witness :
    ∃ obj, scanEntryObject sampleHeader sampleScan = some obj ∧
      "ht_chan_info" ∈ objectKeys obj ∧
      "he_chan_info" ∉ objectKeys obj ∧ "eht_chan_info" ∉ objectKeys obj :=
  ⟨_, rfl, by decide,
    ((scanlist_no_he_eht_chaninfo sampleHeader).1 sampleScan _ rfl).1,
    ((scanlist_no_he_eht_chaninfo sampleHeader).1 sampleScan _ rfl).2.1⟩

/-! ## Whole records -/

/-- With `m` records left to visit from offset `i`, the record loop runs the
body at `i, i + sz, ..., i + (m - 1) * sz`, provided the last value of the loop
variable, `i + m * sz`, is within the range of `int`. -/
theorem recordLoop_steps_fin {S : Type} (sz : Nat) (len : Int) (body : S → Int → Option S) :
    ∀ (m fuel : Nat) (i : Int) (s : S), 0 ≤ i → m ≤ fuel →
      len ≤ i + m * sz → (0 < m → i + (m - 1 : Nat) * sz < len) → i + m * sz < 2 ^ 31 →
      recordLoop sz len body fuel i s =
        ((List.range m).map (fun j : Nat => i + (j * sz : Nat))).foldlM body s := by
  intro m
  induction m with
  | zero =>
    intro fuel i s _ _ hge _ _
    have hnot : ¬ i < len := by simp at hge; omega
    cases fuel <;> simp [recordLoop, hnot]
  | succ m ih =>
    intro fuel i s h0 hfuel hge hlt hfin
    have hlast : i + (m : Nat) * sz < len := by simpa using hlt (Nat.succ_pos m)
    have hmsz : (0 : Int) ≤ (m : Int) * sz := by positivity
    have hi : i < len := by omega
    have hexp : (((m + 1 : Nat) : Int)) * sz = m * sz + sz := by push_cast; ring
    obtain ⟨f, rfl⟩ : ∃ f, fuel = f + 1 := ⟨fuel - 1, by omega⟩
    rw [recordLoop, if_pos hi, List.range_succ_eq_map, List.map_cons, List.foldlM_cons]
    have hw : wrap32 (i + sz) = i + sz := wrap32_eq_self _ (by omega) (by omega)
    have hmap : (List.map (fun j : Nat => i + ((j * sz : Nat) : Int))
        (List.map Nat.succ (List.range m))) =
        (List.range m).map (fun j : Nat => (i + sz) + ((j * sz : Nat) : Int)) := by
      rw [List.map_map]
      apply List.map_congr_left
      intro j _
      simp only [Function.comp, Nat.succ_eq_add_one]
      push_cast
      ring
    simp only [Nat.zero_mul, Nat.cast_zero, add_zero]
    cases hb : body s i with
    | none => rfl
    | some s1 =>
      simp only [Option.bind_eq_bind, Option.some_bind]
      rw [hw, hmap]
      apply ih f (i + sz) s1 (by omega) (by omega)
      · omega
      · intro hm
        have hcast : (((m - 1 : Nat) : Int)) = (m : Int) - 1 := by omega
        rw [hcast]
        have : ((m : Int) - 1) * sz = m * sz - sz := by ring
        omega
      · omega

/-- The record loop over a reported length of `n` whole records runs its body
at the offsets `0, sz, ..., (n - 1) * sz`. -/
theorem recordLoop_whole {S : Type} (sz n : Nat) (len : Int) (body : S → Int → Option S)
    (s : S) (hsz : 0 < sz) (hn : 0 < n) (hlen : len = ((n * sz : Nat) : Int))
    (hint : len < 2 ^ 31) :
    recordLoop sz len body len.toNat 0 s =
      ((List.range n).map (fun j : Nat => ((j * sz : Nat) : Int))).foldlM body s := by
  have hle : n ≤ n * sz := Nat.le_mul_of_pos_right _ hsz
  have hpred : (n - 1) * sz + sz = n * sz := by
    rw [← Nat.succ_mul]; congr 1; omega
  have h := recordLoop_steps_fin sz len body n len.toNat 0 s (le_refl _)
    (by rw [hlen]; simpa using hle)
    (by rw [hlen]; push_cast; omega)
    (by
      intro _
      rw [hlen]
      have h2 : (((n - 1) * sz : Nat) : Int) < ((n * sz : Nat) : Int) := by
        exact_mod_cast (by omega : (n - 1) * sz < n * sz)
      push_cast at h2 ⊢
      omega)
    (by rw [hlen] at hint; push_cast at hint ⊢; omega)
  simpa using h

theorem iwinfo_uc_freqlist_whole (H : IwinfoHeader) (c : UcCall) (ifname : String)
    (ops : iwinfo_ops) (n : Nat) (harg : c.arg0 = .string ifname) (hthis : c.this = some ops)
    (halloc : c.alloc_ok = true) (hn : 0 < n) (r : ListReply iwinfo_freqlist_entry)
    (hr : ops.freqlist ifname H.IWINFO_BUFSIZE = r) (hst : r.status = 0)
    (hsz : 0 < H.sizeof_freqlist_entry)
    (hlen : r.len = ((n * H.sizeof_freqlist_entry : Nat) : Int)) (hint : r.len < 2 ^ 31) :
    iwinfo_uc_freqlist H c = some (.ret (.array
      ((List.range n).map (fun k : Nat =>
        UcValue.object (freqEntryObject (r.view ((k * H.sizeof_freqlist_entry : Nat) : Int))))))) := by
  have hpos : 0 < r.len := by rw [hlen]; exact_mod_cast Nat.mul_pos hn hsz
  have hcond : ¬ (r.status ≠ 0 ∨ r.len ≤ 0) := by omega
  simp only [iwinfo_uc_freqlist, withBackend, CHECK_STRING, harg, hthis, halloc, hr, hcond,
    if_false, Bool.true_eq_false]
  rw [recordLoop_whole _ n _ _ _ hsz hn hlen hint]
  unfold freqlistBody
  rw [foldlM_push (fun i => UcValue.object (freqEntryObject (r.view i)))]
  simp [ucv_array_new, List.map_map, Function.comp]

theorem iwinfo_uc_txpwrlist_whole (H : IwinfoHeader) (c : UcCall) (ifname : String)
    (ops : iwinfo_ops) (n : Nat) (harg : c.arg0 = .string ifname) (hthis : c.this = some ops)
    (halloc : c.alloc_ok = true) (hn : 0 < n) (r : ListReply iwinfo_txpwrlist_entry)
    (hr : ops.txpwrlist ifname H.IWINFO_BUFSIZE = r) (hst : r.status = 0)
    (hsz : 0 < H.sizeof_txpwrlist_entry)
    (hlen : r.len = ((n * H.sizeof_txpwrlist_entry : Nat) : Int)) (hint : r.len < 2 ^ 31) :
    iwinfo_uc_txpwrlist H c = some (.ret (.array
      ((List.range n).map (fun k : Nat =>
        UcValue.object (txpwrEntryObject (r.view ((k * H.sizeof_txpwrlist_entry : Nat) : Int))))))) := by
  have hpos : 0 < r.len := by rw [hlen]; exact_mod_cast Nat.mul_pos hn hsz
  have hcond : ¬ (r.status ≠ 0 ∨ r.len ≤ 0) := by omega
  simp only [iwinfo_uc_txpwrlist, withBackend, CHECK_STRING, harg, hthis, halloc, hr, hcond,
    if_false, Bool.true_eq_false]
  rw [recordLoop_whole _ n _ _ _ hsz hn hlen hint]
  unfold txpwrlistBody
  rw [foldlM_push (fun i => UcValue.object (txpwrEntryObject (r.view i)))]
  simp [ucv_array_new, List.map_map, Function.comp]

theorem iwinfo_uc_scanlist_whole (H : IwinfoHeader) (c : UcCall) (ifname : String)
    (ops : iwinfo_ops) (n : Nat) (harg : c.arg0 = .string ifname) (hthis : c.this = some ops)
    (halloc : c.alloc_ok = true) (hn : 0 < n) (r : ListReply iwinfo_scanlist_entry)
    (hr : ops.scanlist ifname IWINFO_BIG_BUFSIZE = r) (hst : r.status = 0)
    (hsz : 0 < H.sizeof_scanlist_entry)
    (hlen : r.len = ((n * H.sizeof_scanlist_entry : Nat) : Int)) (hint : r.len < 2 ^ 31)
    (o : Nat → UcObject)
    (hdef : ∀ k, k < n →
      scanEntryObject H (r.view ((k * H.sizeof_scanlist_entry : Nat) : Int)) = some (o k)) :
    iwinfo_uc_scanlist H c = some (.ret (.array
      ((List.range n).map (fun k : Nat => UcValue.object (o k))))) := by
  have hpos : 0 < r.len := by rw [hlen]; exact_mod_cast Nat.mul_pos hn hsz
  have hcond : ¬ (r.status ≠ 0 ∨ r.len ≤ 0) := by omega
  simp only [iwinfo_uc_scanlist, withBackend, CHECK_STRING, harg, hthis, halloc, hr, hcond,
    if_false, Bool.true_eq_false]
  rw [recordLoop_whole _ n _ _ _ hsz hn hlen hint]
  have hidx : ∀ k : Nat,
      (((k * H.sizeof_scanlist_entry : Nat) : Int) / (H.sizeof_scanlist_entry : Int)).toNat = k := by
    intro k
    have e : (((k * H.sizeof_scanlist_entry : Nat) : Int) / (H.sizeof_scanlist_entry : Int)) =
        (((k * H.sizeof_scanlist_entry / H.sizeof_scanlist_entry : Nat)) : Int) := by norm_cast
    rw [e, Nat.mul_div_cancel _ hsz]
    exact Int.toNat_ofNat k
  rw [foldlM_scanlistBody H r.view
    (fun i => o ((i / (H.sizeof_scanlist_entry : Int)).toNat)) _ (by
      intro i hi
      obtain ⟨k, hk, rfl⟩ := List.mem_map.1 hi
      simp only [hidx]
      exact hdef k (List.mem_range.1 hk))]
  have hcomp : ((fun i : Int => UcValue.object (o ((i / (H.sizeof_scanlist_entry : Int)).toNat))) ∘
      (fun j : Nat => ((j * H.sizeof_scanlist_entry : Nat) : Int))) =
      fun k : Nat => UcValue.object (o k) := by
    funext k
    simp only [Function.comp, hidx]
  simp only [ucv_array_new, List.nil_append, List.map_map, hcomp]

/-! ## C16: whole records in buffer order -/

theorem range_map_getElem? {α : Type} (f : Nat → α) (n k : Nat) (hk : k < n) :
    ((List.range n).map f)[k]? = some (f k) := by
  rw [List.getElem?_map, List.getElem?_range hk]
  rfl

/-- C16: on a successful backend call whose reported length is a positive
multiple `n * record_size` of the record size (`len` being an `int`),
freqlist, txpwrlist and scanlist return an array of exactly `n` elements, and
for every `k < n` the element at index `k` is the object decoded from the
record at byte offset `k * record_size`; for scanlist this holds when the
object of each of these records is defined. -/
theorem array_ops_whole_records (H : IwinfoHeader) (c : UcCall) (ifname : String)
    (ops : iwinfo_ops) (n : Nat)
    (harg : c.arg0 = .string ifname) (hthis : c.this = some ops)
    (halloc : c.alloc_ok = true) (hn : 0 < n) :
    (∀ r, ops.freqlist ifname H.IWINFO_BUFSIZE = r → r.status = 0 →
      0 < H.sizeof_freqlist_entry → r.len = ((n * H.sizeof_freqlist_entry : Nat) : Int) →
      r.len < 2 ^ 31 →
      ∃ arr, iwinfo_uc_freqlist H c = some (.ret (.array arr)) ∧ arr.length = n ∧
        ∀ k, k < n → arr[k]? = some (.object
          (freqEntryObject (r.view ((k * H.sizeof_freqlist_entry : Nat) : Int))))) ∧
    (∀ r, ops.txpwrlist ifname H.IWINFO_BUFSIZE = r → r.status = 0 →
      0 < H.sizeof_txpwrlist_entry → r.len = ((n * H.sizeof_txpwrlist_entry : Nat) : Int) →
      r.len < 2 ^ 31 →
      ∃ arr, iwinfo_uc_txpwrlist H c = some (.ret (.array arr)) ∧ arr.length = n ∧
        ∀ k, k < n → arr[k]? = some (.object
          (txpwrEntryObject (r.view ((k * H.sizeof_txpwrlist_entry : Nat) : Int))))) ∧
    (∀ r, ops.scanlist ifname IWINFO_BIG_BUFSIZE = r → r.status = 0 →
      0 < H.sizeof_scanlist_entry → r.len = ((n * H.sizeof_scanlist_entry : Nat) : Int) →
      r.len < 2 ^ 31 →
      ∀ o : Nat → UcObject,
      (∀ k, k < n →
        scanEntryObject H (r.view ((k * H.sizeof_scanlist_entry : Nat) : Int)) = some (o k)) →
      ∃ arr, iwinfo_uc_scanlist H c = some (.ret (.array arr)) ∧ arr.length = n ∧
        ∀ k, k < n → arr[k]? = some (.object (o k))) := by
  refine ⟨?_, ?_, ?_⟩
  · intro r hr hst hsz hlen hint
    exact ⟨_, iwinfo_uc_freqlist_whole H c ifname ops n harg hthis halloc hn r hr hst hsz hlen
      hint, by simp, fun k hk => range_map_getElem? _ n k hk⟩
  · intro r hr hst hsz hlen hint
    exact ⟨_, iwinfo_uc_txpwrlist_whole H c ifname ops n harg hthis halloc hn r hr hst hsz hlen
      hint, by simp, fun k hk => range_map_getElem? _ n k hk⟩
  · intro r hr hst hsz hlen hint o hdef
    exact ⟨_, iwinfo_uc_scanlist_whole H c ifname ops n harg hthis halloc hn r hr hst hsz hlen
      hint o hdef, by simp, fun k hk => range_map_getElem? _ n k hk⟩

/-- C16 at a concrete input: 24 reported bytes of 12-byte frequency records
give the two records, in buffer order. -/
theorem array_ops_whole_records_witness :
    (sampleCall wholeFreqOps).arg0 = .string "wlan0" ∧
    (wholeFreqOps.freqlist "wlan0" 4096).len = ((2 * 12 : Nat) : Int) ∧
    (∃ arr, iwinfo_uc_freqlist sampleHeader (sampleCall wholeFreqOps) =
        some (.ret (.array arr)) ∧ arr.length = 2 ∧
      ∀ k, k < 2 → arr[k]? = some (.object
        (freqEntryObject ((wholeFreqOps.freqlist "wlan0" 4096).view ((k * 12 : Nat) : Int))))) :=
  ⟨rfl, rfl,
    (array_ops_whole_records sampleHeader (sampleCall wholeFreqOps) "wlan0" wholeFreqOps 2
      rfl rfl rfl (by decide)).1 _ rfl rfl (by decide) rfl (by decide)⟩

theorem offset_lt_len (sz : Nat) (len : Int) (hsz : 0 < sz) (hlen : 0 < len) (k : Nat)
    (hk : k < recordCount sz len) : ((k * sz : Nat) : Int) < len := by
  obtain ⟨_, hB, _, _⟩ := ceil_bounds len.toNat sz hsz (by omega)
  unfold recordCount at hk
  have h1 : k * sz ≤ ((len.toNat + sz - 1) / sz - 1) * sz :=
    Nat.mul_le_mul_right sz (by omega)
  have h2 : k * sz < len.toNat := by omega
  have h3 : ((k * sz : Nat) : Int) < (len.toNat : Int) := by exact_mod_cast h2
  omega

/-! ## The association list as a mapping: C12 and C17 -/

theorem objectKeys_add (obj : UcObject) (key : String) (val : UcValue) :
    objectKeys (ucv_object_add obj key val) =
      if key ∈ objectKeys obj then objectKeys obj else objectKeys obj ++ [key] := by
  induction obj with
  | nil => simp [ucv_object_add, objectKeys]
  | cons p rest ih =>
    obtain ⟨k, v⟩ := p
    have ih2 : List.map Prod.fst (ucv_object_add rest key val) =
        if key ∈ List.map Prod.fst rest then List.map Prod.fst rest
        else List.map Prod.fst rest ++ [key] := ih
    by_cases hk : k = key
    · subst hk
      simp [ucv_object_add, objectKeys]
    · have hk2 : ¬ key = k := fun h => hk h.symm
      simp only [ucv_object_add, hk, if_false, objectKeys, List.map_cons, List.mem_cons, hk2,
        false_or, ih2]
      split_ifs <;> simp

theorem nodup_objectKeys_add (obj : UcObject) (key : String) (val : UcValue)
    (h : (objectKeys obj).Nodup) : (objectKeys (ucv_object_add obj key val)).Nodup := by
  rw [objectKeys_add]
  split_ifs with hk
  · exact h
  · exact List.Nodup.append h (List.nodup_singleton key) (by
      intro x hx hx2
      rw [List.mem_singleton.1 hx2] at hx
      exact hk hx)

theorem foldl_add_succ (κ : Nat → String) (ν : Nat → UcValue) (res0 : UcObject) (n : Nat) :
    (List.range (n + 1)).foldl (fun res k => ucv_object_add res (κ k) (ν k)) res0 =
      ucv_object_add ((List.range n).foldl (fun res k => ucv_object_add res (κ k) (ν k)) res0)
        (κ n) (ν n) := by
  rw [List.range_succ, List.foldl_append]
  rfl

theorem mem_keys_foldl_add (κ : Nat → String) (ν : Nat → UcValue) (res0 : UcObject) :
    ∀ (n : Nat) (x : String),
      x ∈ objectKeys ((List.range n).foldl (fun res k => ucv_object_add res (κ k) (ν k)) res0) ↔
        x ∈ objectKeys res0 ∨ ∃ k, k < n ∧ κ k = x := by
  intro n
  induction n with
  | zero => intro x; simp
  | succ n ih =>
    intro x
    rw [foldl_add_succ, mem_objectKeys_add, ih]
    constructor
    · rintro ((h | ⟨k, hk, rfl⟩) | rfl)
      · exact Or.inl h
      · exact Or.inr ⟨k, by omega, rfl⟩
      · exact Or.inr ⟨n, by omega, rfl⟩
    · rintro (h | ⟨k, hk, rfl⟩)
      · exact Or.inl (Or.inl h)
      · by_cases hkn : k = n
        · subst hkn; exact Or.inr rfl
        · exact Or.inl (Or.inr ⟨k, by omega, rfl⟩)

theorem nodup_keys_foldl_add (κ : Nat → String) (ν : Nat → UcValue) (res0 : UcObject)
    (h0 : (objectKeys res0).Nodup) :
    ∀ n : Nat, (objectKeys
      ((List.range n).foldl (fun res k => ucv_object_add res (κ k) (ν k)) res0)).Nodup := by
  intro n
  induction n with
  | zero => simpa using h0
  | succ n ih =>
    rw [foldl_add_succ]
    exact nodup_objectKeys_add _ _ _ ih

theorem get_foldl_add_last (κ : Nat → String) (ν : Nat → UcValue) (res0 : UcObject) :
    ∀ (n k : Nat), k < n → (∀ j, k < j → j < n → κ j ≠ κ k) →
      ucv_object_get
        ((List.range n).foldl (fun res k => ucv_object_add res (κ k) (ν k)) res0) (κ k) =
        some (ν k) := by
  intro n
  induction n with
  | zero => intro k hk; omega
  | succ n ih =>
    intro k hk hlast
    rw [foldl_add_succ]
    by_cases hkn : k = n
    · subst hkn
      exact ucv_object_get_add _ _ _
    · rw [ucv_object_get_add_ne _ _ _ _ (hlast n (by omega) (by omega))]
      exact ih k (by omega) (fun j hj1 hj2 => hlast j hj1 (by omega))

/-- C12: on a successful backend call, the object that `iwinfo_uc_assoclist`
returns is keyed by formatted MAC: its keys are exactly the formatted MACs of
the decoded records, and the value under the formatted MAC of a record that no
later record shares is the object decoded from that record, so an earlier
record with the same MAC is overwritten, and no error is raised. -/
theorem iwinfo_uc_assoclist_last_wins (H : IwinfoHeader) (c : UcCall) (ifname : String)
    (ops : iwinfo_ops) (r : ListReply iwinfo_assoclist_entry)
    (harg : c.arg0 = .string ifname) (hthis : c.this = some ops)
    (halloc : c.alloc_ok = true)
    (hr : ops.assoclist ifname IWINFO_BIG_BUFSIZE = r) (hst : r.status = 0) (hlen : 0 < r.len)
    (hsz : 0 < H.sizeof_assoclist_entry) (hov : r.len + H.sizeof_assoclist_entry ≤ 2 ^ 31) :
    ∃ res, iwinfo_uc_assoclist H c = some (.ret (.object res)) ∧
      (∀ key, key ∈ objectKeys res ↔
        ∃ k, k < recordCount H.sizeof_assoclist_entry r.len ∧
          mac_snprintf (r.view ((k * H.sizeof_assoclist_entry : Nat) : Int)).mac = key) ∧
      (∀ k, k < recordCount H.sizeof_assoclist_entry r.len →
        (∀ j, k < j → j < recordCount H.sizeof_assoclist_entry r.len →
          mac_snprintf (r.view ((j * H.sizeof_assoclist_entry : Nat) : Int)).mac ≠
            mac_snprintf (r.view ((k * H.sizeof_assoclist_entry : Nat) : Int)).mac) →
        ucv_object_get res
            (mac_snprintf (r.view ((k * H.sizeof_assoclist_entry : Nat) : Int)).mac) =
          some (.object
            (assocEntryObject (r.view ((k * H.sizeof_assoclist_entry : Nat) : Int))))) := by
  refine ⟨_, iwinfo_uc_assoclist_ok H c ifname ops harg hthis halloc r hr hst hlen hsz hov,
    ?_, ?_⟩
  · intro key
    rw [mem_keys_foldl_add
      (fun k => mac_snprintf (r.view ((k * H.sizeof_assoclist_entry : Nat) : Int)).mac)
      (fun k => .object (assocEntryObject (r.view ((k * H.sizeof_assoclist_entry : Nat) : Int))))]
    simp [objectKeys, ucv_object_new]
  · intro k hk hlast
    exact get_foldl_add_last
      (fun k => mac_snprintf (r.view ((k * H.sizeof_assoclist_entry : Nat) : Int)).mac)
      (fun k => .object (assocEntryObject (r.view ((k * H.sizeof_assoclist_entry : Nat) : Int))))
      ucv_object_new _ k hk hlast

/-- C12 at a concrete input: of three records, the first and the third for the
station 00:11:22:33:44:55, the result holds the signal -60 of the third under
that key. -/
theorem iwinfo_uc_assoclist_last_wins_witness :
    ∃ res, iwinfo_uc_assoclist sampleHeader (sampleCall dupMacOps) =
        some (.ret (.object res)) ∧
      objectKeys res = ["00:11:22:33:44:55", "66:77:88:99:AA:BB"] ∧
      ucv_object_get res "00:11:22:33:44:55" = some (.object (assocEntryObject sampleAssocC)) := by
  obtain ⟨res, hres, _, hlast⟩ := iwinfo_uc_assoclist_last_wins sampleHeader
    (sampleCall dupMacOps) "wlan0" dupMacOps _ rfl rfl rfl rfl rfl (by decide) (by decide)
    (by decide)
  have hcount : recordCount sampleHeader.sizeof_assoclist_entry
      (dupMacOps.assoclist "wlan0" IWINFO_BIG_BUFSIZE).len = 3 := by decide
  have h2 := hlast 2 (by rw [hcount]; decide) (by
    intro j hj1 hj2
    rw [hcount] at hj2
    omega)
  have hval : iwinfo_uc_assoclist sampleHeader (sampleCall dupMacOps) =
      some (.ret (.object [("00:11:22:33:44:55", .object (assocEntryObject sampleAssocC)),
        ("66:77:88:99:AA:BB", .object (assocEntryObject sampleAssocB))])) := rfl
  have hkeys : objectKeys res = ["00:11:22:33:44:55", "66:77:88:99:AA:BB"] := by
    rw [hval] at hres
    simp only [Option.some.injEq, UcResult.ret.injEq, UcValue.object.injEq] at hres
    rw [← hres]
    rfl
  exact ⟨res, hres, hkeys, h2⟩

theorem mac_snprintf_digits (m : MacAddr) (h : m.sixBytes) :
    mac_snprintf m = String.mk
      [upperHexDigit (m.b0 / 16), upperHexDigit (m.b0 % 16), ':',
       upperHexDigit (m.b1 / 16), upperHexDigit (m.b1 % 16), ':',
       upperHexDigit (m.b2 / 16), upperHexDigit (m.b2 % 16), ':',
       upperHexDigit (m.b3 / 16), upperHexDigit (m.b3 % 16), ':',
       upperHexDigit (m.b4 / 16), upperHexDigit (m.b4 % 16), ':',
       upperHexDigit (m.b5 / 16), upperHexDigit (m.b5 % 16)] := by
  obtain ⟨h0, h1, h2, h3, h4, h5⟩ := h
  unfold mac_snprintf
  rw [fmt_02X_byte _ h0, fmt_02X_byte _ h1, fmt_02X_byte _ h2, fmt_02X_byte _ h3,
    fmt_02X_byte _ h4, fmt_02X_byte _ h5]
  rfl

theorem upperHexDigit_toNat (d : Nat) (h : d < 16) :
    (upperHexDigit d).toNat = if d < 10 then 48 + d else 55 + d := by
  interval_cases d <;> rfl

theorem upperHexDigit_inj (a b : Nat) (ha : a < 16) (hb : b < 16)
    (h : upperHexDigit a = upperHexDigit b) : a = b := by
  have h1 := congrArg Char.toNat h
  rw [upperHexDigit_toNat a ha, upperHexDigit_toNat b hb] at h1
  split_ifs at h1 <;> omega

theorem byte_of_digits (a b : Nat) (ha : a < 256) (hb : b < 256)
    (hhi : upperHexDigit (a / 16) = upperHexDigit (b / 16))
    (hlo : upperHexDigit (a % 16) = upperHexDigit (b % 16)) : a = b := by
  have h1 := upperHexDigit_inj _ _ (by omega) (by omega) hhi
  have h2 := upperHexDigit_inj _ _ (by omega) (by omega) hlo
  omega

theorem mac_snprintf_inj (m1 m2 : MacAddr) (h1 : m1.sixBytes) (h2 : m2.sixBytes)
    (h : mac_snprintf m1 = mac_snprintf m2) : m1 = m2 := by
  rw [mac_snprintf_digits m1 h1, mac_snprintf_digits m2 h2] at h
  rw [String.ext_iff] at h
  simp only [List.cons.injEq, and_true, true_and] at h
  obtain ⟨a0, a1, a2, a3, a4, a5⟩ := h1
  obtain ⟨c0, c1, c2, c3, c4, c5⟩ := h2
  obtain ⟨e0, f0, e1, f1, e2, f2, e3, f3, e4, f4, e5, f5⟩ := h
  cases m1
  cases m2
  simp only [MacAddr.mk.injEq]
  exact ⟨byte_of_digits _ _ a0 c0 e0 f0, byte_of_digits _ _ a1 c1 e1 f1,
    byte_of_digits _ _ a2 c2 e2 f2, byte_of_digits _ _ a3 c3 e3 f3,
    byte_of_digits _ _ a4 c4 e4 f4, byte_of_digits _ _ a5 c5 e5 f5⟩

/-- C17: MAC formatting is injective on six-byte addresses; so on a
successful backend call whose decoded records carry six-byte addresses, two
records have the same key in the object `iwinfo_uc_assoclist` returns exactly
when their addresses are equal, and the number of keys of that object is the
number of distinct addresses among the decoded records. -/
theorem mac_snprintf_injective_keys (H : IwinfoHeader) (c : UcCall) (ifname : String)
    (ops : iwinfo_ops) (r : ListReply iwinfo_assoclist_entry)
    (harg : c.arg0 = .string ifname) (hthis : c.this = some ops)
    (halloc : c.alloc_ok = true)
    (hr : ops.assoclist ifname IWINFO_BIG_BUFSIZE = r) (hst : r.status = 0) (hlen : 0 < r.len)
    (hsz : 0 < H.sizeof_assoclist_entry) (hov : r.len + H.sizeof_assoclist_entry ≤ 2 ^ 31)
    (hbytes : ∀ k, k < recordCount H.sizeof_assoclist_entry r.len →
      (r.view ((k * H.sizeof_assoclist_entry : Nat) : Int)).mac.sixBytes) :
    (∀ m1 m2 : MacAddr, m1.sixBytes → m2.sixBytes →
      (mac_snprintf m1 = mac_snprintf m2 ↔ m1 = m2)) ∧
    ∃ res, iwinfo_uc_assoclist H c = some (.ret (.object res)) ∧
      (∀ j k, j < recordCount H.sizeof_assoclist_entry r.len →
        k < recordCount H.sizeof_assoclist_entry r.len →
        (mac_snprintf (r.view ((j * H.sizeof_assoclist_entry : Nat) : Int)).mac =
            mac_snprintf (r.view ((k * H.sizeof_assoclist_entry : Nat) : Int)).mac ↔
          (r.view ((j * H.sizeof_assoclist_entry : Nat) : Int)).mac =
            (r.view ((k * H.sizeof_assoclist_entry : Nat) : Int)).mac)) ∧
      (objectKeys res).length =
        ((List.range (recordCount H.sizeof_assoclist_entry r.len)).map (fun k : Nat =>
          (r.view ((k * H.sizeof_assoclist_entry : Nat) : Int)).mac)).dedup.length := by
  have hinj : ∀ m1 m2 : MacAddr, m1.sixBytes → m2.sixBytes →
      (mac_snprintf m1 = mac_snprintf m2 ↔ m1 = m2) :=
    fun m1 m2 h1 h2 => ⟨mac_snprintf_inj m1 m2 h1 h2, fun h => by rw [h]⟩
  refine ⟨hinj, _,
    iwinfo_uc_assoclist_ok H c ifname ops harg hthis halloc r hr hst hlen hsz hov,
    fun j k hj hk => hinj _ _ (hbytes j hj) (hbytes k hk), ?_⟩
  set n := recordCount H.sizeof_assoclist_entry r.len with hn
  set macs := (List.range n).map (fun k : Nat =>
    (r.view ((k * H.sizeof_assoclist_entry : Nat) : Int)).mac) with hmacs
  have hnodup := nodup_keys_foldl_add
    (fun k => mac_snprintf (r.view ((k * H.sizeof_assoclist_entry : Nat) : Int)).mac)
    (fun k => .object (assocEntryObject (r.view ((k * H.sizeof_assoclist_entry : Nat) : Int))))
    ucv_object_new (by simp [objectKeys, ucv_object_new]) n
  have hmem := mem_keys_foldl_add
    (fun k => mac_snprintf (r.view ((k * H.sizeof_assoclist_entry : Nat) : Int)).mac)
    (fun k => .object (assocEntryObject (r.view ((k * H.sizeof_assoclist_entry : Nat) : Int))))
    ucv_object_new n
  have hperm : List.Perm
      (objectKeys ((List.range n).foldl (fun res k => ucv_object_add res
        (mac_snprintf (r.view ((k * H.sizeof_assoclist_entry : Nat) : Int)).mac)
        (.object (assocEntryObject (r.view ((k * H.sizeof_assoclist_entry : Nat) : Int)))))
        ucv_object_new))
      (macs.map mac_snprintf).dedup := by
    rw [List.perm_ext_iff_of_nodup hnodup (List.nodup_dedup _)]
    intro x
    rw [hmem x, List.mem_dedup]
    simp [hmacs, objectKeys, ucv_object_new]
  have himg : (macs.map mac_snprintf).toFinset = macs.toFinset.image mac_snprintf := by
    ext x
    simp
  rw [hperm.length_eq, ← List.card_toFinset, ← List.card_toFinset, himg]
  apply Finset.card_image_of_injOn
  intro a ha b hb hab
  simp only [Finset.mem_coe, List.mem_toFinset, hmacs, List.mem_map, List.mem_range] at ha hb
  obtain ⟨j, hj, rfl⟩ := ha
  obtain ⟨k, hk, rfl⟩ := hb
  exact mac_snprintf_inj _ _ (hbytes j hj) (hbytes k hk) hab

/-- C17 at a concrete input: three records for two stations give two keys. -/
theorem mac_snprintf_injective_keys_witness :
    ∃ res, iwinfo_uc_assoclist sampleHeader (sampleCall dupMacOps) =
        some (.ret (.object res)) ∧
      (objectKeys res).length = [sampleAssocA.mac, sampleAssocB.mac, sampleAssocC.mac].dedup.length ∧
      [sampleAssocA.mac, sampleAssocB.mac, sampleAssocC.mac].dedup.length = 2 := by
  obtain ⟨res, hres, _, hcard⟩ := (mac_snprintf_injective_keys sampleHeader
    (sampleCall dupMacOps) "wlan0" dupMacOps _ rfl rfl rfl rfl rfl (by decide) (by decide)
    (by decide) (by
      have hcount : recordCount sampleHeader.sizeof_assoclist_entry
          (dupMacOps.assoclist "wlan0" IWINFO_BIG_BUFSIZE).len = 3 := by decide
      intro k hk
      rw [hcount] at hk
      interval_cases k <;>
        exact ⟨by decide, by decide, by decide, by decide, by decide, by decide⟩)).2
  have hcount : recordCount sampleHeader.sizeof_assoclist_entry
      (dupMacOps.assoclist "wlan0" IWINFO_BIG_BUFSIZE).len = 3 := by decide
  rw [hcount] at hcard
  exact ⟨res, hres, hcard, by decide⟩

/-! ## C13: record counts and the capacity of the scratch buffer -/

theorem recordCount_mono (sz : Nat) (len cap : Int) (h : len ≤ cap) :
    recordCount sz len ≤ recordCount sz cap := by
  unfold recordCount
  apply Nat.div_le_div_right
  have : len.toNat ≤ cap.toNat := Int.toNat_le_toNat h
  omega

theorem length_keys_foldl_add_le (κ : Nat → String) (ν : Nat → UcValue) (res0 : UcObject) :
    ∀ n : Nat, (objectKeys
      ((List.range n).foldl (fun res k => ucv_object_add res (κ k) (ν k)) res0)).length ≤
        (objectKeys res0).length + n := by
  intro n
  induction n with
  | zero => simp
  | succ n ih =>
    rw [foldl_add_succ, objectKeys_add]
    split_ifs
    · omega
    · rw [List.length_append, List.length_singleton]
      omega

/-- C13, refuted at a concrete input: with a scratch buffer of 4096 bytes and
12-byte records, a frequency list call that leaves `len` at the capacity 4096
is decoded into 342 elements although `4096 / 12 = 341`; the loop reads a
record at offset 4092, which ends at byte 4104, past the capacity. -/
theorem iwinfo_uc_freqlist_exceeds_floor_capacity :
    sampleHeader.IWINFO_BUFSIZE = 4096 ∧ sampleHeader.sizeof_freqlist_entry = 12 ∧
    (untouchedFreqOps.freqlist "wlan0" 4096).status = 0 ∧
    (untouchedFreqOps.freqlist "wlan0" 4096).len = 4096 ∧
    (∃ arr, iwinfo_uc_freqlist sampleHeader (sampleCall untouchedFreqOps) =
        some (.ret (.array arr)) ∧ arr.length = 342) ∧
    (4096 : Nat) / 12 = 341 ∧
    (∃ offs, recordOffsets 12 4096 = some offs ∧ offs.length = 342 ∧ (4092 : Int) ∈ offs) ∧
    (4096 : Int) < 4092 + 12 := by
  have hcount : recordCount sampleHeader.sizeof_freqlist_entry
      (untouchedFreqOps.freqlist "wlan0" sampleHeader.IWINFO_BUFSIZE).len = 342 := by
    decide
  have h := iwinfo_uc_freqlist_ok sampleHeader (sampleCall untouchedFreqOps) "wlan0"
    untouchedFreqOps rfl rfl rfl _ rfl rfl (by decide) (by decide) (by decide)
  rw [hcount] at h
  have hoffs := recordOffsets_eq 12 4096 (by decide) (by decide) (by decide)
  have hc2 : recordCount 12 4096 = 342 := by decide
  rw [hc2] at hoffs
  refine ⟨rfl, rfl, rfl, rfl, ⟨_, h, by simp⟩, by decide, ⟨_, hoffs, by simp, ?_⟩, by decide⟩
  exact List.mem_map.2 ⟨341, List.mem_range.2 (by decide), by decide⟩

/-- C13 (amended): on a successful backend call whose reported length is
positive and at most the capacity of the scratch buffer (with
`len + record_size` within the range of `int`), a list operation decodes
`recordCount`, the ceiling of `len / record_size`, records: freqlist,
txpwrlist and scanlist return that many elements and assoclist at most that
many keys.  This is at most the ceiling of `capacity / record_size`; every
decoded record starts below the capacity; and when the length is a multiple
`n * record_size`, `n` is at most `capacity / record_size` and every decoded
record ends within the capacity. -/
theorem list_ops_count_within_capacity (H : IwinfoHeader) (c : UcCall)
    (ifname : String) (ops : iwinfo_ops)
    (harg : c.arg0 = .string ifname) (hthis : c.this = some ops)
    (halloc : c.alloc_ok = true) :
    (∀ r, ops.freqlist ifname H.IWINFO_BUFSIZE = r → r.status = 0 → 0 < r.len →
      r.len ≤ H.IWINFO_BUFSIZE →
      0 < H.sizeof_freqlist_entry → r.len + H.sizeof_freqlist_entry ≤ 2 ^ 31 →
      ∃ arr, iwinfo_uc_freqlist H c = some (.ret (.array arr)) ∧
        arr.length = recordCount H.sizeof_freqlist_entry r.len ∧
        arr.length ≤ recordCount H.sizeof_freqlist_entry H.IWINFO_BUFSIZE) ∧
    (∀ r, ops.txpwrlist ifname H.IWINFO_BUFSIZE = r → r.status = 0 → 0 < r.len →
      r.len ≤ H.IWINFO_BUFSIZE →
      0 < H.sizeof_txpwrlist_entry → r.len + H.sizeof_txpwrlist_entry ≤ 2 ^ 31 →
      ∃ arr, iwinfo_uc_txpwrlist H c = some (.ret (.array arr)) ∧
        arr.length = recordCount H.sizeof_txpwrlist_entry r.len ∧
        arr.length ≤ recordCount H.sizeof_txpwrlist_entry H.IWINFO_BUFSIZE) ∧
    (∀ r, ops.scanlist ifname IWINFO_BIG_BUFSIZE = r → r.status = 0 → 0 < r.len →
      r.len ≤ IWINFO_BIG_BUFSIZE →
      0 < H.sizeof_scanlist_entry → r.len + H.sizeof_scanlist_entry ≤ 2 ^ 31 →
      (∀ k, k < recordCount H.sizeof_scanlist_entry r.len → ∃ obj,
        scanEntryObject H (r.view ((k * H.sizeof_scanlist_entry : Nat) : Int)) = some obj) →
      ∃ arr, iwinfo_uc_scanlist H c = some (.ret (.array arr)) ∧
        arr.length = recordCount H.sizeof_scanlist_entry r.len ∧
        arr.length ≤ recordCount H.sizeof_scanlist_entry IWINFO_BIG_BUFSIZE) ∧
    (∀ r, ops.assoclist ifname IWINFO_BIG_BUFSIZE = r → r.status = 0 → 0 < r.len →
      r.len ≤ IWINFO_BIG_BUFSIZE →
      0 < H.sizeof_assoclist_entry → r.len + H.sizeof_assoclist_entry ≤ 2 ^ 31 →
      ∃ res, iwinfo_uc_assoclist H c = some (.ret (.object res)) ∧
        (objectKeys res).length ≤ recordCount H.sizeof_assoclist_entry r.len ∧
        (objectKeys res).length ≤ recordCount H.sizeof_assoclist_entry IWINFO_BIG_BUFSIZE) ∧
    (∀ (sz : Nat) (len cap : Int), 0 < sz → 0 < len → len ≤ cap → len + sz ≤ 2 ^ 31 →
      recordOffsets sz len =
        some ((List.range (recordCount sz len)).map (fun k : Nat => ((k * sz : Nat) : Int))) ∧
      recordCount sz len ≤ recordCount sz cap ∧
      (∀ k, k < recordCount sz len → ((k * sz : Nat) : Int) < cap) ∧
      (∀ n : Nat, len = ((n * sz : Nat) : Int) →
        recordCount sz len = n ∧ (n : Int) ≤ cap / sz ∧
        ∀ k, k < n → ((k * sz + sz : Nat) : Int) ≤ cap)) := by
  refine ⟨?_, ?_, ?_, ?_, ?_⟩
  · intro r hr hst hlen hcap hsz hov
    exact ⟨_, iwinfo_uc_freqlist_ok H c ifname ops harg hthis halloc r hr hst hlen hsz hov,
      by simp, by simpa using recordCount_mono _ _ _ hcap⟩
  · intro r hr hst hlen hcap hsz hov
    exact ⟨_, iwinfo_uc_txpwrlist_ok H c ifname ops harg hthis halloc r hr hst hlen hsz hov,
      by simp, by simpa using recordCount_mono _ _ _ hcap⟩
  · intro r hr hst hlen hcap hsz hov hdef
    have hch : ∀ k : Nat, ∃ obj, k < recordCount H.sizeof_scanlist_entry r.len →
        scanEntryObject H (r.view ((k * H.sizeof_scanlist_entry : Nat) : Int)) = some obj := by
      intro k
      by_cases hk : k < recordCount H.sizeof_scanlist_entry r.len
      · obtain ⟨obj, hobj⟩ := hdef k hk
        exact ⟨obj, fun _ => hobj⟩
      · exact ⟨[], fun h => absurd h hk⟩
    choose o ho using hch
    exact ⟨_, iwinfo_uc_scanlist_ok H c ifname ops harg hthis halloc r hr hst hlen hsz hov o
      ho, by simp, by simpa using recordCount_mono _ _ _ hcap⟩
  · intro r hr hst hlen hcap hsz hov
    have hle := length_keys_foldl_add_le
      (fun k => mac_snprintf (r.view ((k * H.sizeof_assoclist_entry : Nat) : Int)).mac)
      (fun k => .object (assocEntryObject (r.view ((k * H.sizeof_assoclist_entry : Nat) : Int))))
      ucv_object_new (recordCount H.sizeof_assoclist_entry r.len)
    have h0 : (objectKeys ucv_object_new).length = 0 := rfl
    rw [h0, Nat.zero_add] at hle
    exact ⟨_, iwinfo_uc_assoclist_ok H c ifname ops harg hthis halloc r hr hst hlen hsz hov,
      hle, le_trans hle (recordCount_mono _ _ _ hcap)⟩
  · intro sz len cap hsz hlen hcap hov
    refine ⟨recordOffsets_eq sz len hsz hlen hov, recordCount_mono sz len cap hcap, ?_, ?_⟩
    · intro k hk
      have := offset_lt_len sz len hsz hlen k hk
      omega
    · intro n hn
      have hcount : recordCount sz len = n := by
        rw [hn]; exact recordCount_of_dvd sz n hsz
      refine ⟨hcount, ?_, ?_⟩
      · apply Int.le_ediv_of_mul_le (by exact_mod_cast hsz)
        rw [hn] at hcap
        push_cast at hcap
        exact hcap
      · intro k hk
        have h1 : k * sz + sz ≤ n * sz := by
          have : (k + 1) * sz ≤ n * sz := Nat.mul_le_mul_right sz hk
          rw [Nat.succ_mul] at this
          exact this
        have h2 : ((k * sz + sz : Nat) : Int) ≤ ((n * sz : Nat) : Int) := by exact_mod_cast h1
        omega

/-- C13 (amended) at a concrete input: 24 reported bytes of 12-byte frequency
records, within the capacity 4096, are decoded into two elements. -/
theorem list_ops_count_within_capacity_witness :
    (sampleCall wholeFreqOps).arg0 = .string "wlan0" ∧
    (sampleCall wholeFreqOps).this = some wholeFreqOps ∧
    (sampleCall wholeFreqOps).alloc_ok = true ∧
    (wholeFreqOps.freqlist "wlan0" sampleHeader.IWINFO_BUFSIZE).len ≤
      sampleHeader.IWINFO_BUFSIZE ∧
    recordCount 12 24 = 2 ∧
    (∃ arr, iwinfo_uc_freqlist sampleHeader (sampleCall wholeFreqOps) =
        some (.ret (.array arr)) ∧
      arr.length = recordCount sampleHeader.sizeof_freqlist_entry
        (wholeFreqOps.freqlist "wlan0" sampleHeader.IWINFO_BUFSIZE).len ∧
      arr.length ≤ recordCount sampleHeader.sizeof_freqlist_entry
        sampleHeader.IWINFO_BUFSIZE) :=
  ⟨rfl, rfl, rfl, by decide, by decide,
    (list_ops_count_within_capacity sampleHeader (sampleCall wholeFreqOps)
      "wlan0" wholeFreqOps rfl rfl rfl).1 _ rfl rfl (by decide) (by decide) (by decide)
      (by decide)⟩

end Iwinfo
